import Mathlib

/-! # FreshRSS operator: reconciliation of Deployment, Service and Route

A shallow embedding of `controllers/freshrss_controller.go` and
`api/v1alpha1/freshrss_types.go`.

* Go structs become Lean structures with the Go field names; every field has
  the Go zero value as its default, so `{}` is the zero-valued struct.
* Slices are `List`s (a nil slice and an empty slice are both `[]`; Go's
  `len` and `equality.Semantic.DeepEqual` do not tell them apart either),
  pointers are `Option`s, `int32` constants are `Int`s. A string-keyed map is
  the list of its entries; the controller only builds one-entry maps, and maps
  are otherwise copied or compared as a whole.
* A closure that mutates a captured object becomes a function from the object
  to `Except Err` of the mutated object; that is what the apply engine runs.
  Each merge function is also given statement by statement on the object in
  memory, returning the object after the call together with the error, so that
  the object on the error path can be spoken of.
* The API server is a `Client`: the stored objects, a fault oracle that can
  make any store operation fail, and the log of the operations performed.
* An index expression `xs[0]` is `xs[0]?`; the missing-element case is the
  run-time panic `Err.indexOutOfRange`.
-/

set_option linter.dupNamespace false
set_option linter.unusedVariables false

namespace FreshRSSOperator

/-! ## Errors and results -/

/-- Errors a pass can meet: the API errors of the store, the errors of owner
attachment, the error of `mutate`, and the index panic. -/
inductive Err where
  | notFound
  | alreadyExists
  | conflict
  | unavailable
  | forbidden
  | alreadyOwned
  | crossNamespaceOwner
  | clusterScopedOwner
  | noKindRegistered
  | keyMutated
  | indexOutOfRange
deriving DecidableEq, Repr

/-- The Go predicate `errors.IsNotFound`. -/
def IsNotFound (err : Err) : Bool :=
  decide (err = Err.notFound)

/-- The Go function `client.IgnoreNotFound`: a not-found error becomes nil. -/
def IgnoreNotFound (err : Err) : Option Err :=
  if IsNotFound err then none else some err

/-- The Go type `ctrl.Result`. -/
structure Result where
  Requeue : Bool := false
  RequeueAfter : Nat := 0
deriving DecidableEq, Repr

/-! ## Object metadata -/

/-- A Go `map[string]string`. -/
abbrev Labels := List (String × String)

/-- The Go type `metav1.OwnerReference`; `APIVersion` is kept as its group and
its version. -/
structure OwnerReference where
  Group : String := ""
  Version : String := ""
  Kind : String := ""
  Name : String := ""
  UID : String := ""
  Controller : Option Bool := none
  BlockOwnerDeletion : Option Bool := none
deriving DecidableEq, Repr

/-- The Go type `metav1.ObjectMeta` (the fields the controller reads or
writes, and the labels). -/
structure ObjectMeta where
  Name : String := ""
  Namespace : String := ""
  UID : String := ""
  Labels : Labels := []
  OwnerReferences : List OwnerReference := []
deriving DecidableEq, Repr

/-- The Go type `types.NamespacedName` (`client.ObjectKey`). -/
structure ObjectKey where
  Namespace : String := ""
  Name : String := ""
deriving DecidableEq, Repr

/-- The Go function `client.ObjectKeyFromObject`. -/
def ObjectKeyFromObject (m : ObjectMeta) : ObjectKey :=
  { Namespace := m.Namespace, Name := m.Name }

/-- The Go type `ctrl.Request`. -/
structure Request where
  NamespacedName : ObjectKey := {}
deriving DecidableEq, Repr

/-! ## api/v1alpha1/freshrss_types.go -/

/-- FreshRSSSpec defines the desired state of FreshRSS. -/
structure FreshRSSSpec where
  Title : String := ""
  DefaultUser : String := ""
deriving DecidableEq, Repr

/-- FreshRSSStatus defines the observed state of FreshRSS. -/
structure FreshRSSStatus where
  URL : String := ""
deriving DecidableEq, Repr

/-- FreshRSS is the Schema for the freshrsses API. -/
structure FreshRSS where
  ObjectMeta : ObjectMeta := {}
  Spec : FreshRSSSpec := {}
  Status : FreshRSSStatus := {}
deriving DecidableEq, Repr

/-! ## The managed kinds -/

/-- The Go type `intstr.IntOrString`; the zero value is the integer 0. -/
inductive IntOrString where
  | int (v : Int)
  | str (s : String)
deriving DecidableEq, Repr

/-- The Go function `intstr.FromInt`. -/
def FromInt (v : Int) : IntOrString := IntOrString.int v

/-- The Go constant `corev1.ProtocolTCP`. -/
def ProtocolTCP : String := "TCP"

/-- The Go constant `corev1.PullAlways`. -/
def PullAlways : String := "Always"

/-- The Go constant `routev1.WildcardPolicyNone`. -/
def WildcardPolicyNone : String := "None"

/-- The Go type `corev1.ContainerPort`. -/
structure ContainerPort where
  Name : String := ""
  HostPort : Int := 0
  ContainerPort : Int := 0
  Protocol : String := ""
deriving DecidableEq, Repr

/-- The Go type `corev1.EnvVar`. -/
structure EnvVar where
  Name : String := ""
  Value : String := ""
deriving DecidableEq, Repr

/-- The Go type `corev1.ResourceRequirements`. -/
structure ResourceRequirements where
  Limits : Labels := []
  Requests : Labels := []
deriving DecidableEq, Repr

/-- The Go type `corev1.Container`: the five fields the controller
synthesizes, and fields it does not. -/
structure Container where
  Name : String := ""
  Image : String := ""
  Command : List String := []
  Args : List String := []
  WorkingDir : String := ""
  Ports : List ContainerPort := []
  Env : List EnvVar := []
  Resources : ResourceRequirements := {}
  TerminationMessagePath : String := ""
  ImagePullPolicy : String := ""
deriving DecidableEq, Repr

/-- The Go type `corev1.PodSpec`. -/
structure PodSpec where
  Containers : List Container := []
  RestartPolicy : String := ""
  ServiceAccountName : String := ""
deriving DecidableEq, Repr

/-- The Go type `corev1.PodTemplateSpec`. -/
structure PodTemplateSpec where
  ObjectMeta : ObjectMeta := {}
  Spec : PodSpec := {}
deriving DecidableEq, Repr

/-- The Go type `metav1.LabelSelector`. -/
structure LabelSelector where
  MatchLabels : Labels := []
deriving DecidableEq, Repr

/-- The Go type `appsv1.DeploymentSpec`. -/
structure DeploymentSpec where
  Replicas : Option Int := none
  Selector : Option LabelSelector := none
  Template : PodTemplateSpec := {}
  Paused : Bool := false
deriving DecidableEq, Repr

/-- The Go type `appsv1.Deployment` (the Workload). -/
structure Deployment where
  ObjectMeta : ObjectMeta := {}
  Spec : DeploymentSpec := {}
deriving DecidableEq, Repr

/-- The Go type `corev1.ServicePort`. -/
structure ServicePort where
  Name : String := ""
  Protocol : String := ""
  Port : Int := 0
  TargetPort : IntOrString := IntOrString.int 0
  NodePort : Int := 0
deriving DecidableEq, Repr

/-- The Go type `corev1.ServiceSpec`. -/
structure ServiceSpec where
  Ports : List ServicePort := []
  Selector : Labels := []
  ClusterIP : String := ""
deriving DecidableEq, Repr

/-- The Go type `corev1.Service` (the NetworkEndpoint). -/
structure Service where
  ObjectMeta : ObjectMeta := {}
  Spec : ServiceSpec := {}
deriving DecidableEq, Repr

/-- The Go type `routev1.RouteTargetReference`. -/
structure RouteTargetReference where
  Kind : String := ""
  Name : String := ""
  Weight : Option Int := none
deriving DecidableEq, Repr

/-- The Go type `routev1.RoutePort`. -/
structure RoutePort where
  TargetPort : IntOrString := IntOrString.int 0
deriving DecidableEq, Repr

/-- The Go type `routev1.TLSConfig`. -/
structure TLSConfig where
  Termination : String := ""
  InsecureEdgeTerminationPolicy : String := ""
deriving DecidableEq, Repr

/-- The Go type `routev1.RouteSpec`. -/
structure RouteSpec where
  Host : String := ""
  Path : String := ""
  To : RouteTargetReference := {}
  Port : Option RoutePort := none
  TLS : Option TLSConfig := none
  WildcardPolicy : String := ""
deriving DecidableEq, Repr

/-- The Go type `routev1.RouteIngress`. -/
structure RouteIngress where
  Host : String := ""
  RouterName : String := ""
deriving DecidableEq, Repr

/-- The Go type `routev1.RouteStatus`. -/
structure RouteStatus where
  Ingress : List RouteIngress := []
deriving DecidableEq, Repr

/-- The Go type `routev1.Route` (the ExternalRoute). -/
structure Route where
  ObjectMeta : ObjectMeta := {}
  Spec : RouteSpec := {}
  Status : RouteStatus := {}
deriving DecidableEq, Repr

/-! ## Owner attachment (controllerutil.SetControllerReference) -/

/-- The Go type `schema.GroupVersionKind`. -/
structure GroupVersionKind where
  Group : String := ""
  Version : String := ""
  Kind : String := ""
deriving DecidableEq, Repr

/-- The Go type `runtime.Scheme`, as far as the controller uses it: the kind
registered for the FreshRSS type, if one is. -/
structure Scheme where
  FreshRSS : Option GroupVersionKind := none
deriving DecidableEq, Repr

/-- Modelled from the spec: the check `validateOwner` inside the owner
attachment primitive `setOwner(child, parent) -> error` of the store contract
(controller-runtime, not in this repository): a namespaced owner cannot own a
cluster-scoped object or an object of another namespace. -/
def validateOwner (owner object : ObjectMeta) : Option Err :=
  if owner.Namespace ≠ "" then
    if object.Namespace = "" then some Err.clusterScopedOwner
    else if owner.Namespace ≠ object.Namespace then some Err.crossNamespaceOwner
    else none
  else none

/-- Modelled from the spec: `referSameObject` of the owner attachment
primitive: two owner references name the same object when group, kind and
name agree. -/
def referSameObject (a b : OwnerReference) : Bool :=
  decide (a.Group = b.Group) && decide (a.Kind = b.Kind) && decide (a.Name = b.Name)

/-- Modelled from the spec: `metav1.GetControllerOf`, the first owner
reference whose `Controller` flag is set and true. -/
def GetControllerOf (controllee : ObjectMeta) : Option OwnerReference :=
  controllee.OwnerReferences.find? (fun ref => decide (ref.Controller = some true))

/-- Modelled from the spec: `upsertOwnerRef` of the owner attachment
primitive: the first reference to the same object is overwritten, and when
there is none the reference is appended. -/
def upsertOwnerRef (ref : OwnerReference) : List OwnerReference → List OwnerReference
  | [] => [ref]
  | r :: rs => if referSameObject r ref then ref :: rs else r :: upsertOwnerRef ref rs

/-- Modelled from the spec: the controller reference that the owner attachment
primitive builds for an owner of the given kind. -/
def controllerRef (owner : ObjectMeta) (gvk : GroupVersionKind) : OwnerReference :=
  { Group := gvk.Group
    Version := gvk.Version
    Kind := gvk.Kind
    Name := owner.Name
    UID := owner.UID
    BlockOwnerDeletion := some true
    Controller := some true }

/-- Modelled from the spec: the owner attachment primitive
`setOwner(child, parent) -> error`, which is
`controllerutil.SetControllerReference(owner, controlled, scheme)` of
controller-runtime (not in this repository). It validates the owner, looks up
the owner's kind in the scheme, refuses an object that another controller
owns, and otherwise upserts the controller reference. On error the object is
not touched. -/
def SetControllerReference (owner controlled : ObjectMeta) (scheme : Scheme) :
    Except Err ObjectMeta :=
  match validateOwner owner controlled with
  | some err => Except.error err
  | none =>
    match scheme.FreshRSS with
    | none => Except.error Err.noKindRegistered
    | some gvk =>
      let ref := controllerRef owner gvk
      match GetControllerOf controlled with
      | some existing =>
        if !referSameObject existing ref then Except.error Err.alreadyOwned
        else Except.ok { controlled with OwnerReferences := upsertOwnerRef ref controlled.OwnerReferences }
      | none =>
        Except.ok { controlled with OwnerReferences := upsertOwnerRef ref controlled.OwnerReferences }

/-! ## The store (client.Client) -/

/-- The kinds of object the controller reads or writes. -/
inductive Kind where
  | freshRSS
  | deployment
  | service
  | route
deriving DecidableEq, Repr

/-- The store operations the controller calls. -/
inductive Verb where
  | get
  | create
  | update
  | statusUpdate
deriving DecidableEq, Repr

/-- One store operation as it happened: what was called, on which object, and
the error it returned (`none` for success). -/
structure Op where
  verb : Verb
  kind : Kind
  key : ObjectKey
  err : Option Err
deriving DecidableEq, Repr

/-- The objects the API server holds. -/
structure Store where
  FreshRSSes : List FreshRSS := []
  Deployments : List Deployment := []
  Services : List Service := []
  Routes : List Route := []
deriving DecidableEq, Repr

/-- Modelled from the spec: the store behind `client.Client` (the persistent
object store is an outside collaborator, not in this repository). `fault n`
is the error, if any, that the environment makes the store operation number
`n` fail with (store unavailable, permission denied, conflict, an object
deleted meanwhile, ...); `log` lists the operations performed so far, oldest
first, so that the next operation has number `log.length`. Objects are stored
verbatim. -/
structure Client where
  store : Store := {}
  fault : Nat → Option Err := fun _ => none
  log : List Op := []

/-- The Go interface `client.Object`: a typed object with metadata, and where
the store keeps objects of its type. -/
class ClientObject (α : Type) where
  kind : Kind
  meta : α → ObjectMeta
  list : Store → List α
  setList : Store → List α → Store

instance : ClientObject FreshRSS where
  kind := Kind.freshRSS
  meta := fun o => o.ObjectMeta
  list := fun s => s.FreshRSSes
  setList := fun s l => { s with FreshRSSes := l }

instance : ClientObject Deployment where
  kind := Kind.deployment
  meta := fun o => o.ObjectMeta
  list := fun s => s.Deployments
  setList := fun s l => { s with Deployments := l }

instance : ClientObject Service where
  kind := Kind.service
  meta := fun o => o.ObjectMeta
  list := fun s => s.Services
  setList := fun s l => { s with Services := l }

instance : ClientObject Route where
  kind := Kind.route
  meta := fun o => o.ObjectMeta
  list := fun s => s.Routes
  setList := fun s l => { s with Routes := l }

/-- The store keeps what it is given: reading the objects of a type after
they were set returns them. -/
class LawfulClientObject (α : Type) [ClientObject α] : Prop where
  list_setList : ∀ (s : Store) (l : List α), ClientObject.list (ClientObject.setList s l) = l

instance : LawfulClientObject FreshRSS where
  list_setList := fun _ _ => rfl

instance : LawfulClientObject Deployment where
  list_setList := fun _ _ => rfl

instance : LawfulClientObject Service where
  list_setList := fun _ _ => rfl

instance : LawfulClientObject Route where
  list_setList := fun _ _ => rfl

/-- The key of a typed object. -/
def keyOf {α : Type} [ClientObject α] (obj : α) : ObjectKey :=
  ObjectKeyFromObject (ClientObject.meta obj)

/-- The stored object with the given key, if there is one. -/
def Store.lookup {α : Type} [ClientObject α] (s : Store) (key : ObjectKey) : Option α :=
  (ClientObject.list s).find? (fun o => decide (keyOf o = key))

/-- Overwrite the first object stored under `key` by `obj`. -/
def replaceAt {α : Type} [ClientObject α] (key : ObjectKey) (obj : α) : List α → List α
  | [] => []
  | o :: os => if keyOf o = key then obj :: os else o :: replaceAt key obj os

/-- Append one entry to the log of a client. -/
def Client.record (c : Client) (verb : Verb) (kind : Kind) (key : ObjectKey)
    (err : Option Err) : Client :=
  { c with log := c.log ++ [{ verb := verb, kind := kind, key := key, err := err }] }

/-- Modelled from the spec: `get(kind, namespace, name) -> object | NotFound`.
The Go call `c.Get(ctx, key, obj)` overwrites `obj` with the stored object on
success and leaves it alone on error. -/
def Client.Get {α : Type} [ClientObject α] (c : Client) (key : ObjectKey) :
    Except Err α × Client :=
  match c.fault c.log.length with
  | some err => (Except.error err, c.record Verb.get (ClientObject.kind α) key (some err))
  | none =>
    match (c.store.lookup key : Option α) with
    | none => (Except.error Err.notFound, c.record Verb.get (ClientObject.kind α) key (some Err.notFound))
    | some obj => (Except.ok obj, c.record Verb.get (ClientObject.kind α) key none)

/-- Modelled from the spec: `create(object) -> object | error`. -/
def Client.Create {α : Type} [ClientObject α] (c : Client) (obj : α) : Option Err × Client :=
  match c.fault c.log.length with
  | some err => (some err, c.record Verb.create (ClientObject.kind α) (keyOf obj) (some err))
  | none =>
    match (c.store.lookup (keyOf obj) : Option α) with
    | some _ => (some Err.alreadyExists, c.record Verb.create (ClientObject.kind α) (keyOf obj) (some Err.alreadyExists))
    | none =>
      (none, { c with store := ClientObject.setList c.store (ClientObject.list c.store ++ [obj]) }.record
        Verb.create (ClientObject.kind α) (keyOf obj) none)

/-- Modelled from the spec: `update(object) -> object | ConflictError | error`. -/
def Client.Update {α : Type} [ClientObject α] (c : Client) (obj : α) : Option Err × Client :=
  match c.fault c.log.length with
  | some err => (some err, c.record Verb.update (ClientObject.kind α) (keyOf obj) (some err))
  | none =>
    match (c.store.lookup (keyOf obj) : Option α) with
    | none => (some Err.notFound, c.record Verb.update (ClientObject.kind α) (keyOf obj) (some Err.notFound))
    | some _ =>
      (none, { c with store := ClientObject.setList c.store (replaceAt (keyOf obj) obj (ClientObject.list c.store)) }.record
        Verb.update (ClientObject.kind α) (keyOf obj) none)

/-- Modelled from the spec: the status-subresource update path,
`r.Status().Update(ctx, instance)`: only the status of the stored FreshRSS is
overwritten. -/
def Client.StatusUpdate (c : Client) (inst : FreshRSS) : Option Err × Client :=
  match c.fault c.log.length with
  | some err => (some err, c.record Verb.statusUpdate Kind.freshRSS (keyOf inst) (some err))
  | none =>
    match (c.store.lookup (keyOf inst) : Option FreshRSS) with
    | none => (some Err.notFound, c.record Verb.statusUpdate Kind.freshRSS (keyOf inst) (some Err.notFound))
    | some stored =>
      (none, { c with store := { c.store with
                  FreshRSSes := replaceAt (keyOf inst) { stored with Status := inst.Status } c.store.FreshRSSes } }.record
        Verb.statusUpdate Kind.freshRSS (keyOf inst) none)

/-! ## The apply engine (controllerutil.CreateOrUpdate) -/

/-- The Go type `controllerutil.OperationResult`: `None` is Unchanged. -/
inductive OperationResult where
  | None
  | Created
  | Updated
deriving DecidableEq, Repr

/-- The Go type `controllerutil.MutateFn`: the closure mutates the object it
captured, so here it maps the object to the mutated object. -/
abbrev MutateFn (α : Type) := α → Except Err α

/-- Modelled from the spec: `mutate` of the apply engine: run the merge
function and refuse a changed name or namespace. -/
def mutate {α : Type} [ClientObject α] (f : MutateFn α) (key : ObjectKey) (obj : α) :
    Except Err α :=
  match f obj with
  | Except.error err => Except.error err
  | Except.ok obj =>
    if key ≠ keyOf obj then Except.error Err.keyMutated else Except.ok obj

/-- Modelled from the spec: `apply(store, identity, skeletonObject, mergeFn)
-> (outcome, error)`, which is `controllerutil.CreateOrUpdate` of
controller-runtime (not in this repository). It fetches the object at the
skeleton's key; when absent it runs the merge function on the skeleton and
creates the result; when present it runs the merge function on the fetched
object and updates only when the result differs from what was fetched. -/
def CreateOrUpdate {α : Type} [ClientObject α] [DecidableEq α] (c : Client) (obj : α)
    (f : MutateFn α) : Except Err OperationResult × Client :=
  let key := keyOf obj
  match (c.Get key : Except Err α × Client) with
  | (Except.error err, c) =>
    if !IsNotFound err then (Except.error err, c)
    else
      match mutate f key obj with
      | Except.error err => (Except.error err, c)
      | Except.ok obj =>
        match c.Create obj with
        | (some err, c) => (Except.error err, c)
        | (none, c) => (Except.ok OperationResult.Created, c)
  | (Except.ok obj, c) =>
    let existing := obj
    match mutate f key obj with
    | Except.error err => (Except.error err, c)
    | Except.ok obj =>
      if existing = obj then (Except.ok OperationResult.None, c)
      else
        match c.Update obj with
        | (some err, c) => (Except.error err, c)
        | (none, c) => (Except.ok OperationResult.Updated, c)

/-! ## controllers/freshrss_controller.go -/

/-- FreshRSSReconciler reconciles a FreshRSS object. -/
structure FreshRSSReconciler where
  Client : Client := {}
  Scheme : Scheme := {}

/-- The Go type `NewComponentFn`: the skeleton object, the merge function,
and an error. -/
abbrev NewComponentFn (α : Type) := FreshRSS → Except Err (α × MutateFn α)

/-- The Go type `component`, with the type of the object its constructor
returns. -/
structure component where
  name : String
  reason : String
  α : Type
  [obj : ClientObject α]
  [eq : DecidableEq α]
  fn : NewComponentFn α

/-- The object literal `route` of `newRoute`. -/
def newRoute.route (inst : FreshRSS) : Route :=
  { ObjectMeta := { Name := inst.ObjectMeta.Name, Namespace := inst.ObjectMeta.Namespace } }

/-- The value `routeSpec` of `newRoute`. -/
def newRoute.routeSpec (inst : FreshRSS) : RouteSpec :=
  { To := { Kind := "Service", Name := inst.ObjectMeta.Name, Weight := some 100 }
    Port := some { TargetPort := FromInt 8080 }
    WildcardPolicy := WildcardPolicyNone }

/-- The closure `mutateFn` of `newRoute`, applied to the route it captured. -/
def FreshRSSReconciler.newRoute.mutateFn (r : FreshRSSReconciler) (inst : FreshRSS) :
    MutateFn Route := fun route =>
  match SetControllerReference inst.ObjectMeta route.ObjectMeta r.Scheme with
  | Except.error err => Except.error err
  | Except.ok m =>
    let route := { route with ObjectMeta := m }
    -- don't clobber other values set in the route spec
    let route := { route with Spec := { route.Spec with To := (newRoute.routeSpec inst).To } }
    let route := { route with Spec := { route.Spec with Port := (newRoute.routeSpec inst).Port } }
    let route := { route with Spec := { route.Spec with WildcardPolicy := (newRoute.routeSpec inst).WildcardPolicy } }
    Except.ok route

/-- The Go method `newRoute`. -/
def FreshRSSReconciler.newRoute (r : FreshRSSReconciler) : NewComponentFn Route := fun inst =>
  Except.ok (newRoute.route inst, FreshRSSReconciler.newRoute.mutateFn r inst)

/-- The map `labels` of `newService`. -/
def newService.labels (inst : FreshRSS) : Labels :=
  [("app", inst.ObjectMeta.Name)]

/-- The object literal `service` of `newService`. -/
def newService.service (inst : FreshRSS) : Service :=
  { ObjectMeta := { Name := inst.ObjectMeta.Name, Namespace := inst.ObjectMeta.Namespace } }

/-- The closure `mutateFn` of `newService`, applied to the service it
captured. -/
def FreshRSSReconciler.newService.mutateFn (r : FreshRSSReconciler) (inst : FreshRSS) :
    MutateFn Service := fun service =>
  match SetControllerReference inst.ObjectMeta service.ObjectMeta r.Scheme with
  | Except.error err => Except.error err
  | Except.ok m =>
    let service := { service with ObjectMeta := m }
    let service := { service with Spec := { service.Spec with
      Ports := [{ Port := 80, TargetPort := FromInt 8080, Protocol := ProtocolTCP }] } }
    let service := { service with Spec := { service.Spec with Selector := newService.labels inst } }
    Except.ok service

/-- The Go method `newService`. -/
def FreshRSSReconciler.newService (r : FreshRSSReconciler) : NewComponentFn Service := fun inst =>
  Except.ok (newService.service inst, FreshRSSReconciler.newService.mutateFn r inst)

/-- The value `container` of `newDeployment`. -/
def newDeployment.container (inst : FreshRSS) : Container :=
  { Name := "freshrss"
    Image := "quay.io/saas-patterns/freshrss-image:latest"
    Ports := [{ ContainerPort := 8080, Protocol := ProtocolTCP }]
    ImagePullPolicy := PullAlways
    Env := [{ Name := "TITLE", Value := inst.Spec.Title },
            { Name := "DEFAULTUSER", Value := inst.Spec.DefaultUser }] }

/-- The map `labels` of `newDeployment`. -/
def newDeployment.labels (inst : FreshRSS) : Labels :=
  [("app", inst.ObjectMeta.Name)]

/-- The object literal `deployment` of `newDeployment`. -/
def newDeployment.deployment (inst : FreshRSS) : Deployment :=
  { ObjectMeta := { Name := inst.ObjectMeta.Name, Namespace := inst.ObjectMeta.Namespace }
    Spec :=
      { Selector := some { MatchLabels := newDeployment.labels inst }
        Template :=
          { ObjectMeta := { Labels := newDeployment.labels inst, Name := inst.ObjectMeta.Name } } } }

/-- The closure `mutateFn` of `newDeployment`, applied to the deployment it
captured. In the branch for exactly one container, `c` is a copy of the slice
element (`Containers` is a slice of struct values), and the five assignments
write to that copy. -/
def FreshRSSReconciler.newDeployment.mutateFn (r : FreshRSSReconciler) (inst : FreshRSS) :
    MutateFn Deployment := fun deployment =>
  match SetControllerReference inst.ObjectMeta deployment.ObjectMeta r.Scheme with
  | Except.error err => Except.error err
  | Except.ok m =>
    let deployment := { deployment with ObjectMeta := m }
    let replicas : Int := 1
    let deployment := { deployment with Spec := { deployment.Spec with Replicas := some replicas } }
    -- don't clobber fields that were defaulted
    if deployment.Spec.Template.Spec.Containers.length ≠ 1 then
      Except.ok { deployment with Spec := { deployment.Spec with Template := { deployment.Spec.Template with
        Spec := { deployment.Spec.Template.Spec with Containers := [newDeployment.container inst] } } } }
    else
      match deployment.Spec.Template.Spec.Containers[0]? with
      | none => Except.error Err.indexOutOfRange
      | some c =>
        let c := { c with Name := (newDeployment.container inst).Name }
        let c := { c with Image := (newDeployment.container inst).Image }
        let c := { c with Ports := (newDeployment.container inst).Ports }
        let c := { c with ImagePullPolicy := (newDeployment.container inst).ImagePullPolicy }
        let c := { c with Env := (newDeployment.container inst).Env }
        Except.ok deployment

/-- The Go method `newDeployment`. -/
def FreshRSSReconciler.newDeployment (r : FreshRSSReconciler) : NewComponentFn Deployment :=
  fun inst =>
  Except.ok (newDeployment.deployment inst, FreshRSSReconciler.newDeployment.mutateFn r inst)

/-- The slice literal the loop of `Reconcile` ranges over. -/
def FreshRSSReconciler.components (r : FreshRSSReconciler) : List component :=
  [ { name := "Deployment", reason := "", α := Deployment, fn := r.newDeployment },
    { name := "Service", reason := "", α := Service, fn := r.newService },
    { name := "Route", reason := "", α := Route, fn := r.newRoute } ]

/-- The `for` loop of `Reconcile` (lines 59-83) over the remaining components:
`some ret` when the body returned `ret`, `none` when the loop ran to its
end. -/
def Reconcile.loop (inst : FreshRSS) : List component → Client →
    Option (Result × Option Err) × Client
  | [], c => (none, c)
  | comp :: rest, c =>
    match comp.fn inst with
    | Except.error err => (some ({}, some err), c)
    | Except.ok (obj, mutateFn) =>
      match @CreateOrUpdate comp.α comp.obj comp.eq c obj mutateFn with
      | (Except.error err, c) => (some ({}, some err), c)
      | (Except.ok OperationResult.Created, c) => (some ({}, none), c)
      | (Except.ok OperationResult.Updated, c) => (some ({}, none), c)
      | (Except.ok OperationResult.None, c) => Reconcile.loop inst rest c

/-- The status projection of `Reconcile` (lines 93-100): the FreshRSS as it
is handed to the status update. -/
def Reconcile.projectStatus (inst : FreshRSS) (route : Route) : Except Err FreshRSS :=
  if route.Status.Ingress.length = 1 then
    match route.Status.Ingress[0]? with
    | none => Except.error Err.indexOutOfRange
    | some ingress0 =>
      let inst := { inst with Status := { inst.Status with URL := ingress0.Host } }
      if ingress0.Host = "" then
        Except.ok { inst with Status := { inst.Status with URL := "" } }
      else
        Except.ok { inst with Status := { inst.Status with URL := "http://" ++ ingress0.Host } }
  else
    Except.ok inst

/-- The end of `Reconcile` (lines 93-102): project the status from the route
and update the status of the FreshRSS. -/
def Reconcile.updateStatus (inst : FreshRSS) (route : Route) (c : Client) :
    (Result × Option Err) × Client :=
  match Reconcile.projectStatus inst route with
  | Except.error err => (({}, some err), c)
  | Except.ok inst =>
    match c.StatusUpdate inst with
    | (err, c) => (({}, err), c)

/-- The Go method `Reconcile`: the returned pair `(ctrl.Result, error)` and
the client after the call. -/
def FreshRSSReconciler.Reconcile (r : FreshRSSReconciler) (req : Request) :
    (Result × Option Err) × FreshRSSOperator.Client :=
  match (r.Client.Get req.NamespacedName : Except Err FreshRSS × FreshRSSOperator.Client) with
  | (Except.error err, c) => (({}, IgnoreNotFound err), c)
  | (Except.ok inst, c) =>
    match Reconcile.loop inst r.components c with
    | (some ret, c) => (ret, c)
    | (none, c) =>
      match (c.Get req.NamespacedName : Except Err Route × FreshRSSOperator.Client) with
      | (Except.error err, c) =>
        if !IsNotFound err then (({}, some err), c)
        else Reconcile.updateStatus inst {} c
      | (Except.ok route, c) => Reconcile.updateStatus inst route c

/-- The reconciler as one invocation of `Reconcile` leaves it: the same
scheme, and the client after the call. -/
def FreshRSSReconciler.afterReconcile (r : FreshRSSReconciler) (req : Request) :
    FreshRSSReconciler :=
  { Client := (r.Reconcile req).2, Scheme := r.Scheme }

/-! ## The merge functions as they act on the object in memory

A Go merge function assigns to the fields of the object it captured and
returns an error. The definitions of this section keep the object on the error
path too: they return the object as it is in memory after the call, and the
error. -/

/-- What a caller that looks at the object only when the error is nil sees of
a function that mutates in place: the object on success, the error alone
otherwise. -/
def MutateFn.ofInPlace {α : Type} (f : α → α × Option Err) : MutateFn α := fun obj =>
  match f obj with
  | (obj, none) => Except.ok obj
  | (_, some err) => Except.error err

/-- Modelled from the spec: the owner attachment primitive
`setOwner(child, parent) -> error` as it acts on the metadata in memory: the
metadata after the call, and the error. Every check comes before the upsert,
so on error the metadata is returned as it was. -/
def SetControllerReference.inPlace (owner controlled : ObjectMeta) (scheme : Scheme) :
    ObjectMeta × Option Err :=
  match validateOwner owner controlled with
  | some err => (controlled, some err)
  | none =>
    match scheme.FreshRSS with
    | none => (controlled, some Err.noKindRegistered)
    | some gvk =>
      let ref := controllerRef owner gvk
      match GetControllerOf controlled with
      | some existing =>
        if !referSameObject existing ref then (controlled, some Err.alreadyOwned)
        else ({ controlled with OwnerReferences := upsertOwnerRef ref controlled.OwnerReferences }, none)
      | none =>
        ({ controlled with OwnerReferences := upsertOwnerRef ref controlled.OwnerReferences }, none)

/-- The closure `mutateFn` of `newRoute` (lines 125-135), statement by
statement on the route in memory: the route after the call, and the error. -/
def FreshRSSReconciler.newRoute.mutateFn.inPlace (r : FreshRSSReconciler) (inst : FreshRSS)
    (route : Route) : Route × Option Err :=
  match SetControllerReference.inPlace inst.ObjectMeta route.ObjectMeta r.Scheme with
  | (m, some err) => ({ route with ObjectMeta := m }, some err)
  | (m, none) =>
    let route := { route with ObjectMeta := m }
    -- don't clobber other values set in the route spec
    let route := { route with Spec := { route.Spec with To := (newRoute.routeSpec inst).To } }
    let route := { route with Spec := { route.Spec with Port := (newRoute.routeSpec inst).Port } }
    let route := { route with Spec := { route.Spec with WildcardPolicy := (newRoute.routeSpec inst).WildcardPolicy } }
    (route, none)

/-- The closure `mutateFn` of `newService` (lines 153-168), statement by
statement on the service in memory: the service after the call, and the
error. -/
def FreshRSSReconciler.newService.mutateFn.inPlace (r : FreshRSSReconciler) (inst : FreshRSS)
    (service : Service) : Service × Option Err :=
  match SetControllerReference.inPlace inst.ObjectMeta service.ObjectMeta r.Scheme with
  | (m, some err) => ({ service with ObjectMeta := m }, some err)
  | (m, none) =>
    let service := { service with ObjectMeta := m }
    let service := { service with Spec := { service.Spec with
      Ports := [{ Port := 80, TargetPort := FromInt 8080, Protocol := ProtocolTCP }] } }
    let service := { service with Spec := { service.Spec with Selector := newService.labels inst } }
    (service, none)

/-- The closure `mutateFn` of `newDeployment` (lines 218-238), statement by
statement on the deployment in memory: the deployment after the call, and the
error. -/
def FreshRSSReconciler.newDeployment.mutateFn.inPlace (r : FreshRSSReconciler)
    (inst : FreshRSS) (deployment : Deployment) : Deployment × Option Err :=
  match SetControllerReference.inPlace inst.ObjectMeta deployment.ObjectMeta r.Scheme with
  | (m, some err) => ({ deployment with ObjectMeta := m }, some err)
  | (m, none) =>
    let deployment := { deployment with ObjectMeta := m }
    let replicas : Int := 1
    let deployment := { deployment with Spec := { deployment.Spec with Replicas := some replicas } }
    -- don't clobber fields that were defaulted
    if deployment.Spec.Template.Spec.Containers.length ≠ 1 then
      ({ deployment with Spec := { deployment.Spec with Template := { deployment.Spec.Template with
        Spec := { deployment.Spec.Template.Spec with Containers := [newDeployment.container inst] } } } },
        none)
    else
      match deployment.Spec.Template.Spec.Containers[0]? with
      | none => (deployment, some Err.indexOutOfRange)
      | some c =>
        let c := { c with Name := (newDeployment.container inst).Name }
        let c := { c with Image := (newDeployment.container inst).Image }
        let c := { c with Ports := (newDeployment.container inst).Ports }
        let c := { c with ImagePullPolicy := (newDeployment.container inst).ImagePullPolicy }
        let c := { c with Env := (newDeployment.container inst).Env }
        (deployment, none)

/-! ## Reading the log -/

/-- The store operations performed between two states of the client. -/
def opsSince (before after : Client) : List Op :=
  after.log.drop before.log.length

/-- Whether a store operation is a fetch of the Route. -/
def Op.isRouteGet (op : Op) : Bool :=
  decide (op.verb = Verb.get) && decide (op.kind = Kind.route)

/-- Whether a store operation writes: a create, an update or a status
update. -/
def Op.isWrite (op : Op) : Bool :=
  decide (op.verb ≠ Verb.get)

/-! ## Concrete objects used to exercise the definitions -/

/-- A scheme in which the FreshRSS kind is registered. -/
def demoScheme : Scheme :=
  { FreshRSS := some { Group := "freshrss.demo.openshift.com", Version := "v1alpha1", Kind := "FreshRSS" } }

/-- A FreshRSS named `rss` in namespace `demo` with title `A`. -/
def demoA : FreshRSS :=
  { ObjectMeta := { Name := "rss", Namespace := "demo", UID := "uid-1" }
    Spec := { Title := "A", DefaultUser := "admin" } }

/-- The same FreshRSS after its title was changed to `B`. -/
def demoB : FreshRSS :=
  { ObjectMeta := { Name := "rss", Namespace := "demo", UID := "uid-1" }
    Spec := { Title := "B", DefaultUser := "admin" } }

/-- The same FreshRSS holding a URL from an earlier pass. -/
def demoStale : FreshRSS :=
  { ObjectMeta := { Name := "rss", Namespace := "demo", UID := "uid-1" }
    Spec := { Title := "A", DefaultUser := "admin" }
    Status := { URL := "http://old.example.com" } }

/-- The request for `demo/rss`. -/
def demoRequest : Request :=
  { NamespacedName := { Namespace := "demo", Name := "rss" } }

/-- The controller reference to `demoA`. -/
def demoOwnerRef : OwnerReference :=
  { Group := "freshrss.demo.openshift.com", Version := "v1alpha1", Kind := "FreshRSS"
    Name := "rss", UID := "uid-1", Controller := some true, BlockOwnerDeletion := some true }

/-- The container as synthesized for title `A`. -/
def demoContainerA : Container :=
  { Name := "freshrss"
    Image := "quay.io/saas-patterns/freshrss-image:latest"
    Ports := [{ ContainerPort := 8080, Protocol := "TCP" }]
    ImagePullPolicy := "Always"
    Env := [{ Name := "TITLE", Value := "A" }, { Name := "DEFAULTUSER", Value := "admin" }] }

/-- The Deployment as the controller creates it for `demoA`. -/
def demoLiveA : Deployment :=
  { ObjectMeta := { Name := "rss", Namespace := "demo", OwnerReferences := [demoOwnerRef] }
    Spec :=
      { Replicas := some 1
        Selector := some { MatchLabels := [("app", "rss")] }
        Template :=
          { ObjectMeta := { Name := "rss", Labels := [("app", "rss")] }
            Spec := { Containers := [demoContainerA] } } } }

/-- A live Deployment whose single container carries a memory limit and a
defaulted field that the controller does not synthesize. -/
def demoLimited : Deployment :=
  { ObjectMeta := { Name := "rss", Namespace := "demo", OwnerReferences := [demoOwnerRef] }
    Spec :=
      { Replicas := some 1
        Selector := some { MatchLabels := [("app", "rss")] }
        Template :=
          { ObjectMeta := { Name := "rss", Labels := [("app", "rss")] }
            Spec := { Containers := [{ demoContainerA with
              Resources := { Limits := [("memory", "256Mi")] }
              TerminationMessagePath := "/dev/termination-log" }] } } } }

/-- A live Deployment with three replicas whose selector and template labels
are not `app: rss`. -/
def demoDrifted : Deployment :=
  { ObjectMeta := { Name := "rss", Namespace := "demo", OwnerReferences := [demoOwnerRef] }
    Spec :=
      { Replicas := some 3
        Selector := some { MatchLabels := [("app", "other")] }
        Template :=
          { ObjectMeta := { Name := "rss", Labels := [("app", "other")] }
            Spec := { Containers := [demoContainerA] } } } }

/-- A live Deployment without containers, scaled to five replicas. -/
def demoEmpty : Deployment :=
  { ObjectMeta := { Name := "rss", Namespace := "demo" }
    Spec := { Replicas := some 5 } }

/-- The Service as the controller creates it for `demoA`. -/
def demoService : Service :=
  { ObjectMeta := { Name := "rss", Namespace := "demo", OwnerReferences := [demoOwnerRef] }
    Spec :=
      { Ports := [{ Port := 80, TargetPort := IntOrString.int 8080, Protocol := "TCP" }]
        Selector := [("app", "rss")] } }

/-- The Route as the controller creates it for `demoA`, exposed by a router
under one host. -/
def demoRoute : Route :=
  { ObjectMeta := { Name := "rss", Namespace := "demo", OwnerReferences := [demoOwnerRef] }
    Spec :=
      { To := { Kind := "Service", Name := "rss", Weight := some 100 }
        Port := some { TargetPort := IntOrString.int 8080 }
        WildcardPolicy := "None" }
    Status := { Ingress := [{ Host := "example.com", RouterName := "default" }] } }

/-- What the Workload merge for `demoA` makes of `demoEmpty`. -/
def demoEmptyMerged : Deployment :=
  { ObjectMeta := { Name := "rss", Namespace := "demo", OwnerReferences := [demoOwnerRef] }
    Spec :=
      { Replicas := some 1
        Template := { Spec := { Containers := [demoContainerA] } } } }

/-- The Route of `demoA` before any router exposed it: no host is reported. -/
def demoRouteNoHost : Route :=
  { ObjectMeta := { Name := "rss", Namespace := "demo", OwnerReferences := [demoOwnerRef] }
    Spec :=
      { To := { Kind := "Service", Name := "rss", Weight := some 100 }
        Port := some { TargetPort := IntOrString.int 8080 }
        WildcardPolicy := "None" } }

/-- A reconciler whose store holds `demoStale`, the managed resources as the
controller creates them, and a Route that reports no host. -/
def demoStaleStore : FreshRSSReconciler :=
  { Scheme := demoScheme
    Client := { store :=
      { FreshRSSes := [demoStale], Deployments := [demoLiveA], Services := [demoService],
        Routes := [demoRouteNoHost] } } }

/-- A reconciler over an empty store. -/
def demoReconciler : FreshRSSReconciler :=
  { Scheme := demoScheme }

/-- A reconciler whose store holds `demoA` and no managed resource. -/
def demoFresh : FreshRSSReconciler :=
  { Scheme := demoScheme
    Client := { store := { FreshRSSes := [demoA] } } }

/-- A reconciler whose store holds `demoB` and the Deployment synthesized
earlier for title `A`. -/
def demoRetitled : FreshRSSReconciler :=
  { Scheme := demoScheme
    Client := { store := { FreshRSSes := [demoB], Deployments := [demoLiveA] } } }

/-- A reconciler whose store holds `demoA` and the drifted Deployment. -/
def demoDriftedStore : FreshRSSReconciler :=
  { Scheme := demoScheme
    Client := { store := { FreshRSSes := [demoA], Deployments := [demoDrifted] } } }

/-- A reconciler whose store holds `demoA` and all three managed resources as
the controller creates them. -/
def demoConverged : FreshRSSReconciler :=
  { Scheme := demoScheme
    Client := { store :=
      { FreshRSSes := [demoA], Deployments := [demoLiveA], Services := [demoService],
        Routes := [demoRoute] } } }

/-! ## More concrete objects, and successive passes -/

/-- A live Route of `demoA` with a host, a path and TLS set by someone else,
and with a target, port and wildcard policy that are not the controller's. -/
def demoRouteCustom : Route :=
  { ObjectMeta := { Name := "rss", Namespace := "demo" }
    Spec :=
      { Host := "rss.example.com"
        Path := "/reader"
        To := { Kind := "Service", Name := "old", Weight := some 50 }
        Port := some { TargetPort := IntOrString.str "http" }
        TLS := some { Termination := "edge", InsecureEdgeTerminationPolicy := "Redirect" }
        WildcardPolicy := "Subdomain" }
    Status := { Ingress := [{ Host := "rss.example.com", RouterName := "default" }] } }

/-- What the ExternalRoute merge for `demoA` makes of `demoRouteCustom`. -/
def demoRouteCustomMerged : Route :=
  { ObjectMeta := { Name := "rss", Namespace := "demo", OwnerReferences := [demoOwnerRef] }
    Spec :=
      { Host := "rss.example.com"
        Path := "/reader"
        To := { Kind := "Service", Name := "rss", Weight := some 100 }
        Port := some { TargetPort := IntOrString.int 8080 }
        TLS := some { Termination := "edge", InsecureEdgeTerminationPolicy := "Redirect" }
        WildcardPolicy := "None" }
    Status := { Ingress := [{ Host := "rss.example.com", RouterName := "default" }] } }

/-- A live Service of `demoA` with two ports and a two-entry selector that are
not the controller's, and a cluster IP. -/
def demoServiceCustom : Service :=
  { ObjectMeta := { Name := "rss", Namespace := "demo" }
    Spec :=
      { Ports := [{ Name := "https", Port := 443, TargetPort := IntOrString.int 8443, Protocol := "TCP" },
                  { Name := "dns", Port := 53, TargetPort := IntOrString.int 53, Protocol := "UDP" }]
        Selector := [("app", "old"), ("tier", "web")]
        ClusterIP := "10.0.0.7" } }

/-- What the NetworkEndpoint merge for `demoA` makes of `demoServiceCustom`. -/
def demoServiceCustomMerged : Service :=
  { ObjectMeta := { Name := "rss", Namespace := "demo", OwnerReferences := [demoOwnerRef] }
    Spec :=
      { Ports := [{ Port := 80, TargetPort := IntOrString.int 8080, Protocol := "TCP" }]
        Selector := [("app", "rss")]
        ClusterIP := "10.0.0.7" } }

/-- What the Workload merge for `demoA` makes of `demoDrifted`. -/
def demoDriftedMerged : Deployment :=
  { ObjectMeta := { Name := "rss", Namespace := "demo", OwnerReferences := [demoOwnerRef] }
    Spec :=
      { Replicas := some 1
        Selector := some { MatchLabels := [("app", "other")] }
        Template :=
          { ObjectMeta := { Name := "rss", Labels := [("app", "other")] }
            Spec := { Containers := [demoContainerA] } } } }

/-- A reconciler whose store holds `demoA` but whose every store operation
fails with an unavailable store. -/
def demoUnavailable : FreshRSSReconciler :=
  { Scheme := demoScheme
    Client := { store := { FreshRSSes := [demoA] }, fault := fun _ => some Err.unavailable } }

/-- A controller reference to some other owner. -/
def demoForeignRef : OwnerReference :=
  { Group := "apps", Version := "v1", Kind := "ReplicaSet"
    Name := "someone-else", UID := "uid-9", Controller := some true, BlockOwnerDeletion := some true }

/-- A live Deployment named like the one of `demoA` but controlled by another
owner, with no container and five replicas. -/
def demoForeign : Deployment :=
  { ObjectMeta := { Name := "rss", Namespace := "demo", OwnerReferences := [demoForeignRef] }
    Spec := { Replicas := some 5 } }

/-- A reconciler whose store holds `demoA` and the Deployment of another
owner. -/
def demoForeignStore : FreshRSSReconciler :=
  { Scheme := demoScheme
    Client := { store := { FreshRSSes := [demoA], Deployments := [demoForeign] } } }

/-- A reconciler whose store holds `demoA` and the drifted Deployment, and
whose third store operation fails with a conflict. -/
def demoConflict : FreshRSSReconciler :=
  { Scheme := demoScheme
    Client :=
      { store := { FreshRSSes := [demoA], Deployments := [demoDrifted] }
        fault := fun n => if n = 2 then some Err.conflict else none } }

/-- The converged store of `demoStale`, where the fifth store operation, the
fetch of the route for the status, reports not-found. -/
def demoRouteGone : FreshRSSReconciler :=
  { Scheme := demoScheme
    Client :=
      { store :=
          { FreshRSSes := [demoStale], Deployments := [demoLiveA], Services := [demoService],
            Routes := [demoRoute] }
        fault := fun n => if n = 4 then some Err.notFound else none } }

/-- The converged store of `demoStale`, where the fifth store operation, the
fetch of the route for the status, is forbidden. -/
def demoRouteForbidden : FreshRSSReconciler :=
  { Scheme := demoScheme
    Client :=
      { store :=
          { FreshRSSes := [demoStale], Deployments := [demoLiveA], Services := [demoService],
            Routes := [demoRoute] }
        fault := fun n => if n = 4 then some Err.forbidden else none } }

/-- The reconciler after `n` successive invocations of `Reconcile` for the
same request. -/
def FreshRSSReconciler.afterPasses (r : FreshRSSReconciler) (req : Request) :
    Nat → FreshRSSReconciler
  | 0 => r
  | n + 1 => (FreshRSSReconciler.afterPasses r req n).afterReconcile req

/-! # Theorems -/

/-! ## Owner attachment -/

theorem referSameObject_self (a : OwnerReference) : referSameObject a a = true := by
  simp [referSameObject]

theorem upsertOwnerRef_idem (ref : OwnerReference) (l : List OwnerReference) :
    upsertOwnerRef ref (upsertOwnerRef ref l) = upsertOwnerRef ref l := by
  induction l with
  | nil => simp [upsertOwnerRef, referSameObject_self]
  | cons r rs ih =>
    by_cases h : referSameObject r ref = true
    · simp [upsertOwnerRef, h, referSameObject_self]
    · simp [upsertOwnerRef, h, ih]

theorem controller_of_upsert (ref : OwnerReference) (hc : ref.Controller = some true)
    (l : List OwnerReference)
    (h : ∀ e, l.find? (fun x => decide (x.Controller = some true)) = some e →
      referSameObject e ref = true) :
    ∃ x, (upsertOwnerRef ref l).find? (fun x => decide (x.Controller = some true)) = some x ∧
      referSameObject x ref = true := by
  induction l with
  | nil => exact ⟨ref, by simp [upsertOwnerRef, hc], referSameObject_self ref⟩
  | cons r rs ih =>
    by_cases hs : referSameObject r ref = true
    · exact ⟨ref, by simp [upsertOwnerRef, hs, hc], referSameObject_self ref⟩
    · by_cases hr : r.Controller = some true
      · exact absurd (h r (by simp [List.find?, hr])) hs
      · have h2 : ∀ e, rs.find? (fun x => decide (x.Controller = some true)) = some e →
            referSameObject e ref = true := by
          intro e he
          exact h e (by simp [List.find?, hr, he])
        obtain ⟨x, hx, hsx⟩ := ih h2
        exact ⟨x, by simp [upsertOwnerRef, hs, List.find?, hr, hx], hsx⟩

/-- What a successful owner attachment returns. -/
theorem SetControllerReference_ok {owner controlled m : ObjectMeta} {scheme : Scheme}
    (h : SetControllerReference owner controlled scheme = Except.ok m) :
    ∃ gvk, scheme.FreshRSS = some gvk ∧ validateOwner owner controlled = none ∧
      (∀ e, GetControllerOf controlled = some e → referSameObject e (controllerRef owner gvk) = true) ∧
      m = { controlled with OwnerReferences := upsertOwnerRef (controllerRef owner gvk) controlled.OwnerReferences } := by
  unfold SetControllerReference at h
  cases hv : validateOwner owner controlled with
  | some e => simp [hv] at h
  | none =>
    cases hg : scheme.FreshRSS with
    | none => simp [hv, hg] at h
    | some gvk =>
      cases hc : GetControllerOf controlled with
      | none =>
        simp [hv, hg, hc] at h
        exact ⟨gvk, rfl, rfl, by simp, h.symm⟩
      | some e =>
        simp only [hv, hg, hc] at h
        cases hs : referSameObject e (controllerRef owner gvk) with
        | false => simp [hs] at h
        | true =>
          simp [hs] at h
          exact ⟨gvk, rfl, rfl, by simp [hs], h.symm⟩

theorem SetControllerReference_idem {owner controlled m : ObjectMeta} {scheme : Scheme}
    (h : SetControllerReference owner controlled scheme = Except.ok m) :
    SetControllerReference owner m scheme = Except.ok m := by
  obtain ⟨gvk, hg, hv, hc, hm⟩ := SetControllerReference_ok h
  obtain ⟨x, hx, hsx⟩ := controller_of_upsert _ rfl controlled.OwnerReferences hc
  subst hm
  have hv2 : validateOwner owner { controlled with OwnerReferences := upsertOwnerRef (controllerRef owner gvk) controlled.OwnerReferences } = none := hv
  unfold SetControllerReference
  simp only [hv2, hg, GetControllerOf, hx, hsx, upsertOwnerRef_idem]
  simp

/-! ## The merge functions -/

/-- What a successful Workload merge returns: owner attached, one replica, and
the container list replaced only when its length is not one. -/
theorem newDeployment_mutateFn_ok {r : FreshRSSReconciler} {inst : FreshRSS}
    {d d' : Deployment}
    (h : FreshRSSReconciler.newDeployment.mutateFn r inst d = Except.ok d') :
    ∃ m, SetControllerReference inst.ObjectMeta d.ObjectMeta r.Scheme = Except.ok m ∧
      d' = { ObjectMeta := m
             Spec := { d.Spec with
               Replicas := some 1
               Template := { d.Spec.Template with
                 Spec := { d.Spec.Template.Spec with
                   Containers :=
                     if d.Spec.Template.Spec.Containers.length ≠ 1 then [newDeployment.container inst]
                     else d.Spec.Template.Spec.Containers } } } } := by
  unfold FreshRSSReconciler.newDeployment.mutateFn at h
  cases hs : SetControllerReference inst.ObjectMeta d.ObjectMeta r.Scheme with
  | error e => simp [hs] at h
  | ok m =>
    refine ⟨m, rfl, ?_⟩
    simp only [hs] at h
    by_cases hl : d.Spec.Template.Spec.Containers.length = 1
    · obtain ⟨c, hc⟩ := List.length_eq_one.mp hl
      have h0 : d.Spec.Template.Spec.Containers[0]? = some c := by simp [hc]
      simp only [hl, h0, ne_eq, not_true_eq_false, if_false] at h
      cases h
      rw [if_neg (by simp [hl])]
    · simp only [hl, ne_eq, not_false_eq_true, if_true] at h
      cases h
      simp [hl]

/-- The Workload merge succeeds exactly when the owner attachment does. -/
theorem newDeployment_mutateFn_of_owner {r : FreshRSSReconciler} {inst : FreshRSS}
    {d : Deployment} {m : ObjectMeta}
    (h : SetControllerReference inst.ObjectMeta d.ObjectMeta r.Scheme = Except.ok m) :
    ∃ d', FreshRSSReconciler.newDeployment.mutateFn r inst d = Except.ok d' := by
  unfold FreshRSSReconciler.newDeployment.mutateFn
  simp only [h]
  by_cases hl : d.Spec.Template.Spec.Containers.length = 1
  · obtain ⟨c, hc⟩ := List.length_eq_one.mp hl
    simp [hc]
  · simp [hl]

/-- What a successful NetworkEndpoint merge returns. -/
theorem newService_mutateFn_ok {r : FreshRSSReconciler} {inst : FreshRSS} {s s' : Service}
    (h : FreshRSSReconciler.newService.mutateFn r inst s = Except.ok s') :
    ∃ m, SetControllerReference inst.ObjectMeta s.ObjectMeta r.Scheme = Except.ok m ∧
      s' = { ObjectMeta := m
             Spec := { s.Spec with
               Ports := [{ Port := 80, TargetPort := FromInt 8080, Protocol := ProtocolTCP }]
               Selector := newService.labels inst } } := by
  unfold FreshRSSReconciler.newService.mutateFn at h
  cases hs : SetControllerReference inst.ObjectMeta s.ObjectMeta r.Scheme with
  | error e => simp [hs] at h
  | ok m =>
    refine ⟨m, rfl, ?_⟩
    simp only [hs] at h
    cases h
    rfl

/-- What a successful ExternalRoute merge returns. -/
theorem newRoute_mutateFn_ok {r : FreshRSSReconciler} {inst : FreshRSS} {rt rt' : Route}
    (h : FreshRSSReconciler.newRoute.mutateFn r inst rt = Except.ok rt') :
    ∃ m, SetControllerReference inst.ObjectMeta rt.ObjectMeta r.Scheme = Except.ok m ∧
      rt' = { rt with
              ObjectMeta := m
              Spec := { rt.Spec with
                To := (newRoute.routeSpec inst).To
                Port := (newRoute.routeSpec inst).Port
                WildcardPolicy := (newRoute.routeSpec inst).WildcardPolicy } } := by
  unfold FreshRSSReconciler.newRoute.mutateFn at h
  cases hs : SetControllerReference inst.ObjectMeta rt.ObjectMeta r.Scheme with
  | error e => simp [hs] at h
  | ok m =>
    refine ⟨m, rfl, ?_⟩
    simp only [hs] at h
    cases h
    rfl

/-! ## Status projection -/

theorem http_append_ne_empty (host : String) : "http://" ++ host ≠ "" := by
  intro h
  have := congrArg String.length h
  simp [String.length_append] at this
  exact absurd this.1 (by decide)

/-- C2: for a route whose status reports exactly one ingress entry, the status
projection of Reconcile succeeds, changes nothing but `status.url`, and writes
"http://" followed by the host when the host is non-empty and the empty string
when the host is empty, whatever `status.url` was before; that projected
resource is the one Reconcile hands to the status update. -/
theorem C2_status_url_for_one_host (inst : FreshRSS) (route : Route) (ingress : RouteIngress)
    (h : route.Status.Ingress = [ingress]) :
    ∃ inst', Reconcile.projectStatus inst route = Except.ok inst' ∧
      inst'.ObjectMeta = inst.ObjectMeta ∧ inst'.Spec = inst.Spec ∧
      (ingress.Host ≠ "" → inst'.Status.URL = "http://" ++ ingress.Host) ∧
      (ingress.Host = "" → inst'.Status.URL = "") ∧
      ∀ c : Client, Reconcile.updateStatus inst route c =
        (({}, (c.StatusUpdate inst').1), (c.StatusUpdate inst').2) := by
  by_cases hh : ingress.Host = ""
  · refine ⟨{ inst with Status := { URL := "" } }, ?_, rfl, rfl, ?_, ?_, ?_⟩
    · simp [Reconcile.projectStatus, h, hh]
    · intro hne; exact absurd hh hne
    · intro _; rfl
    · intro c; simp [Reconcile.updateStatus, Reconcile.projectStatus, h, hh]
  · refine ⟨{ inst with Status := { URL := "http://" ++ ingress.Host } }, ?_, rfl, rfl, ?_, ?_, ?_⟩
    · simp [Reconcile.projectStatus, h, hh]
    · intro _; rfl
    · intro he; exact absurd he hh
    · intro c; simp [Reconcile.updateStatus, Reconcile.projectStatus, h, hh]

/-- Witness for C2: the route of the demo store reports the one host
`example.com`, and the projection overwrites the stale URL of `demoStale`. -/
theorem C2_status_url_for_one_host_witness :
    demoRoute.Status.Ingress = [{ Host := "example.com", RouterName := "default" }] ∧
    ∃ inst', Reconcile.projectStatus demoStale demoRoute = Except.ok inst' ∧
      inst'.ObjectMeta = demoStale.ObjectMeta ∧ inst'.Spec = demoStale.Spec ∧
      (("example.com" : String) ≠ "" → inst'.Status.URL = "http://" ++ "example.com") ∧
      (("example.com" : String) = "" → inst'.Status.URL = "") ∧
      ∀ c : Client, Reconcile.updateStatus demoStale demoRoute c =
        (({}, (c.StatusUpdate inst').1), (c.StatusUpdate inst').2) :=
  ⟨rfl, C2_status_url_for_one_host demoStale demoRoute
    { Host := "example.com", RouterName := "default" } rfl⟩

/-- C3, counterexample: a FreshRSS fetched with `status.url`
"http://old.example.com" and a route that reports no host. The projection
returns the resource as it was, and a whole pass of Reconcile over such a
store ends with a successful status update that leaves the stale URL stored:
the URL written is not the empty string although the host count is zero. -/
theorem C3_stale_url_outlives_host :
    demoRouteNoHost.Status.Ingress.length = 0 ∧
    Reconcile.projectStatus demoStale demoRouteNoHost = Except.ok demoStale ∧
    demoStale.Status.URL = "http://old.example.com" ∧
    (demoStaleStore.Reconcile demoRequest).1 = ({}, none) ∧
    (demoStaleStore.Reconcile demoRequest).2.log.getLast? =
      some { verb := Verb.statusUpdate, kind := Kind.freshRSS,
             key := { Namespace := "demo", Name := "rss" }, err := none } ∧
    (demoStaleStore.Reconcile demoRequest).2.store.FreshRSSes.map (fun i => i.Status.URL) =
      ["http://old.example.com"] :=
  ⟨rfl, rfl, rfl, rfl, rfl, rfl⟩

/-- C3, amended: when the route reports a host count other than one, the
status projection returns the FreshRSS exactly as it was fetched, so
`status.url` keeps the value it held; hence after a status projection
`status.url` is non-empty if and only if either the route reports exactly one
host and that host is non-empty, or the route reports a host count other than
one and the fetched `status.url` was non-empty. -/
theorem C3_status_url_kept_without_single_host (inst : FreshRSS) (route : Route) :
    (route.Status.Ingress.length ≠ 1 → Reconcile.projectStatus inst route = Except.ok inst) ∧
    ∃ inst', Reconcile.projectStatus inst route = Except.ok inst' ∧
      (inst'.Status.URL ≠ "" ↔
        (∃ ingress, route.Status.Ingress = [ingress] ∧ ingress.Host ≠ "") ∨
        (route.Status.Ingress.length ≠ 1 ∧ inst.Status.URL ≠ "")) := by
  constructor
  · intro h
    simp [Reconcile.projectStatus, h]
  · by_cases hl : route.Status.Ingress.length = 1
    · obtain ⟨ingress, hi⟩ := List.length_eq_one.mp hl
      by_cases hh : ingress.Host = ""
      · refine ⟨{ inst with Status := { URL := "" } }, ?_, ?_⟩
        · simp [Reconcile.projectStatus, hi, hh]
        · simp [hi, hh]
      · refine ⟨{ inst with Status := { URL := "http://" ++ ingress.Host } }, ?_, ?_⟩
        · simp [Reconcile.projectStatus, hi, hh]
        · simp [hi, hh, http_append_ne_empty]
    · refine ⟨inst, by simp [Reconcile.projectStatus, hl], ?_⟩
      constructor
      · intro hu; exact Or.inr ⟨hl, hu⟩
      · rintro (⟨ingress, hi, _⟩ | ⟨_, hu⟩)
        · exact absurd (by simp [hi]) hl
        · exact hu

/-- Witness for C3 amended: with the zero-valued route (host count zero) the
stale resource comes back unchanged. -/
theorem C3_status_url_kept_without_single_host_witness :
    ({} : Route).Status.Ingress.length ≠ 1 ∧
    Reconcile.projectStatus demoStale {} = Except.ok demoStale :=
  ⟨by decide, (C3_status_url_kept_without_single_host demoStale {}).1 (by decide)⟩

/-! ## The Workload merge -/

/-- C1, the code at the failing input: the Deployment `demoLiveA` is what the
merge built from title "A" makes of the skeleton; the merge built from the
same resource with title "B" returns `demoLiveA` unchanged, its container
still carrying `TITLE = "A"`, and the apply of the Workload fetches the
object, writes nothing and reports Unchanged (`OperationResult.None`). -/
theorem C1_title_change_not_propagated :
    FreshRSSReconciler.newDeployment.mutateFn demoReconciler demoA
      (newDeployment.deployment demoA) = Except.ok demoLiveA ∧
    demoB.Spec.Title = "B" ∧
    FreshRSSReconciler.newDeployment.mutateFn demoRetitled demoB demoLiveA =
      Except.ok demoLiveA ∧
    demoLiveA.Spec.Template.Spec.Containers.map (fun c => c.Env) =
      [[{ Name := "TITLE", Value := "A" }, { Name := "DEFAULTUSER", Value := "admin" }]] ∧
    (CreateOrUpdate demoRetitled.Client (newDeployment.deployment demoB)
      (FreshRSSReconciler.newDeployment.mutateFn demoRetitled demoB)).1 =
      Except.ok OperationResult.None ∧
    (CreateOrUpdate demoRetitled.Client (newDeployment.deployment demoB)
      (FreshRSSReconciler.newDeployment.mutateFn demoRetitled demoB)).2.log =
      [{ verb := Verb.get, kind := Kind.deployment,
         key := { Namespace := "demo", Name := "rss" }, err := none }] ∧
    (CreateOrUpdate demoRetitled.Client (newDeployment.deployment demoB)
      (FreshRSSReconciler.newDeployment.mutateFn demoRetitled demoB)).2.store.Deployments =
      [demoLiveA] :=
  ⟨rfl, rfl, rfl, rfl, rfl, rfl, rfl⟩

/-- C8: for a live Workload with exactly one container, after a successful
Workload merge the Workload still has exactly one container, and every field
of it that the controller does not synthesize (command, arguments, working
directory, resource limits and requests, termination message path) has the
value it had before. -/
theorem C8_workload_merge_preserves_other_fields (r : FreshRSSReconciler) (inst : FreshRSS)
    (d d' : Deployment) (c : Container)
    (hc : d.Spec.Template.Spec.Containers = [c])
    (h : FreshRSSReconciler.newDeployment.mutateFn r inst d = Except.ok d') :
    ∃ c', d'.Spec.Template.Spec.Containers = [c'] ∧
      c'.Command = c.Command ∧ c'.Args = c.Args ∧ c'.WorkingDir = c.WorkingDir ∧
      c'.Resources = c.Resources ∧
      c'.TerminationMessagePath = c.TerminationMessagePath := by
  obtain ⟨m, _, hd⟩ := newDeployment_mutateFn_ok h
  refine ⟨c, ?_, rfl, rfl, rfl, rfl, rfl⟩
  subst hd
  simp [hc]

/-- Witness for C8: the memory limit and the defaulted termination message
path of the container of `demoLimited` survive the merge. -/
theorem C8_workload_merge_preserves_other_fields_witness :
    demoLimited.Spec.Template.Spec.Containers =
      [{ demoContainerA with
          Resources := { Limits := [("memory", "256Mi")] }
          TerminationMessagePath := "/dev/termination-log" }] ∧
    FreshRSSReconciler.newDeployment.mutateFn demoReconciler demoA demoLimited =
      Except.ok demoLimited ∧
    ∃ c', demoLimited.Spec.Template.Spec.Containers = [c'] ∧
      c'.Command = [] ∧ c'.Args = [] ∧ c'.WorkingDir = "" ∧
      c'.Resources = { Limits := [("memory", "256Mi")] } ∧
      c'.TerminationMessagePath = "/dev/termination-log" :=
  ⟨rfl, rfl, C8_workload_merge_preserves_other_fields demoReconciler demoA demoLimited
    demoLimited _ rfl rfl⟩

/-- C10: a successful Workload merge sets the replica count to 1 whatever the
container list was, and when the container list had length zero or two or
more it is replaced by exactly one container named "freshrss" with the fixed
image, the single port 8080/TCP, pull policy Always, and the environment
TITLE = spec.title, DEFAULTUSER = spec.defaultUser in that order (every other
field of that container is the zero value). -/
theorem C10_workload_container_synthesis (r : FreshRSSReconciler) (inst : FreshRSS)
    (d d' : Deployment)
    (h : FreshRSSReconciler.newDeployment.mutateFn r inst d = Except.ok d') :
    d'.Spec.Replicas = some 1 ∧
    (d.Spec.Template.Spec.Containers.length ≠ 1 →
      d'.Spec.Template.Spec.Containers =
        [{ Name := "freshrss"
           Image := "quay.io/saas-patterns/freshrss-image:latest"
           Ports := [{ ContainerPort := 8080, Protocol := "TCP" }]
           ImagePullPolicy := "Always"
           Env := [{ Name := "TITLE", Value := inst.Spec.Title },
                   { Name := "DEFAULTUSER", Value := inst.Spec.DefaultUser }] }]) := by
  obtain ⟨m, _, hd⟩ := newDeployment_mutateFn_ok h
  subst hd
  refine ⟨rfl, ?_⟩
  intro hl
  simp [hl, newDeployment.container, ProtocolTCP, PullAlways]

/-- Witness for C10: `demoEmpty` has no container and five replicas; the merge
for `demoA` succeeds on it and leaves one replica and the synthesized
container. -/
theorem C10_workload_container_synthesis_witness :
    demoEmpty.Spec.Template.Spec.Containers.length ≠ 1 ∧
    demoEmpty.Spec.Replicas = some 5 ∧
    FreshRSSReconciler.newDeployment.mutateFn demoReconciler demoA demoEmpty =
      Except.ok demoEmptyMerged ∧
    demoEmptyMerged.Spec.Replicas = some 1 ∧
    demoEmptyMerged.Spec.Template.Spec.Containers =
      [{ Name := "freshrss"
         Image := "quay.io/saas-patterns/freshrss-image:latest"
         Ports := [{ ContainerPort := 8080, Protocol := "TCP" }]
         ImagePullPolicy := "Always"
         Env := [{ Name := "TITLE", Value := "A" },
                 { Name := "DEFAULTUSER", Value := "admin" }] }] :=
  ⟨by decide, rfl, rfl,
    (C10_workload_container_synthesis demoReconciler demoA demoEmpty demoEmptyMerged rfl).1,
    (C10_workload_container_synthesis demoReconciler demoA demoEmpty demoEmptyMerged rfl).2
      (by decide)⟩

/-! ## Idempotence of the merge functions -/

theorem newDeployment_mutateFn_idem {r : FreshRSSReconciler} {inst : FreshRSS}
    {d d' : Deployment}
    (h : FreshRSSReconciler.newDeployment.mutateFn r inst d = Except.ok d') :
    FreshRSSReconciler.newDeployment.mutateFn r inst d' = Except.ok d' := by
  obtain ⟨m, hm, hd⟩ := newDeployment_mutateFn_ok h
  have hm' := SetControllerReference_idem hm
  have hmeta : d'.ObjectMeta = m := by rw [hd]
  have hlen : d'.Spec.Template.Spec.Containers.length = 1 := by
    rw [hd]
    by_cases hl : d.Spec.Template.Spec.Containers.length = 1
    · simp [hl]
    · simp [hl]
  have hrep : d'.Spec.Replicas = some 1 := by rw [hd]
  obtain ⟨c, hc⟩ := List.length_eq_one.mp hlen
  unfold FreshRSSReconciler.newDeployment.mutateFn
  rw [hmeta, hm']
  simp only [hc, List.length_singleton, ne_eq, not_true_eq_false, if_false]
  simp only [List.getElem?_cons_zero]
  congr 1
  cases d' with
  | mk meta spec =>
    cases spec with
    | mk rep sel tpl paused =>
      simp at hmeta hrep
      simp [hmeta, hrep]

theorem newService_mutateFn_idem {r : FreshRSSReconciler} {inst : FreshRSS} {s s' : Service}
    (h : FreshRSSReconciler.newService.mutateFn r inst s = Except.ok s') :
    FreshRSSReconciler.newService.mutateFn r inst s' = Except.ok s' := by
  obtain ⟨m, hm, hd⟩ := newService_mutateFn_ok h
  have hm' := SetControllerReference_idem hm
  subst hd
  unfold FreshRSSReconciler.newService.mutateFn
  simp only [hm']

theorem newRoute_mutateFn_idem {r : FreshRSSReconciler} {inst : FreshRSS} {rt rt' : Route}
    (h : FreshRSSReconciler.newRoute.mutateFn r inst rt = Except.ok rt') :
    FreshRSSReconciler.newRoute.mutateFn r inst rt' = Except.ok rt' := by
  obtain ⟨m, hm, hd⟩ := newRoute_mutateFn_ok h
  have hm' := SetControllerReference_idem hm
  subst hd
  unfold FreshRSSReconciler.newRoute.mutateFn
  simp only [hm']

/-- C6: for each of the three kinds (Workload, NetworkEndpoint,
ExternalRoute), every desired resource and every live object on which the
merge function succeeds, the merge function succeeds again on its own result
and returns that result unchanged. -/
theorem C6_merge_idempotent (r : FreshRSSReconciler) (inst : FreshRSS) :
    (∀ d d' : Deployment,
      FreshRSSReconciler.newDeployment.mutateFn r inst d = Except.ok d' →
      FreshRSSReconciler.newDeployment.mutateFn r inst d' = Except.ok d') ∧
    (∀ s s' : Service,
      FreshRSSReconciler.newService.mutateFn r inst s = Except.ok s' →
      FreshRSSReconciler.newService.mutateFn r inst s' = Except.ok s') ∧
    (∀ rt rt' : Route,
      FreshRSSReconciler.newRoute.mutateFn r inst rt = Except.ok rt' →
      FreshRSSReconciler.newRoute.mutateFn r inst rt' = Except.ok rt') :=
  ⟨fun _ _ h => newDeployment_mutateFn_idem h, fun _ _ h => newService_mutateFn_idem h,
    fun _ _ h => newRoute_mutateFn_idem h⟩

/-- Witness for C6: the merge for `demoA` turns `demoEmpty` into
`demoEmptyMerged`, the Service skeleton into `demoService` and the unowned
route into `demoRouteNoHost`, and maps each of these results to itself. -/
theorem C6_merge_idempotent_witness :
    (FreshRSSReconciler.newDeployment.mutateFn demoReconciler demoA demoEmpty =
        Except.ok demoEmptyMerged ∧
      FreshRSSReconciler.newDeployment.mutateFn demoReconciler demoA demoEmptyMerged =
        Except.ok demoEmptyMerged) ∧
    (FreshRSSReconciler.newService.mutateFn demoReconciler demoA (newService.service demoA) =
        Except.ok demoService ∧
      FreshRSSReconciler.newService.mutateFn demoReconciler demoA demoService =
        Except.ok demoService) ∧
    (FreshRSSReconciler.newRoute.mutateFn demoReconciler demoA (newRoute.route demoA) =
        Except.ok demoRouteNoHost ∧
      FreshRSSReconciler.newRoute.mutateFn demoReconciler demoA demoRouteNoHost =
        Except.ok demoRouteNoHost) :=
  ⟨⟨rfl, (C6_merge_idempotent demoReconciler demoA).1 demoEmpty demoEmptyMerged rfl⟩,
    ⟨rfl, (C6_merge_idempotent demoReconciler demoA).2.1 (newService.service demoA)
      demoService rfl⟩,
    ⟨rfl, (C6_merge_idempotent demoReconciler demoA).2.2 (newRoute.route demoA)
      demoRouteNoHost rfl⟩⟩

/-! ## The store and the apply engine -/

/-- A stored object found under a key has that key. -/
theorem keyOf_of_lookup {α : Type} [ClientObject α] {s : Store} {key : ObjectKey} {o : α}
    (h : s.lookup key = some o) : keyOf o = key := by
  unfold Store.lookup at h
  have := List.find?_some h
  simpa using this

/-- A fetch that meets no fault and finds the object returns it. -/
theorem get_of_lookup_some {α : Type} [ClientObject α] {c : Client} {key : ObjectKey} {o : α}
    (hf : c.fault c.log.length = none) (hl : c.store.lookup key = some o) :
    (c.Get key : Except Err α × Client) =
      (Except.ok o, c.record Verb.get (ClientObject.kind α) key none) := by
  unfold Client.Get
  simp [hf, hl]

/-- A fetch that meets no fault and finds nothing reports not-found. -/
theorem get_of_lookup_none {α : Type} [ClientObject α] {c : Client} {key : ObjectKey}
    (hf : c.fault c.log.length = none) (hl : (c.store.lookup key : Option α) = none) :
    (c.Get key : Except Err α × Client) =
      (Except.error Err.notFound,
        c.record Verb.get (ClientObject.kind α) key (some Err.notFound)) := by
  unfold Client.Get
  simp [hf, hl]

/-- A fetch returns an object only from the store, and only records the
fetch. -/
theorem get_ok_inv {α : Type} [ClientObject α] {c c' : Client} {key : ObjectKey} {o : α}
    (h : (c.Get key : Except Err α × Client) = (Except.ok o, c')) :
    c.fault c.log.length = none ∧ c.store.lookup key = some o ∧
      c' = c.record Verb.get (ClientObject.kind α) key none := by
  unfold Client.Get at h
  cases hf : c.fault c.log.length with
  | some e => simp [hf] at h
  | none =>
    cases hl : (c.store.lookup key : Option α) with
    | none => simp [hf, hl] at h
    | some o' =>
      simp [hf, hl] at h
      exact ⟨rfl, by rw [h.1], h.2.symm⟩

/-- Every fetch records exactly one `get` of its kind and leaves the store
alone. -/
theorem get_frame {α : Type} [ClientObject α] (c : Client) (key : ObjectKey) :
    ∃ e, ((c.Get key : Except Err α × Client)).2 =
      c.record Verb.get (ClientObject.kind α) key e := by
  unfold Client.Get
  cases hf : c.fault c.log.length with
  | some e => exact ⟨some e, by simp⟩
  | none =>
    cases hl : (c.store.lookup key : Option α) with
    | none => exact ⟨some Err.notFound, by simp⟩
    | some o' => exact ⟨none, by simp⟩

/-- The apply reports Unchanged exactly when the fetch meets no fault, finds
an object, and the merge maps that object to itself; then the fetch is the
only store operation. -/
theorem createOrUpdate_none_iff {α : Type} [ClientObject α] [DecidableEq α] (c c' : Client)
    (obj : α) (f : MutateFn α) :
    CreateOrUpdate c obj f = (Except.ok OperationResult.None, c') ↔
      ∃ existing, c.fault c.log.length = none ∧ c.store.lookup (keyOf obj) = some existing ∧
        mutate f (keyOf obj) existing = Except.ok existing ∧
        c' = c.record Verb.get (ClientObject.kind α) (keyOf obj) none := by
  constructor
  · intro h
    unfold CreateOrUpdate at h
    simp only at h
    cases hg : (c.Get (keyOf obj) : Except Err α × Client) with
    | mk res c1 =>
      rw [hg] at h
      cases res with
      | error e =>
        simp only at h
        split at h
        · cases h
        · split at h
          · cases h
          · split at h
            · cases h
            · cases h
      | ok existing =>
        obtain ⟨hf, hl, hc1⟩ := get_ok_inv hg
        simp only at h
        split at h
        · cases h
        · rename_i o hm
          split at h
          · rename_i heq
            cases h
            exact ⟨existing, hf, hl, by rw [hm, ← heq], hc1⟩
          · split at h
            · cases h
            · cases h
  · rintro ⟨existing, hf, hl, hm, hc⟩
    unfold CreateOrUpdate
    simp only [get_of_lookup_some hf hl, hm, hc, if_true]

/-- Every create records exactly one `create` of its kind. -/
theorem create_frame {α : Type} [ClientObject α] (c : Client) (obj : α) :
    ∃ e, (c.Create obj).2.log =
      c.log ++ [{ verb := Verb.create, kind := ClientObject.kind α, key := keyOf obj, err := e }] := by
  unfold Client.Create
  cases hf : c.fault c.log.length with
  | some e => exact ⟨some e, by simp [Client.record]⟩
  | none =>
    cases hl : (c.store.lookup (keyOf obj) : Option α) with
    | some o' => exact ⟨some Err.alreadyExists, by simp [Client.record]⟩
    | none => exact ⟨none, by simp [Client.record]⟩

/-- Every update records exactly one `update` of its kind. -/
theorem update_frame {α : Type} [ClientObject α] (c : Client) (obj : α) :
    ∃ e, (c.Update obj).2.log =
      c.log ++ [{ verb := Verb.update, kind := ClientObject.kind α, key := keyOf obj, err := e }] := by
  unfold Client.Update
  cases hf : c.fault c.log.length with
  | some e => exact ⟨some e, by simp [Client.record]⟩
  | none =>
    cases hl : (c.store.lookup (keyOf obj) : Option α) with
    | none => exact ⟨some Err.notFound, by simp [Client.record]⟩
    | some o' => exact ⟨none, by simp [Client.record]⟩

/-- The store operations of one apply: all of the kind applied, none a status
update, exactly one of them a fetch. -/
theorem createOrUpdate_ops {α : Type} [ClientObject α] [DecidableEq α] (c : Client) (obj : α)
    (f : MutateFn α) :
    ∃ ops, (CreateOrUpdate c obj f).2.log = c.log ++ ops ∧
      (∀ op ∈ ops, op.kind = ClientObject.kind α ∧ op.verb ≠ Verb.statusUpdate) ∧
      ops.countP (fun op => decide (op.verb = Verb.get)) = 1 := by
  obtain ⟨e, he⟩ := @get_frame α _ c (keyOf obj)
  have one : ∀ c1 : Client, c1 = c.record Verb.get (ClientObject.kind α) (keyOf obj) e →
      ∃ ops, c1.log = c.log ++ ops ∧
      (∀ op ∈ ops, op.kind = ClientObject.kind α ∧ op.verb ≠ Verb.statusUpdate) ∧
      ops.countP (fun op => decide (op.verb = Verb.get)) = 1 := by
    intro c1 h1
    exact ⟨[{ verb := Verb.get, kind := ClientObject.kind α, key := keyOf obj, err := e }],
      by rw [h1]; rfl, by simp, by simp⟩
  have two : ∀ (c1 c2 : Client) (w : Op),
      c1 = c.record Verb.get (ClientObject.kind α) (keyOf obj) e →
      c2.log = c1.log ++ [w] → w.kind = ClientObject.kind α →
      (w.verb = Verb.create ∨ w.verb = Verb.update) →
      ∃ ops, c2.log = c.log ++ ops ∧
      (∀ op ∈ ops, op.kind = ClientObject.kind α ∧ op.verb ≠ Verb.statusUpdate) ∧
      ops.countP (fun op => decide (op.verb = Verb.get)) = 1 := by
    intro c1 c2 w h1 h2 hk hv
    refine ⟨[{ verb := Verb.get, kind := ClientObject.kind α, key := keyOf obj, err := e }, w],
      by rw [h2, h1]; simp [Client.record], ?_, ?_⟩
    · intro op hop
      simp at hop
      rcases hop with rfl | rfl
      · simp
      · rcases hv with hv | hv <;> simp [hk, hv]
    · rcases hv with hv | hv <;> simp [List.countP_cons, hv]
  unfold CreateOrUpdate
  simp only
  cases hg : (c.Get (keyOf obj) : Except Err α × Client) with
  | mk res c1 =>
    rw [hg] at he
    simp only at he
    cases res with
    | error err =>
      simp only
      split
      · exact one c1 he
      · split
        · exact one c1 he
        · rename_i o hm
          obtain ⟨e2, he2⟩ := create_frame c1 o
          split
          · rename_i err2 c2 hcr
            rw [hcr] at he2
            exact two c1 c2 _ he he2 rfl (Or.inl rfl)
          · rename_i c2 hcr
            rw [hcr] at he2
            exact two c1 c2 _ he he2 rfl (Or.inl rfl)
    | ok existing =>
      simp only
      split
      · exact one c1 he
      · rename_i o hm
        split
        · exact one c1 he
        · obtain ⟨e2, he2⟩ := update_frame c1 o
          split
          · rename_i err2 c2 hcr
            rw [hcr] at he2
            exact two c1 c2 _ he he2 rfl (Or.inr rfl)
          · rename_i c2 hcr
            rw [hcr] at he2
            exact two c1 c2 _ he he2 rfl (Or.inr rfl)

/-! ## The pass -/

/-- The loop of Reconcile exits at the Workload when its apply does not report
Unchanged. -/
theorem loop_exit_deployment {r : FreshRSSReconciler} {inst : FreshRSS} {c1 c2 : Client}
    {res : Except Err OperationResult}
    (hD : CreateOrUpdate c1 (newDeployment.deployment inst)
      (FreshRSSReconciler.newDeployment.mutateFn r inst) = (res, c2))
    (hres : res ≠ Except.ok OperationResult.None) :
    Reconcile.loop inst r.components c1 =
      (some ({}, match res with | Except.error e => some e | Except.ok _ => none), c2) := by
  simp only [FreshRSSReconciler.components, Reconcile.loop, FreshRSSReconciler.newDeployment, hD]
  cases res with
  | error e => rfl
  | ok o => cases o <;> first | rfl | exact absurd rfl hres

/-- The loop of Reconcile moves on from the Workload when its apply reports
Unchanged, and exits at the NetworkEndpoint when that apply does not. -/
theorem loop_exit_service {r : FreshRSSReconciler} {inst : FreshRSS} {c1 c2 c3 : Client}
    {res : Except Err OperationResult}
    (hD : CreateOrUpdate c1 (newDeployment.deployment inst)
      (FreshRSSReconciler.newDeployment.mutateFn r inst) = (Except.ok OperationResult.None, c2))
    (hS : CreateOrUpdate c2 (newService.service inst)
      (FreshRSSReconciler.newService.mutateFn r inst) = (res, c3))
    (hres : res ≠ Except.ok OperationResult.None) :
    Reconcile.loop inst r.components c1 =
      (some ({}, match res with | Except.error e => some e | Except.ok _ => none), c3) := by
  simp only [FreshRSSReconciler.components, Reconcile.loop, FreshRSSReconciler.newDeployment,
    FreshRSSReconciler.newService, hD, hS]
  cases res with
  | error e => rfl
  | ok o => cases o <;> first | rfl | exact absurd rfl hres

/-- The loop of Reconcile exits at the ExternalRoute when the first two
applies report Unchanged and the third does not. -/
theorem loop_exit_route {r : FreshRSSReconciler} {inst : FreshRSS} {c1 c2 c3 c4 : Client}
    {res : Except Err OperationResult}
    (hD : CreateOrUpdate c1 (newDeployment.deployment inst)
      (FreshRSSReconciler.newDeployment.mutateFn r inst) = (Except.ok OperationResult.None, c2))
    (hS : CreateOrUpdate c2 (newService.service inst)
      (FreshRSSReconciler.newService.mutateFn r inst) = (Except.ok OperationResult.None, c3))
    (hR : CreateOrUpdate c3 (newRoute.route inst)
      (FreshRSSReconciler.newRoute.mutateFn r inst) = (res, c4))
    (hres : res ≠ Except.ok OperationResult.None) :
    Reconcile.loop inst r.components c1 =
      (some ({}, match res with | Except.error e => some e | Except.ok _ => none), c4) := by
  simp only [FreshRSSReconciler.components, Reconcile.loop, FreshRSSReconciler.newDeployment,
    FreshRSSReconciler.newService, FreshRSSReconciler.newRoute, hD, hS, hR]
  cases res with
  | error e => rfl
  | ok o => cases o <;> first | rfl | exact absurd rfl hres

/-- The loop of Reconcile runs to its end when all three applies report
Unchanged. -/
theorem loop_through {r : FreshRSSReconciler} {inst : FreshRSS} {c1 c2 c3 c4 : Client}
    (hD : CreateOrUpdate c1 (newDeployment.deployment inst)
      (FreshRSSReconciler.newDeployment.mutateFn r inst) = (Except.ok OperationResult.None, c2))
    (hS : CreateOrUpdate c2 (newService.service inst)
      (FreshRSSReconciler.newService.mutateFn r inst) = (Except.ok OperationResult.None, c3))
    (hR : CreateOrUpdate c3 (newRoute.route inst)
      (FreshRSSReconciler.newRoute.mutateFn r inst) = (Except.ok OperationResult.None, c4)) :
    Reconcile.loop inst r.components c1 = (none, c4) := by
  simp only [FreshRSSReconciler.components, Reconcile.loop, FreshRSSReconciler.newDeployment,
    FreshRSSReconciler.newService, FreshRSSReconciler.newRoute, hD, hS, hR]

/-- Reconcile after a successful fetch of the FreshRSS, when the loop
returns. -/
theorem reconcile_of_loop_exit {r : FreshRSSReconciler} {req : Request} {inst : FreshRSS}
    {c1 c : Client} {ret : Result × Option Err}
    (hget : (r.Client.Get req.NamespacedName : Except Err FreshRSS × Client) = (Except.ok inst, c1))
    (hloop : Reconcile.loop inst r.components c1 = (some ret, c)) :
    r.Reconcile req = (ret, c) := by
  unfold FreshRSSReconciler.Reconcile
  simp only [hget, hloop]

/-- The attachment of the owner changes neither name nor namespace. -/
theorem SetControllerReference_key {owner controlled m : ObjectMeta} {scheme : Scheme}
    (h : SetControllerReference owner controlled scheme = Except.ok m) :
    ObjectKeyFromObject m = ObjectKeyFromObject controlled := by
  obtain ⟨gvk, _, _, _, hm⟩ := SetControllerReference_ok h
  rw [hm]
  rfl

/-- The guarded merge succeeds exactly when the merge does and keeps the key. -/
theorem mutate_ok_iff {α : Type} [ClientObject α] (f : MutateFn α) (key : ObjectKey)
    (obj o : α) : mutate f key obj = Except.ok o ↔ f obj = Except.ok o ∧ keyOf o = key := by
  unfold mutate
  cases hf : f obj with
  | error e => simp
  | ok o' =>
    by_cases hk : key = keyOf o'
    · simp only [hk, ne_eq, not_true_eq_false, if_false]
      constructor
      · intro h; cases h; exact ⟨rfl, rfl⟩
      · rintro ⟨h, _⟩; exact h
    · simp only [ne_eq, hk, not_false_eq_true, if_true]
      constructor
      · intro h; cases h
      · rintro ⟨h, h2⟩; cases h; exact absurd h2.symm hk

/-- The apply on an absent object: fetch, merge the skeleton, create. -/
theorem createOrUpdate_created {α : Type} [ClientObject α] [DecidableEq α] {c : Client}
    {obj o : α} {f : MutateFn α}
    (hf1 : c.fault c.log.length = none)
    (hl : (c.store.lookup (keyOf obj) : Option α) = none)
    (hm : mutate f (keyOf obj) obj = Except.ok o)
    (hf2 : c.fault (c.log.length + 1) = none) :
    CreateOrUpdate c obj f =
      (Except.ok OperationResult.Created,
        { store := ClientObject.setList c.store (ClientObject.list c.store ++ [o])
          fault := c.fault
          log := c.log ++
            [{ verb := Verb.get, kind := ClientObject.kind α, key := keyOf obj,
               err := some Err.notFound },
             { verb := Verb.create, kind := ClientObject.kind α, key := keyOf obj,
               err := none }] }) := by
  have hk : keyOf o = keyOf obj := ((mutate_ok_iff f (keyOf obj) obj o).mp hm).2
  unfold CreateOrUpdate
  simp only [get_of_lookup_none hf1 hl, hm, IsNotFound]
  unfold Client.Create
  simp [Client.record, hf2, hk, hl]

theorem opsSince_of_log {before after : Client} {ops : List Op}
    (h : after.log = before.log ++ ops) : opsSince before after = ops := by
  simp [opsSince, h]

/-- C4: in a store that holds the desired resource but none of its Workload,
NetworkEndpoint and ExternalRoute, where the fetches and the create meet no
fault and owner attachment succeeds on the Workload skeleton, one invocation
of Reconcile returns without error after exactly three store operations
(fetch of the FreshRSS, not-found fetch of the Workload, create of the
Workload); the store afterwards is the store before plus the merged Workload,
so no NetworkEndpoint and no ExternalRoute was created and no status was
written. -/
theorem C4_single_change_per_pass (r : FreshRSSReconciler) (req : Request) (inst : FreshRSS)
    (m : ObjectMeta)
    (hinst : (r.Client.store.lookup req.NamespacedName : Option FreshRSS) = some inst)
    (hD : (r.Client.store.lookup req.NamespacedName : Option Deployment) = none)
    (hS : (r.Client.store.lookup req.NamespacedName : Option Service) = none)
    (hR : (r.Client.store.lookup req.NamespacedName : Option Route) = none)
    (hf0 : r.Client.fault r.Client.log.length = none)
    (hf1 : r.Client.fault (r.Client.log.length + 1) = none)
    (hf2 : r.Client.fault (r.Client.log.length + 2) = none)
    (hown : SetControllerReference inst.ObjectMeta (newDeployment.deployment inst).ObjectMeta
      r.Scheme = Except.ok m) :
    ∃ d, FreshRSSReconciler.newDeployment.mutateFn r inst (newDeployment.deployment inst) =
        Except.ok d ∧
      (r.Reconcile req).1 = ({}, none) ∧
      opsSince r.Client (r.Reconcile req).2 =
        [{ verb := Verb.get, kind := Kind.freshRSS, key := req.NamespacedName, err := none },
         { verb := Verb.get, kind := Kind.deployment, key := req.NamespacedName,
           err := some Err.notFound },
         { verb := Verb.create, kind := Kind.deployment, key := req.NamespacedName,
           err := none }] ∧
      (r.Reconcile req).2.store =
        { r.Client.store with Deployments := r.Client.store.Deployments ++ [d] } ∧
      ((r.Reconcile req).2.store.lookup req.NamespacedName : Option Service) = none ∧
      ((r.Reconcile req).2.store.lookup req.NamespacedName : Option Route) = none := by
  obtain ⟨d, hd⟩ := @newDeployment_mutateFn_of_owner r inst
    (newDeployment.deployment inst) m hown
  have hkey : keyOf inst = req.NamespacedName := keyOf_of_lookup hinst
  have hskel : keyOf (newDeployment.deployment inst) = req.NamespacedName := by
    rw [← hkey]; rfl
  have hdkey : keyOf d = keyOf (newDeployment.deployment inst) := by
    obtain ⟨m', hm', hd'⟩ := newDeployment_mutateFn_ok hd
    have := SetControllerReference_key hm'
    rw [hd']
    exact this
  have hmut : mutate (FreshRSSReconciler.newDeployment.mutateFn r inst)
      (keyOf (newDeployment.deployment inst)) (newDeployment.deployment inst) = Except.ok d :=
    (mutate_ok_iff _ _ _ _).mpr ⟨hd, hdkey⟩
  have hget := get_of_lookup_some hf0 hinst
  have hcou := @createOrUpdate_created Deployment _ _
    (r.Client.record Verb.get Kind.freshRSS req.NamespacedName none)
    (newDeployment.deployment inst) d
    (FreshRSSReconciler.newDeployment.mutateFn r inst)
    (by simpa [Client.record] using hf1) (by rw [hskel]; exact hD) hmut
    (by simpa [Client.record, Nat.add_assoc] using hf2)
  have hrec := reconcile_of_loop_exit hget
    (loop_exit_deployment hcou (by simp))
  refine ⟨d, hd, ?_, ?_, ?_, ?_, ?_⟩
  · rw [hrec]
  · rw [hrec]
    apply opsSince_of_log
    simp [Client.record, hskel]
    rfl
  · rw [hrec]
    rfl
  · rw [hrec]
    exact hS
  · rw [hrec]
    exact hR

/-- Witness for C4: the store of `demoFresh` holds `demoA` and nothing else;
one pass creates the Deployment `demoLiveA` and stops. -/
theorem C4_single_change_per_pass_witness :
    ∃ d, FreshRSSReconciler.newDeployment.mutateFn demoFresh demoA
        (newDeployment.deployment demoA) = Except.ok d ∧
      (demoFresh.Reconcile demoRequest).1 = ({}, none) ∧
      opsSince demoFresh.Client (demoFresh.Reconcile demoRequest).2 =
        [{ verb := Verb.get, kind := Kind.freshRSS, key := demoRequest.NamespacedName,
           err := none },
         { verb := Verb.get, kind := Kind.deployment, key := demoRequest.NamespacedName,
           err := some Err.notFound },
         { verb := Verb.create, kind := Kind.deployment, key := demoRequest.NamespacedName,
           err := none }] ∧
      (demoFresh.Reconcile demoRequest).2.store =
        { demoFresh.Client.store with Deployments := demoFresh.Client.store.Deployments ++ [d] } ∧
      ((demoFresh.Reconcile demoRequest).2.store.lookup demoRequest.NamespacedName :
        Option Service) = none ∧
      ((demoFresh.Reconcile demoRequest).2.store.lookup demoRequest.NamespacedName :
        Option Route) = none :=
  C4_single_change_per_pass demoFresh demoRequest demoA demoLiveA.ObjectMeta rfl rfl rfl rfl
    rfl rfl rfl rfl

/-- The operations since the start of a pass, once the FreshRSS is fetched and
one apply has run. -/
theorem ops_after_get {r : FreshRSSReconciler} {req : Request} {inst : FreshRSS} {c1 : Client}
    (hget : (r.Client.Get req.NamespacedName : Except Err FreshRSS × Client) = (Except.ok inst, c1)) :
    c1.log = r.Client.log ++
      [{ verb := Verb.get, kind := Kind.freshRSS, key := req.NamespacedName, err := none }] := by
  obtain ⟨_, _, h⟩ := get_ok_inv hget
  rw [h]
  rfl

/-- An apply that reports Unchanged has fetched once and done nothing else. -/
theorem log_of_unchanged {α : Type} [ClientObject α] [DecidableEq α] {c c' : Client} {obj : α}
    {f : MutateFn α} (h : CreateOrUpdate c obj f = (Except.ok OperationResult.None, c')) :
    c'.log = c.log ++
      [{ verb := Verb.get, kind := ClientObject.kind α, key := keyOf obj, err := none }] := by
  obtain ⟨_, _, _, _, hc⟩ := (createOrUpdate_none_iff c c' obj f).mp h
  rw [hc]
  rfl

/-- Once the FreshRSS is fetched, the three applies run in the fixed order,
each in the state the previous one left; Reconcile returns success in the
state left by the first apply that reports Created or Updated; a status
update or a second fetch of the route occurs only when all three applies
reported Unchanged. -/
theorem early_exit_after_fetch (r : FreshRSSReconciler) (req : Request) (inst : FreshRSS) (c1 : Client)
    (hget : (r.Client.Get req.NamespacedName : Except Err FreshRSS × Client) =
      (Except.ok inst, c1)) :
    (∀ res c2,
      CreateOrUpdate c1 (newDeployment.deployment inst)
        (FreshRSSReconciler.newDeployment.mutateFn r inst) = (Except.ok res, c2) →
      (res = OperationResult.Created ∨ res = OperationResult.Updated) →
      r.Reconcile req = (({}, none), c2) ∧
      ∀ op ∈ opsSince r.Client c2, op.verb ≠ Verb.statusUpdate ∧
        op.kind ≠ Kind.service ∧ op.kind ≠ Kind.route) ∧
    (∀ c2 res c3,
      CreateOrUpdate c1 (newDeployment.deployment inst)
        (FreshRSSReconciler.newDeployment.mutateFn r inst) =
        (Except.ok OperationResult.None, c2) →
      CreateOrUpdate c2 (newService.service inst)
        (FreshRSSReconciler.newService.mutateFn r inst) = (Except.ok res, c3) →
      (res = OperationResult.Created ∨ res = OperationResult.Updated) →
      r.Reconcile req = (({}, none), c3) ∧
      ∀ op ∈ opsSince r.Client c3, op.verb ≠ Verb.statusUpdate ∧ op.kind ≠ Kind.route) ∧
    (∀ c2 c3 res c4,
      CreateOrUpdate c1 (newDeployment.deployment inst)
        (FreshRSSReconciler.newDeployment.mutateFn r inst) =
        (Except.ok OperationResult.None, c2) →
      CreateOrUpdate c2 (newService.service inst)
        (FreshRSSReconciler.newService.mutateFn r inst) =
        (Except.ok OperationResult.None, c3) →
      CreateOrUpdate c3 (newRoute.route inst)
        (FreshRSSReconciler.newRoute.mutateFn r inst) = (Except.ok res, c4) →
      (res = OperationResult.Created ∨ res = OperationResult.Updated) →
      r.Reconcile req = (({}, none), c4) ∧
      (∀ op ∈ opsSince r.Client c4, op.verb ≠ Verb.statusUpdate) ∧
      (opsSince r.Client c4).countP Op.isRouteGet = 1) ∧
    (((∃ op ∈ opsSince r.Client (r.Reconcile req).2, op.verb = Verb.statusUpdate) ∨
        2 ≤ (opsSince r.Client (r.Reconcile req).2).countP Op.isRouteGet) →
      ∃ c2 c3 c4,
        CreateOrUpdate c1 (newDeployment.deployment inst)
          (FreshRSSReconciler.newDeployment.mutateFn r inst) =
          (Except.ok OperationResult.None, c2) ∧
        CreateOrUpdate c2 (newService.service inst)
          (FreshRSSReconciler.newService.mutateFn r inst) =
          (Except.ok OperationResult.None, c3) ∧
        CreateOrUpdate c3 (newRoute.route inst)
          (FreshRSSReconciler.newRoute.mutateFn r inst) =
          (Except.ok OperationResult.None, c4)) := by
  have h1 := ops_after_get hget
  -- the operations of each apply, whatever its outcome
  have opsD : ∀ res c2, CreateOrUpdate c1 (newDeployment.deployment inst)
      (FreshRSSReconciler.newDeployment.mutateFn r inst) = (res, c2) →
      ∃ ops, opsSince r.Client c2 =
          { verb := Verb.get, kind := Kind.freshRSS, key := req.NamespacedName, err := none } :: ops ∧
        (∀ op ∈ ops, op.kind = Kind.deployment ∧ op.verb ≠ Verb.statusUpdate) := by
    intro res c2 h
    obtain ⟨ops, hl, hk, _⟩ := createOrUpdate_ops c1 (newDeployment.deployment inst)
      (FreshRSSReconciler.newDeployment.mutateFn r inst)
    rw [h] at hl
    exact ⟨ops, opsSince_of_log (by rw [hl, h1]; simp), hk⟩
  have opsS : ∀ c2 res c3, CreateOrUpdate c1 (newDeployment.deployment inst)
      (FreshRSSReconciler.newDeployment.mutateFn r inst) = (Except.ok OperationResult.None, c2) →
      CreateOrUpdate c2 (newService.service inst)
        (FreshRSSReconciler.newService.mutateFn r inst) = (res, c3) →
      ∃ ops, opsSince r.Client c3 =
          { verb := Verb.get, kind := Kind.freshRSS, key := req.NamespacedName, err := none } ::
          { verb := Verb.get, kind := Kind.deployment,
            key := keyOf (newDeployment.deployment inst), err := none } :: ops ∧
        (∀ op ∈ ops, op.kind = Kind.service ∧ op.verb ≠ Verb.statusUpdate) := by
    intro c2 res c3 hD h
    obtain ⟨ops, hl, hk, _⟩ := createOrUpdate_ops c2 (newService.service inst)
      (FreshRSSReconciler.newService.mutateFn r inst)
    rw [h] at hl
    exact ⟨ops, opsSince_of_log (by rw [hl, log_of_unchanged hD, h1]; simp; rfl), hk⟩
  have opsR : ∀ c2 c3 res c4, CreateOrUpdate c1 (newDeployment.deployment inst)
      (FreshRSSReconciler.newDeployment.mutateFn r inst) = (Except.ok OperationResult.None, c2) →
      CreateOrUpdate c2 (newService.service inst)
        (FreshRSSReconciler.newService.mutateFn r inst) = (Except.ok OperationResult.None, c3) →
      CreateOrUpdate c3 (newRoute.route inst)
        (FreshRSSReconciler.newRoute.mutateFn r inst) = (res, c4) →
      ∃ ops, opsSince r.Client c4 =
          { verb := Verb.get, kind := Kind.freshRSS, key := req.NamespacedName, err := none } ::
          { verb := Verb.get, kind := Kind.deployment,
            key := keyOf (newDeployment.deployment inst), err := none } ::
          { verb := Verb.get, kind := Kind.service,
            key := keyOf (newService.service inst), err := none } :: ops ∧
        (∀ op ∈ ops, op.kind = Kind.route ∧ op.verb ≠ Verb.statusUpdate) ∧
        ops.countP (fun op => decide (op.verb = Verb.get)) = 1 := by
    intro c2 c3 res c4 hD hS h
    obtain ⟨ops, hl, hk, hc⟩ := createOrUpdate_ops c3 (newRoute.route inst)
      (FreshRSSReconciler.newRoute.mutateFn r inst)
    rw [h] at hl
    exact ⟨ops, opsSince_of_log
      (by rw [hl, log_of_unchanged hS, log_of_unchanged hD, h1]; simp; exact ⟨rfl, rfl⟩), hk, hc⟩
  have routeGets : ∀ ops : List Op, (∀ op ∈ ops, op.kind = Kind.route ∧ op.verb ≠ Verb.statusUpdate) →
      ops.countP Op.isRouteGet = ops.countP (fun op => decide (op.verb = Verb.get)) := by
    intro ops hk
    apply List.countP_congr
    intro op hop
    simp [Op.isRouteGet, (hk op hop).1]
  refine ⟨?_, ?_, ?_, ?_⟩
  · intro res c2 hD hres
    refine ⟨?_, ?_⟩
    · have := reconcile_of_loop_exit hget (loop_exit_deployment hD
        (by rcases hres with h | h <;> simp [h]))
      rw [this]
    · obtain ⟨ops, ho, hk⟩ := opsD _ _ hD
      rw [ho]
      intro op hop
      simp at hop
      rcases hop with rfl | hop
      · simp
      · simp [(hk op hop).1, (hk op hop).2]
  · intro c2 res c3 hD hS hres
    refine ⟨?_, ?_⟩
    · have := reconcile_of_loop_exit hget (loop_exit_service hD hS
        (by rcases hres with h | h <;> simp [h]))
      rw [this]
    · obtain ⟨ops, ho, hk⟩ := opsS _ _ _ hD hS
      rw [ho]
      intro op hop
      simp at hop
      rcases hop with rfl | rfl | hop
      · simp
      · simp
      · simp [(hk op hop).1, (hk op hop).2]
  · intro c2 c3 res c4 hD hS hR hres
    refine ⟨?_, ?_, ?_⟩
    · have := reconcile_of_loop_exit hget (loop_exit_route hD hS hR
        (by rcases hres with h | h <;> simp [h]))
      rw [this]
    · obtain ⟨ops, ho, hk, _⟩ := opsR _ _ _ _ hD hS hR
      rw [ho]
      intro op hop
      simp at hop
      rcases hop with rfl | rfl | rfl | hop
      · simp
      · simp
      · simp
      · exact (hk op hop).2
    · obtain ⟨ops, ho, hk, hc⟩ := opsR _ _ _ _ hD hS hR
      rw [ho]
      simp [List.countP_cons, Op.isRouteGet]
      have := routeGets ops hk
      simp [Op.isRouteGet] at this
      rw [this]
      exact hc
  · intro hproj
    cases hD : CreateOrUpdate c1 (newDeployment.deployment inst)
        (FreshRSSReconciler.newDeployment.mutateFn r inst) with
    | mk resD c2 =>
      by_cases hresD : resD = Except.ok OperationResult.None
      · subst hresD
        cases hS : CreateOrUpdate c2 (newService.service inst)
            (FreshRSSReconciler.newService.mutateFn r inst) with
        | mk resS c3 =>
          by_cases hresS : resS = Except.ok OperationResult.None
          · subst hresS
            cases hR : CreateOrUpdate c3 (newRoute.route inst)
                (FreshRSSReconciler.newRoute.mutateFn r inst) with
            | mk resR c4 =>
              by_cases hresR : resR = Except.ok OperationResult.None
              · subst hresR
                exact ⟨c2, c3, c4, rfl, hS, hR⟩
              · exfalso
                rw [reconcile_of_loop_exit hget (loop_exit_route hD hS hR hresR)] at hproj
                obtain ⟨ops, ho, hk, hc⟩ := opsR _ _ _ _ hD hS hR
                simp only [ho] at hproj
                have hg := routeGets ops hk
                rcases hproj with ⟨op, hop, hv⟩ | hcount
                · simp at hop
                  rcases hop with rfl | rfl | rfl | hop
                  · simp at hv
                  · simp at hv
                  · simp at hv
                  · exact (hk op hop).2 hv
                · simp [List.countP_cons, Op.isRouteGet] at hcount
                  simp [Op.isRouteGet] at hg
                  omega
          · exfalso
            rw [reconcile_of_loop_exit hget (loop_exit_service hD hS hresS)] at hproj
            obtain ⟨ops, ho, hk⟩ := opsS _ _ _ hD hS
            simp only [ho] at hproj
            rcases hproj with ⟨op, hop, hv⟩ | hcount
            · simp at hop
              rcases hop with rfl | rfl | hop
              · simp at hv
              · simp at hv
              · exact (hk op hop).2 hv
            · have hz : ops.countP Op.isRouteGet = 0 := by
                rw [List.countP_eq_zero]
                intro op hop
                simp [Op.isRouteGet, (hk op hop).1]
              rw [List.countP_cons, List.countP_cons, hz] at hcount
              simp [Op.isRouteGet] at hcount
      · exfalso
        rw [reconcile_of_loop_exit hget (loop_exit_deployment hD hresD)] at hproj
        obtain ⟨ops, ho, hk⟩ := opsD _ _ hD
        simp only [ho] at hproj
        rcases hproj with ⟨op, hop, hv⟩ | hcount
        · simp at hop
          rcases hop with rfl | hop
          · simp at hv
          · exact (hk op hop).2 hv
        · have hz : ops.countP Op.isRouteGet = 0 := by
            rw [List.countP_eq_zero]
            intro op hop
            simp [Op.isRouteGet, (hk op hop).1]
          rw [List.countP_cons, hz] at hcount
          simp [Op.isRouteGet] at hcount

/-- C5: in every invocation of Reconcile, a failed fetch of the FreshRSS ends
the invocation after that one operation, and otherwise the Workload is applied
first, the NetworkEndpoint in the state the Workload apply left, and the
ExternalRoute in the state the NetworkEndpoint apply left. As soon as an apply
reports Created or Updated, Reconcile returns success in the very state that
apply left: no later kind was touched and no status update was made (and the
ExternalRoute was fetched at most once, by its own apply). A status update,
or a second fetch of the ExternalRoute, occurs in an invocation only when all
three applies reported Unchanged. -/
theorem C5_early_exit (r : FreshRSSReconciler) (req : Request) :
    (∀ err c1,
      (r.Client.Get req.NamespacedName : Except Err FreshRSS × Client) = (Except.error err, c1) →
      r.Reconcile req = (({}, IgnoreNotFound err), c1) ∧
      opsSince r.Client c1 =
        [{ verb := Verb.get, kind := Kind.freshRSS, key := req.NamespacedName,
           err := some err }]) ∧
    (∀ inst c1,
      (r.Client.Get req.NamespacedName : Except Err FreshRSS × Client) = (Except.ok inst, c1) →
      (∀ res c2,
        CreateOrUpdate c1 (newDeployment.deployment inst)
          (FreshRSSReconciler.newDeployment.mutateFn r inst) = (Except.ok res, c2) →
        (res = OperationResult.Created ∨ res = OperationResult.Updated) →
        r.Reconcile req = (({}, none), c2) ∧
        ∀ op ∈ opsSince r.Client c2, op.verb ≠ Verb.statusUpdate ∧
          op.kind ≠ Kind.service ∧ op.kind ≠ Kind.route) ∧
      (∀ c2 res c3,
        CreateOrUpdate c1 (newDeployment.deployment inst)
          (FreshRSSReconciler.newDeployment.mutateFn r inst) =
          (Except.ok OperationResult.None, c2) →
        CreateOrUpdate c2 (newService.service inst)
          (FreshRSSReconciler.newService.mutateFn r inst) = (Except.ok res, c3) →
        (res = OperationResult.Created ∨ res = OperationResult.Updated) →
        r.Reconcile req = (({}, none), c3) ∧
        ∀ op ∈ opsSince r.Client c3, op.verb ≠ Verb.statusUpdate ∧ op.kind ≠ Kind.route) ∧
      (∀ c2 c3 res c4,
        CreateOrUpdate c1 (newDeployment.deployment inst)
          (FreshRSSReconciler.newDeployment.mutateFn r inst) =
          (Except.ok OperationResult.None, c2) →
        CreateOrUpdate c2 (newService.service inst)
          (FreshRSSReconciler.newService.mutateFn r inst) =
          (Except.ok OperationResult.None, c3) →
        CreateOrUpdate c3 (newRoute.route inst)
          (FreshRSSReconciler.newRoute.mutateFn r inst) = (Except.ok res, c4) →
        (res = OperationResult.Created ∨ res = OperationResult.Updated) →
        r.Reconcile req = (({}, none), c4) ∧
        (∀ op ∈ opsSince r.Client c4, op.verb ≠ Verb.statusUpdate) ∧
        (opsSince r.Client c4).countP Op.isRouteGet = 1) ∧
      (((∃ op ∈ opsSince r.Client (r.Reconcile req).2, op.verb = Verb.statusUpdate) ∨
          2 ≤ (opsSince r.Client (r.Reconcile req).2).countP Op.isRouteGet) →
        ∃ c2 c3 c4,
          CreateOrUpdate c1 (newDeployment.deployment inst)
            (FreshRSSReconciler.newDeployment.mutateFn r inst) =
            (Except.ok OperationResult.None, c2) ∧
          CreateOrUpdate c2 (newService.service inst)
            (FreshRSSReconciler.newService.mutateFn r inst) =
            (Except.ok OperationResult.None, c3) ∧
          CreateOrUpdate c3 (newRoute.route inst)
            (FreshRSSReconciler.newRoute.mutateFn r inst) =
            (Except.ok OperationResult.None, c4))) := by
  constructor
  · intro err c1 hget
    refine ⟨?_, ?_⟩
    · unfold FreshRSSReconciler.Reconcile
      simp only [hget]
    · apply opsSince_of_log
      unfold Client.Get at hget
      cases hf : r.Client.fault r.Client.log.length with
      | some e =>
        simp only [hf, Prod.mk.injEq, Except.error.injEq] at hget
        rw [← hget.2, ← hget.1]
        rfl
      | none =>
        cases hl : (r.Client.store.lookup req.NamespacedName : Option FreshRSS) with
        | none =>
          simp only [hf, hl, Prod.mk.injEq, Except.error.injEq] at hget
          rw [← hget.2, ← hget.1]
          rfl
        | some o => simp [hf, hl] at hget
  · intro inst c1 hget
    exact early_exit_after_fetch r req inst c1 hget

/-! ## A pass over a converged store -/

/-- The status projection always succeeds and changes at most the status. -/
theorem projectStatus_total (inst : FreshRSS) (route : Route) :
    ∃ i, Reconcile.projectStatus inst route = Except.ok i ∧
      i.ObjectMeta = inst.ObjectMeta ∧ i.Spec = inst.Spec := by
  by_cases hl : route.Status.Ingress.length = 1
  · obtain ⟨ingress, hi⟩ := List.length_eq_one.mp hl
    by_cases hh : ingress.Host = ""
    · exact ⟨{ inst with Status := { URL := "" } },
        by simp [Reconcile.projectStatus, hi, hh], rfl, rfl⟩
    · exact ⟨{ inst with Status := { URL := "http://" ++ ingress.Host } },
        by simp [Reconcile.projectStatus, hi, hh], rfl, rfl⟩
  · exact ⟨inst, by simp [Reconcile.projectStatus, hl], rfl, rfl⟩

/-- After the first object under a key is overwritten by an object with that
key, the key leads to the new object. -/
theorem find_replaceAt {α : Type} [ClientObject α] (key : ObjectKey) (o stored : α)
    (hk : keyOf o = key) (l : List α)
    (h : l.find? (fun x => decide (keyOf x = key)) = some stored) :
    (replaceAt key o l).find? (fun x => decide (keyOf x = key)) = some o := by
  induction l with
  | nil => simp at h
  | cons x xs ih =>
    by_cases hx : keyOf x = key
    · simp [replaceAt, hx, hk]
    · simp only [List.find?, hx, decide_False] at h
      simp [replaceAt, hx, ih h]

/-- A status update leaves the fault oracle and the managed resources alone,
records one operation, and the stored FreshRSS keeps its metadata and spec. -/
theorem statusUpdate_frame (c : Client) (i stored : FreshRSS)
    (hl : (c.store.lookup (keyOf i) : Option FreshRSS) = some stored) :
    (c.StatusUpdate i).2.fault = c.fault ∧
    (c.StatusUpdate i).2.store.Deployments = c.store.Deployments ∧
    (c.StatusUpdate i).2.store.Services = c.store.Services ∧
    (c.StatusUpdate i).2.store.Routes = c.store.Routes ∧
    (∃ e, (c.StatusUpdate i).2.log = c.log ++
      [{ verb := Verb.statusUpdate, kind := Kind.freshRSS, key := keyOf i, err := e }]) ∧
    (c.fault c.log.length = none → (c.StatusUpdate i).1 = none ∧
      (c.StatusUpdate i).2.log = c.log ++
        [{ verb := Verb.statusUpdate, kind := Kind.freshRSS, key := keyOf i, err := none }]) ∧
    ∃ stored', ((c.StatusUpdate i).2.store.lookup (keyOf i) : Option FreshRSS) = some stored' ∧
      stored'.ObjectMeta = stored.ObjectMeta ∧ stored'.Spec = stored.Spec := by
  have hk : ∀ st : FreshRSSStatus, keyOf ({ stored with Status := st } : FreshRSS) = keyOf i :=
    fun _ => (keyOf_of_lookup hl : keyOf stored = keyOf i)
  unfold Client.StatusUpdate
  cases hf : c.fault c.log.length with
  | some e =>
    refine ⟨?_, ?_, ?_, ?_, ?_, ?_, ?_⟩
    · simp [Client.record]
    · simp [Client.record]
    · simp [Client.record]
    · simp [Client.record]
    · exact ⟨some e, by simp [Client.record]⟩
    · simp
    · exact ⟨stored, by simpa [Client.record] using hl, rfl, rfl⟩
  | none =>
    refine ⟨?_, ?_, ?_, ?_, ?_, ?_, ?_⟩
    · simp [Client.record, hl]
    · simp [Client.record, hl]
    · simp [Client.record, hl]
    · simp [Client.record, hl]
    · exact ⟨none, by simp [Client.record, hl]⟩
    · intro _
      simp [Client.record, hl]
    · refine ⟨{ stored with Status := i.Status }, ?_, rfl, rfl⟩
      simp only [Client.record, hl]
      exact find_replaceAt (keyOf i) _ stored (hk _) c.store.FreshRSSes hl

/-- The merge functions and skeletons read only the scheme, the metadata and
the spec of the FreshRSS. -/
theorem merge_congr {r r' : FreshRSSReconciler} {inst inst' : FreshRSS}
    (hs : r'.Scheme = r.Scheme) (hm : inst'.ObjectMeta = inst.ObjectMeta)
    (hp : inst'.Spec = inst.Spec) :
    FreshRSSReconciler.newDeployment.mutateFn r' inst' =
      FreshRSSReconciler.newDeployment.mutateFn r inst ∧
    FreshRSSReconciler.newService.mutateFn r' inst' =
      FreshRSSReconciler.newService.mutateFn r inst ∧
    FreshRSSReconciler.newRoute.mutateFn r' inst' =
      FreshRSSReconciler.newRoute.mutateFn r inst ∧
    newDeployment.deployment inst' = newDeployment.deployment inst ∧
    newService.service inst' = newService.service inst ∧
    newRoute.route inst' = newRoute.route inst := by
  cases r with
  | mk cl sch =>
    cases r' with
    | mk cl' sch' =>
      cases inst with
      | mk m s st =>
        cases inst' with
        | mk m' s' st' =>
          simp only at hs hm hp
          subst hs hm hp
          exact ⟨rfl, rfl, rfl, rfl, rfl, rfl⟩

/-- A pass over a store that holds the FreshRSS and, for each kind, an object
the merge maps to itself, with no fault from the start of the pass on: all
three applies report Unchanged, the route is fetched, and the status is
updated; nothing else is written. -/
theorem reconcile_converged {r : FreshRSSReconciler} {req : Request} {inst : FreshRSS}
    {d : Deployment} {s : Service} {rt : Route}
    (hF : (r.Client.store.lookup req.NamespacedName : Option FreshRSS) = some inst)
    (hD : (r.Client.store.lookup req.NamespacedName : Option Deployment) = some d)
    (hDfix : FreshRSSReconciler.newDeployment.mutateFn r inst d = Except.ok d)
    (hS : (r.Client.store.lookup req.NamespacedName : Option Service) = some s)
    (hSfix : FreshRSSReconciler.newService.mutateFn r inst s = Except.ok s)
    (hR : (r.Client.store.lookup req.NamespacedName : Option Route) = some rt)
    (hRfix : FreshRSSReconciler.newRoute.mutateFn r inst rt = Except.ok rt)
    (hq : ∀ n, r.Client.log.length ≤ n → r.Client.fault n = none) :
    (r.Reconcile req).1 = ({}, none) ∧
    opsSince r.Client (r.Reconcile req).2 =
      [{ verb := Verb.get, kind := Kind.freshRSS, key := req.NamespacedName, err := none },
       { verb := Verb.get, kind := Kind.deployment, key := req.NamespacedName, err := none },
       { verb := Verb.get, kind := Kind.service, key := req.NamespacedName, err := none },
       { verb := Verb.get, kind := Kind.route, key := req.NamespacedName, err := none },
       { verb := Verb.get, kind := Kind.route, key := req.NamespacedName, err := none },
       { verb := Verb.statusUpdate, kind := Kind.freshRSS, key := req.NamespacedName,
         err := none }] ∧
    (r.Reconcile req).2.store.Deployments = r.Client.store.Deployments ∧
    (r.Reconcile req).2.store.Services = r.Client.store.Services ∧
    (r.Reconcile req).2.store.Routes = r.Client.store.Routes ∧
    ∃ c1 c2 c3 c4,
      (r.Client.Get req.NamespacedName : Except Err FreshRSS × Client) = (Except.ok inst, c1) ∧
      CreateOrUpdate c1 (newDeployment.deployment inst)
        (FreshRSSReconciler.newDeployment.mutateFn r inst) =
        (Except.ok OperationResult.None, c2) ∧
      CreateOrUpdate c2 (newService.service inst)
        (FreshRSSReconciler.newService.mutateFn r inst) =
        (Except.ok OperationResult.None, c3) ∧
      CreateOrUpdate c3 (newRoute.route inst)
        (FreshRSSReconciler.newRoute.mutateFn r inst) =
        (Except.ok OperationResult.None, c4) := by
  have hkey : keyOf inst = req.NamespacedName := keyOf_of_lookup hF
  have hkD : keyOf (newDeployment.deployment inst) = req.NamespacedName := by rw [← hkey]; rfl
  have hkS : keyOf (newService.service inst) = req.NamespacedName := by rw [← hkey]; rfl
  have hkR : keyOf (newRoute.route inst) = req.NamespacedName := by rw [← hkey]; rfl
  have hget : (r.Client.Get req.NamespacedName : Except Err FreshRSS × Client) =
      (Except.ok inst, r.Client.record Verb.get Kind.freshRSS req.NamespacedName none) :=
    get_of_lookup_some (hq _ (Nat.le_refl _)) hF
  have hcD : CreateOrUpdate (r.Client.record Verb.get Kind.freshRSS req.NamespacedName none)
      (newDeployment.deployment inst) (FreshRSSReconciler.newDeployment.mutateFn r inst) =
      (Except.ok OperationResult.None,
        (r.Client.record Verb.get Kind.freshRSS req.NamespacedName none).record Verb.get
          Kind.deployment req.NamespacedName none) :=
    (createOrUpdate_none_iff _ _ _ _).mpr
      ⟨d, hq _ (by simp [Client.record]), by rw [hkD]; exact hD,
        (mutate_ok_iff _ _ _ _).mpr ⟨hDfix, by rw [hkD]; exact keyOf_of_lookup hD⟩,
        by rw [hkD]; rfl⟩
  have hcS : CreateOrUpdate ((r.Client.record Verb.get Kind.freshRSS req.NamespacedName
        none).record Verb.get Kind.deployment req.NamespacedName none)
      (newService.service inst) (FreshRSSReconciler.newService.mutateFn r inst) =
      (Except.ok OperationResult.None,
        ((r.Client.record Verb.get Kind.freshRSS req.NamespacedName none).record Verb.get
          Kind.deployment req.NamespacedName none).record Verb.get Kind.service
          req.NamespacedName none) :=
    (createOrUpdate_none_iff _ _ _ _).mpr
      ⟨s, hq _ (by simp [Client.record]), by rw [hkS]; exact hS,
        (mutate_ok_iff _ _ _ _).mpr ⟨hSfix, by rw [hkS]; exact keyOf_of_lookup hS⟩,
        by rw [hkS]; rfl⟩
  have hcR : CreateOrUpdate (((r.Client.record Verb.get Kind.freshRSS req.NamespacedName
        none).record Verb.get Kind.deployment req.NamespacedName none).record Verb.get
        Kind.service req.NamespacedName none)
      (newRoute.route inst) (FreshRSSReconciler.newRoute.mutateFn r inst) =
      (Except.ok OperationResult.None,
        (((r.Client.record Verb.get Kind.freshRSS req.NamespacedName none).record Verb.get
          Kind.deployment req.NamespacedName none).record Verb.get Kind.service
          req.NamespacedName none).record Verb.get Kind.route req.NamespacedName none) :=
    (createOrUpdate_none_iff _ _ _ _).mpr
      ⟨rt, hq _ (by simp [Client.record]), by rw [hkR]; exact hR,
        (mutate_ok_iff _ _ _ _).mpr ⟨hRfix, by rw [hkR]; exact keyOf_of_lookup hR⟩,
        by rw [hkR]; rfl⟩
  have hloop := loop_through hcD hcS hcR
  have hgetR : (Client.Get ((((r.Client.record Verb.get Kind.freshRSS req.NamespacedName
        none).record Verb.get Kind.deployment req.NamespacedName none).record Verb.get
        Kind.service req.NamespacedName none).record Verb.get Kind.route req.NamespacedName none)
        req.NamespacedName : Except Err Route × Client) =
      (Except.ok rt, ((((r.Client.record Verb.get Kind.freshRSS req.NamespacedName
        none).record Verb.get Kind.deployment req.NamespacedName none).record Verb.get
        Kind.service req.NamespacedName none).record Verb.get Kind.route req.NamespacedName
        none).record Verb.get Kind.route req.NamespacedName none) :=
    get_of_lookup_some (hq _ (by simp [Client.record])) hR
  obtain ⟨i, hi, him, _⟩ := projectStatus_total inst rt
  have hki : keyOf i = req.NamespacedName := by
    rw [← hkey]
    show ObjectKeyFromObject i.ObjectMeta = ObjectKeyFromObject inst.ObjectMeta
    rw [him]
  have hrec : r.Reconcile req =
      (({}, (Client.StatusUpdate (((((r.Client.record Verb.get Kind.freshRSS req.NamespacedName
        none).record Verb.get Kind.deployment req.NamespacedName none).record
        Verb.get Kind.service req.NamespacedName none).record Verb.get Kind.route
        req.NamespacedName none).record Verb.get Kind.route req.NamespacedName none) i).1),
       (Client.StatusUpdate (((((r.Client.record Verb.get Kind.freshRSS req.NamespacedName
        none).record Verb.get Kind.deployment req.NamespacedName none).record
        Verb.get Kind.service req.NamespacedName none).record Verb.get Kind.route
        req.NamespacedName none).record Verb.get Kind.route req.NamespacedName none) i).2) := by
    unfold FreshRSSReconciler.Reconcile
    simp only [hget, hloop, hgetR, Reconcile.updateStatus, hi]
  obtain ⟨_, hsD, hsS, hsR, _, hok, _⟩ := statusUpdate_frame
    (((((r.Client.record Verb.get Kind.freshRSS req.NamespacedName
        none).record Verb.get Kind.deployment req.NamespacedName none).record
        Verb.get Kind.service req.NamespacedName none).record Verb.get Kind.route
        req.NamespacedName none).record Verb.get Kind.route req.NamespacedName none) i inst
    (by rw [hki]; exact hF)
  obtain ⟨hnone, hlog⟩ := hok (hq _ (by simp [Client.record]))
  refine ⟨?_, ?_, ?_, ?_, ?_, ?_⟩
  · rw [hrec]
    simp only [hnone]
  · rw [hrec]
    apply opsSince_of_log
    simp only [hlog, hki]
    simp [Client.record]
  · rw [hrec]; exact hsD
  · rw [hrec]; exact hsS
  · rw [hrec]; exact hsR
  · exact ⟨_, _, _, _, hget, hcD, hcS, hcR⟩

/-- The end of Reconcile leaves the fault oracle and the managed resources
alone, and the stored FreshRSS keeps its metadata and spec. -/
theorem updateStatus_frame (c : Client) (inst : FreshRSS) (route : Route)
    (hl : (c.store.lookup (keyOf inst) : Option FreshRSS) = some inst) :
    (Reconcile.updateStatus inst route c).2.fault = c.fault ∧
    (Reconcile.updateStatus inst route c).2.store.Deployments = c.store.Deployments ∧
    (Reconcile.updateStatus inst route c).2.store.Services = c.store.Services ∧
    (Reconcile.updateStatus inst route c).2.store.Routes = c.store.Routes ∧
    ∃ inst2, ((Reconcile.updateStatus inst route c).2.store.lookup (keyOf inst) :
        Option FreshRSS) = some inst2 ∧
      inst2.ObjectMeta = inst.ObjectMeta ∧ inst2.Spec = inst.Spec := by
  obtain ⟨i, hi, him, _⟩ := projectStatus_total inst route
  have hki : keyOf i = keyOf inst := by
    show ObjectKeyFromObject i.ObjectMeta = ObjectKeyFromObject inst.ObjectMeta
    rw [him]
  obtain ⟨h1, h2, h3, h4, _, _, inst2, h5, h6, h7⟩ :=
    statusUpdate_frame c i inst (by rw [hki]; exact hl)
  simp only [Reconcile.updateStatus, hi]
  exact ⟨h1, h2, h3, h4, inst2, by rw [← hki]; exact h5, h6, h7⟩

/-- An invocation in which all three applies report Unchanged leaves the fault
oracle and the managed resources alone, and the stored FreshRSS keeps its
metadata and spec. -/
theorem reconcile_through_frame {r : FreshRSSReconciler} {req : Request} {inst : FreshRSS}
    {c1 c2 c3 c4 : Client}
    (hget : (r.Client.Get req.NamespacedName : Except Err FreshRSS × Client) =
      (Except.ok inst, c1))
    (hD : CreateOrUpdate c1 (newDeployment.deployment inst)
      (FreshRSSReconciler.newDeployment.mutateFn r inst) = (Except.ok OperationResult.None, c2))
    (hS : CreateOrUpdate c2 (newService.service inst)
      (FreshRSSReconciler.newService.mutateFn r inst) = (Except.ok OperationResult.None, c3))
    (hR : CreateOrUpdate c3 (newRoute.route inst)
      (FreshRSSReconciler.newRoute.mutateFn r inst) = (Except.ok OperationResult.None, c4)) :
    (r.Reconcile req).2.fault = r.Client.fault ∧
    (r.Reconcile req).2.store.Deployments = r.Client.store.Deployments ∧
    (r.Reconcile req).2.store.Services = r.Client.store.Services ∧
    (r.Reconcile req).2.store.Routes = r.Client.store.Routes ∧
    (∃ inst2, ((r.Reconcile req).2.store.lookup req.NamespacedName : Option FreshRSS) =
        some inst2 ∧ inst2.ObjectMeta = inst.ObjectMeta ∧ inst2.Spec = inst.Spec) ∧
    ∃ d s rt,
      (r.Client.store.lookup req.NamespacedName : Option Deployment) = some d ∧
      FreshRSSReconciler.newDeployment.mutateFn r inst d = Except.ok d ∧
      (r.Client.store.lookup req.NamespacedName : Option Service) = some s ∧
      FreshRSSReconciler.newService.mutateFn r inst s = Except.ok s ∧
      (r.Client.store.lookup req.NamespacedName : Option Route) = some rt ∧
      FreshRSSReconciler.newRoute.mutateFn r inst rt = Except.ok rt := by
  obtain ⟨_, hF, h1⟩ := get_ok_inv hget
  have hkey : keyOf inst = req.NamespacedName := keyOf_of_lookup hF
  have hkD : keyOf (newDeployment.deployment inst) = req.NamespacedName := by rw [← hkey]; rfl
  have hkS : keyOf (newService.service inst) = req.NamespacedName := by rw [← hkey]; rfl
  have hkR : keyOf (newRoute.route inst) = req.NamespacedName := by rw [← hkey]; rfl
  obtain ⟨d, _, hlD, hmD, h2⟩ := (createOrUpdate_none_iff _ _ _ _).mp hD
  obtain ⟨s, _, hlS, hmS, h3⟩ := (createOrUpdate_none_iff _ _ _ _).mp hS
  obtain ⟨rt, _, hlR, hmR, h4⟩ := (createOrUpdate_none_iff _ _ _ _).mp hR
  have hs4 : c4.store = r.Client.store := by rw [h4, h3, h2, h1]; rfl
  have hf4 : c4.fault = r.Client.fault := by rw [h4, h3, h2, h1]; rfl
  have hs1 : c1.store = r.Client.store := by rw [h1]; rfl
  have hs2 : c2.store = r.Client.store := by rw [h2, h1]; rfl
  have hs3 : c3.store = r.Client.store := by rw [h3, h2, h1]; rfl
  rw [hs1, hkD] at hlD
  rw [hs2, hkS] at hlS
  rw [hs3, hkR] at hlR
  rw [hkD] at hmD
  rw [hkS] at hmS
  rw [hkR] at hmR
  have hfix : ∃ d s rt,
      (r.Client.store.lookup req.NamespacedName : Option Deployment) = some d ∧
      FreshRSSReconciler.newDeployment.mutateFn r inst d = Except.ok d ∧
      (r.Client.store.lookup req.NamespacedName : Option Service) = some s ∧
      FreshRSSReconciler.newService.mutateFn r inst s = Except.ok s ∧
      (r.Client.store.lookup req.NamespacedName : Option Route) = some rt ∧
      FreshRSSReconciler.newRoute.mutateFn r inst rt = Except.ok rt :=
    ⟨d, s, rt, hlD, ((mutate_ok_iff _ _ _ _).mp hmD).1, hlS, ((mutate_ok_iff _ _ _ _).mp hmS).1,
      hlR, ((mutate_ok_iff _ _ _ _).mp hmR).1⟩
  have hloop := loop_through hD hS hR
  obtain ⟨e, he⟩ := @get_frame Route _ c4 req.NamespacedName
  have tail : ∀ (route : Route) (c5 : Client), c5.store = r.Client.store →
      c5.fault = r.Client.fault →
      (Reconcile.updateStatus inst route c5).2.fault = r.Client.fault ∧
      (Reconcile.updateStatus inst route c5).2.store.Deployments = r.Client.store.Deployments ∧
      (Reconcile.updateStatus inst route c5).2.store.Services = r.Client.store.Services ∧
      (Reconcile.updateStatus inst route c5).2.store.Routes = r.Client.store.Routes ∧
      (∃ inst2, ((Reconcile.updateStatus inst route c5).2.store.lookup req.NamespacedName :
        Option FreshRSS) = some inst2 ∧ inst2.ObjectMeta = inst.ObjectMeta ∧
        inst2.Spec = inst.Spec) := by
    intro route c5 hs5 hf5
    obtain ⟨a1, a2, a3, a4, a5⟩ := updateStatus_frame c5 inst route
      (by rw [hs5, hkey]; exact hF)
    rw [hkey] at a5
    rw [hs5] at a2 a3 a4
    rw [hf5] at a1
    exact ⟨a1, a2, a3, a4, a5⟩
  unfold FreshRSSReconciler.Reconcile
  simp only [hget, hloop]
  cases hg : (c4.Get req.NamespacedName : Except Err Route × Client) with
  | mk res c5 =>
    rw [hg] at he
    simp only at he
    have hs5 : c5.store = r.Client.store := by rw [he]; exact hs4
    have hf5 : c5.fault = r.Client.fault := by rw [he]; exact hf4
    cases res with
    | ok route =>
      simp only
      obtain ⟨a1, a2, a3, a4, a5⟩ := tail route c5 hs5 hf5
      exact ⟨a1, a2, a3, a4, a5, hfix⟩
    | error err =>
      simp only
      by_cases hnf : IsNotFound err = true
      · simp only [hnf, Bool.not_true, Bool.false_eq_true, if_false]
        obtain ⟨a1, a2, a3, a4, a5⟩ := tail {} c5 hs5 hf5
        exact ⟨a1, a2, a3, a4, a5, hfix⟩
      · simp only [Bool.not_eq_true] at hnf
        simp only [hnf, Bool.not_false, if_true]
        exact ⟨hf5, by rw [hs5], by rw [hs5], by rw [hs5], ⟨inst, by rw [hs5]; exact hF, rfl, rfl⟩,
          hfix⟩

/-- A create succeeds only on an absent key, and then the object is stored
under its key. -/
theorem create_ok_inv {α : Type} [ClientObject α] [LawfulClientObject α] {c c' : Client}
    {obj : α} (h : c.Create obj = (none, c')) :
    (c.store.lookup (keyOf obj) : Option α) = none ∧
      (c'.store.lookup (keyOf obj) : Option α) = some obj := by
  unfold Client.Create at h
  cases hf : c.fault c.log.length with
  | some e => simp [hf] at h
  | none =>
    cases hl : (c.store.lookup (keyOf obj) : Option α) with
    | some o' => simp [hf, hl] at h
    | none =>
      simp only [hf, hl, Prod.mk.injEq, true_and] at h
      refine ⟨rfl, ?_⟩
      rw [← h]
      unfold Store.lookup at hl ⊢
      simp only [Client.record, LawfulClientObject.list_setList, List.find?_append, hl]
      simp

/-- An update succeeds only on a present key, and then the object is stored
under its key. -/
theorem update_ok_inv {α : Type} [ClientObject α] [LawfulClientObject α] {c c' : Client}
    {obj : α} (h : c.Update obj = (none, c')) :
    (c'.store.lookup (keyOf obj) : Option α) = some obj := by
  unfold Client.Update at h
  cases hf : c.fault c.log.length with
  | some e => simp [hf] at h
  | none =>
    cases hl : (c.store.lookup (keyOf obj) : Option α) with
    | none => simp [hf, hl] at h
    | some o' =>
      simp only [hf, hl, Prod.mk.injEq, true_and] at h
      rw [← h]
      unfold Store.lookup at hl ⊢
      simp only [Client.record, LawfulClientObject.list_setList]
      exact find_replaceAt (keyOf obj) obj o' rfl _ hl

/-- What a successful apply leaves in the store: a created object is the
merged skeleton and the key was absent; an updated object is the merge of the
object that was stored; an unchanged object stays. -/
theorem createOrUpdate_stored {α : Type} [ClientObject α] [LawfulClientObject α]
    [DecidableEq α] {c c' : Client} {obj : α} {f : MutateFn α} {res : OperationResult}
    (h : CreateOrUpdate c obj f = (Except.ok res, c')) :
    (res = OperationResult.Created ∧ (c.store.lookup (keyOf obj) : Option α) = none ∧
      ∃ o, f obj = Except.ok o ∧ (c'.store.lookup (keyOf obj) : Option α) = some o) ∨
    (res ≠ OperationResult.Created ∧
      ∃ e o, (c.store.lookup (keyOf obj) : Option α) = some e ∧ f e = Except.ok o ∧
        (c'.store.lookup (keyOf obj) : Option α) = some o) := by
  unfold CreateOrUpdate at h
  simp only at h
  obtain ⟨ge, hge⟩ := @get_frame α _ c (keyOf obj)
  cases hg : (c.Get (keyOf obj) : Except Err α × Client) with
  | mk gres c1 =>
    rw [hg] at h hge
    simp only at hge
    have hs1 : c1.store = c.store := by rw [hge]; rfl
    cases gres with
    | error err =>
      simp only at h
      split at h
      · cases h
      · split at h
        · cases h
        · rename_i o hm
          obtain ⟨hfo, hko⟩ := (mutate_ok_iff _ _ _ _).mp hm
          split at h
          · cases h
          · rename_i c2 hcr
            simp only [Prod.mk.injEq, Except.ok.injEq] at h
            obtain ⟨hres, hc⟩ := h
            subst hc
            obtain ⟨hbefore, hafter⟩ := create_ok_inv hcr
            rw [hko] at hbefore hafter
            rw [hs1] at hbefore
            exact Or.inl ⟨hres.symm, hbefore, o, hfo, hafter⟩
    | ok existing =>
      obtain ⟨_, hl, _⟩ := get_ok_inv hg
      simp only at h
      split at h
      · cases h
      · rename_i o hm
        obtain ⟨hfo, hko⟩ := (mutate_ok_iff _ _ _ _).mp hm
        split at h
        · rename_i heq
          simp only [Prod.mk.injEq, Except.ok.injEq] at h
          obtain ⟨hres, hc⟩ := h
          subst hc
          refine Or.inr ⟨by rw [← hres]; simp, existing, o, hl, hfo, ?_⟩
          rw [hs1, ← heq]
          exact hl
        · split at h
          · cases h
          · rename_i c2 hup
            simp only [Prod.mk.injEq, Except.ok.injEq] at h
            obtain ⟨hres, hc⟩ := h
            subst hc
            have hafter := update_ok_inv hup
            rw [hko] at hafter
            exact Or.inr ⟨by rw [← hres]; simp, existing, o, hl, hfo, hafter⟩

/-! ## Workload labels -/

/-- C9, counterexample: the store holds the Workload `demoDrifted` of `demoA`
(name `rss`), whose selector and template labels are `app: other` and which
has three replicas. The apply of the Workload reports Updated, and the
Workload it stored has one replica but still the labels `app: other`, not
`app: rss`. -/
theorem C9_live_labels_not_reset :
    demoA.ObjectMeta.Name = "rss" ∧
    (demoDriftedStore.Client.store.lookup demoRequest.NamespacedName : Option Deployment) =
      some demoDrifted ∧
    (CreateOrUpdate demoDriftedStore.Client (newDeployment.deployment demoA)
      (FreshRSSReconciler.newDeployment.mutateFn demoDriftedStore demoA)).1 =
      Except.ok OperationResult.Updated ∧
    (CreateOrUpdate demoDriftedStore.Client (newDeployment.deployment demoA)
      (FreshRSSReconciler.newDeployment.mutateFn demoDriftedStore demoA)).2.store.Deployments.map
        (fun d => (d.Spec.Replicas, d.Spec.Selector, d.Spec.Template.ObjectMeta.Labels)) =
      [(some 1, some { MatchLabels := [("app", "other")] }, [("app", "other")])] :=
  ⟨rfl, rfl, rfl, rfl⟩

/-- C9, amended: the labels `app: n` are part of the Workload skeleton only.
After a successful apply of the Workload for a desired resource named `n`,
the store holds a Workload under the resource's key; when the apply reports
Created, its selector match-labels and its pod-template labels both equal
exactly `app: n`; when a live Workload was fetched from the store, the
selector and the pod-template labels are those of the fetched Workload,
whatever they were. -/
theorem C9_workload_labels_from_skeleton_only (r : FreshRSSReconciler) (inst : FreshRSS)
    (c c' : Client) (res : OperationResult)
    (h : CreateOrUpdate c (newDeployment.deployment inst)
      (FreshRSSReconciler.newDeployment.mutateFn r inst) = (Except.ok res, c')) :
    ∃ d', (c'.store.lookup (keyOf (newDeployment.deployment inst)) : Option Deployment) =
        some d' ∧
      (res = OperationResult.Created →
        d'.Spec.Selector = some { MatchLabels := [("app", inst.ObjectMeta.Name)] } ∧
        d'.Spec.Template.ObjectMeta.Labels = [("app", inst.ObjectMeta.Name)]) ∧
      (∀ d, (c.store.lookup (keyOf (newDeployment.deployment inst)) : Option Deployment) =
          some d →
        d'.Spec.Selector = d.Spec.Selector ∧
        d'.Spec.Template.ObjectMeta.Labels = d.Spec.Template.ObjectMeta.Labels) := by
  rcases createOrUpdate_stored h with ⟨hres, hbefore, o, hfo, hafter⟩ | ⟨hres, e, o, hbefore, hfo, hafter⟩
  · refine ⟨o, hafter, ?_, ?_⟩
    · intro _
      obtain ⟨m, _, ho⟩ := newDeployment_mutateFn_ok hfo
      rw [ho]
      exact ⟨rfl, rfl⟩
    · intro d hd
      rw [hbefore] at hd
      cases hd
  · refine ⟨o, hafter, ?_, ?_⟩
    · intro hc
      exact absurd hc hres
    · intro d hd
      rw [hbefore] at hd
      cases hd
      obtain ⟨m, _, ho⟩ := newDeployment_mutateFn_ok hfo
      rw [ho]
      exact ⟨rfl, rfl⟩

/-- Witness for C9 amended: the apply over the store of `demoDriftedStore`
reports Updated and the stored Workload keeps the labels of `demoDrifted`. -/
theorem C9_workload_labels_from_skeleton_only_witness :
    (CreateOrUpdate demoDriftedStore.Client (newDeployment.deployment demoA)
      (FreshRSSReconciler.newDeployment.mutateFn demoDriftedStore demoA)).1 =
      Except.ok OperationResult.Updated ∧
    ∃ d', ((CreateOrUpdate demoDriftedStore.Client (newDeployment.deployment demoA)
        (FreshRSSReconciler.newDeployment.mutateFn demoDriftedStore demoA)).2.store.lookup
        (keyOf (newDeployment.deployment demoA)) : Option Deployment) = some d' ∧
      (OperationResult.Updated = OperationResult.Created →
        d'.Spec.Selector = some { MatchLabels := [("app", "rss")] } ∧
        d'.Spec.Template.ObjectMeta.Labels = [("app", "rss")]) ∧
      (∀ d, (demoDriftedStore.Client.store.lookup (keyOf (newDeployment.deployment demoA)) :
          Option Deployment) = some d →
        d'.Spec.Selector = d.Spec.Selector ∧
        d'.Spec.Template.ObjectMeta.Labels = d.Spec.Template.ObjectMeta.Labels) :=
  ⟨rfl, C9_workload_labels_from_skeleton_only demoDriftedStore demoA demoDriftedStore.Client
    _ OperationResult.Updated rfl⟩

/-! ## Two passes -/

/-- C7, counterexample: over the store of `demoConverged` a first invocation
runs through all three kinds (four fetches, the fetch of the route, the status
update); the second invocation, with nothing changed in between, again ends
with a status update, which is a store write. -/
theorem C7_second_pass_writes_status :
    (opsSince demoConverged.Client (demoConverged.Reconcile demoRequest).2).map
        (fun op => (op.verb, op.kind, op.err)) =
      [(Verb.get, Kind.freshRSS, none), (Verb.get, Kind.deployment, none),
       (Verb.get, Kind.service, none), (Verb.get, Kind.route, none),
       (Verb.get, Kind.route, none), (Verb.statusUpdate, Kind.freshRSS, none)] ∧
    (opsSince (demoConverged.afterReconcile demoRequest).Client
        ((demoConverged.afterReconcile demoRequest).Reconcile demoRequest).2).filter Op.isWrite =
      [{ verb := Verb.statusUpdate, kind := Kind.freshRSS,
         key := { Namespace := "demo", Name := "rss" }, err := none }] :=
  ⟨rfl, rfl⟩

/-- C7, amended: when an invocation of Reconcile has fetched the FreshRSS and
all three applies reported Unchanged, and no fault occurs afterwards, a second
invocation for the same request again fetches the FreshRSS and reports
Unchanged for the Workload, the NetworkEndpoint and the ExternalRoute; it
performs no create and no update and leaves the three managed resources as
they were; it does fetch the route and perform the status update, which is
its only write, and returns without error. -/
theorem C7_second_pass_unchanged (r : FreshRSSReconciler) (req : Request) (inst : FreshRSS)
    (c1 c2 c3 c4 : Client)
    (hget : (r.Client.Get req.NamespacedName : Except Err FreshRSS × Client) =
      (Except.ok inst, c1))
    (hD : CreateOrUpdate c1 (newDeployment.deployment inst)
      (FreshRSSReconciler.newDeployment.mutateFn r inst) = (Except.ok OperationResult.None, c2))
    (hS : CreateOrUpdate c2 (newService.service inst)
      (FreshRSSReconciler.newService.mutateFn r inst) = (Except.ok OperationResult.None, c3))
    (hR : CreateOrUpdate c3 (newRoute.route inst)
      (FreshRSSReconciler.newRoute.mutateFn r inst) = (Except.ok OperationResult.None, c4))
    (hq : ∀ n, (r.Reconcile req).2.log.length ≤ n → r.Client.fault n = none) :
    ((r.afterReconcile req).Reconcile req).1 = ({}, none) ∧
    opsSince (r.afterReconcile req).Client ((r.afterReconcile req).Reconcile req).2 =
      [{ verb := Verb.get, kind := Kind.freshRSS, key := req.NamespacedName, err := none },
       { verb := Verb.get, kind := Kind.deployment, key := req.NamespacedName, err := none },
       { verb := Verb.get, kind := Kind.service, key := req.NamespacedName, err := none },
       { verb := Verb.get, kind := Kind.route, key := req.NamespacedName, err := none },
       { verb := Verb.get, kind := Kind.route, key := req.NamespacedName, err := none },
       { verb := Verb.statusUpdate, kind := Kind.freshRSS, key := req.NamespacedName,
         err := none }] ∧
    ((r.afterReconcile req).Reconcile req).2.store.Deployments = r.Client.store.Deployments ∧
    ((r.afterReconcile req).Reconcile req).2.store.Services = r.Client.store.Services ∧
    ((r.afterReconcile req).Reconcile req).2.store.Routes = r.Client.store.Routes ∧
    ∃ inst2 b1 b2 b3 b4,
      ((r.afterReconcile req).Client.Get req.NamespacedName : Except Err FreshRSS × Client) =
        (Except.ok inst2, b1) ∧
      CreateOrUpdate b1 (newDeployment.deployment inst2)
        (FreshRSSReconciler.newDeployment.mutateFn (r.afterReconcile req) inst2) =
        (Except.ok OperationResult.None, b2) ∧
      CreateOrUpdate b2 (newService.service inst2)
        (FreshRSSReconciler.newService.mutateFn (r.afterReconcile req) inst2) =
        (Except.ok OperationResult.None, b3) ∧
      CreateOrUpdate b3 (newRoute.route inst2)
        (FreshRSSReconciler.newRoute.mutateFn (r.afterReconcile req) inst2) =
        (Except.ok OperationResult.None, b4) := by
  obtain ⟨hf, hsD, hsS, hsR, ⟨inst2, hl2, hm2, hp2⟩, d, s, rt, hlD, hfD, hlS, hfS, hlR, hfR⟩ :=
    reconcile_through_frame hget hD hS hR
  obtain ⟨gD, gS, gR, _, _, _⟩ := @merge_congr r (r.afterReconcile req) inst inst2 rfl hm2 hp2
  have hlD2 : ((r.afterReconcile req).Client.store.lookup req.NamespacedName :
      Option Deployment) = some d := by
    unfold Store.lookup at hlD ⊢
    show ((r.Reconcile req).2.store.Deployments.find? _) = _
    rw [hsD]
    exact hlD
  have hlS2 : ((r.afterReconcile req).Client.store.lookup req.NamespacedName :
      Option Service) = some s := by
    unfold Store.lookup at hlS ⊢
    show ((r.Reconcile req).2.store.Services.find? _) = _
    rw [hsS]
    exact hlS
  have hlR2 : ((r.afterReconcile req).Client.store.lookup req.NamespacedName :
      Option Route) = some rt := by
    unfold Store.lookup at hlR ⊢
    show ((r.Reconcile req).2.store.Routes.find? _) = _
    rw [hsR]
    exact hlR
  have hq2 : ∀ n, (r.afterReconcile req).Client.log.length ≤ n →
      (r.afterReconcile req).Client.fault n = none := by
    intro n hn
    show (r.Reconcile req).2.fault n = none
    rw [hf]
    exact hq n hn
  obtain ⟨a1, a2, a3, a4, a5, b1, b2, b3, b4, a6⟩ :=
    @reconcile_converged (r.afterReconcile req) req inst2 d s rt hl2 hlD2 (by rw [gD]; exact hfD)
      hlS2 (by rw [gS]; exact hfS) hlR2 (by rw [gR]; exact hfR) hq2
  refine ⟨a1, a2, ?_, ?_, ?_, inst2, b1, b2, b3, b4, a6⟩
  · rw [a3]; exact hsD
  · rw [a4]; exact hsS
  · rw [a5]; exact hsR

/-- Witness for C7 amended: the first invocation over the store of
`demoConverged` reports Unchanged three times, and the second invocation does
six store operations of which only the last, the status update, writes. -/
theorem C7_second_pass_unchanged_witness :
    ((demoConverged.afterReconcile demoRequest).Reconcile demoRequest).1 = ({}, none) ∧
    opsSince (demoConverged.afterReconcile demoRequest).Client
        ((demoConverged.afterReconcile demoRequest).Reconcile demoRequest).2 =
      [{ verb := Verb.get, kind := Kind.freshRSS, key := demoRequest.NamespacedName, err := none },
       { verb := Verb.get, kind := Kind.deployment, key := demoRequest.NamespacedName, err := none },
       { verb := Verb.get, kind := Kind.service, key := demoRequest.NamespacedName, err := none },
       { verb := Verb.get, kind := Kind.route, key := demoRequest.NamespacedName, err := none },
       { verb := Verb.get, kind := Kind.route, key := demoRequest.NamespacedName, err := none },
       { verb := Verb.statusUpdate, kind := Kind.freshRSS, key := demoRequest.NamespacedName,
         err := none }] ∧
    ((demoConverged.afterReconcile demoRequest).Reconcile demoRequest).2.store.Deployments =
      [demoLiveA] :=
  have h := C7_second_pass_unchanged demoConverged demoRequest demoA
    (demoConverged.Client.record Verb.get Kind.freshRSS demoRequest.NamespacedName none)
    ((demoConverged.Client.record Verb.get Kind.freshRSS demoRequest.NamespacedName none).record
      Verb.get Kind.deployment demoRequest.NamespacedName none)
    (((demoConverged.Client.record Verb.get Kind.freshRSS demoRequest.NamespacedName none).record
      Verb.get Kind.deployment demoRequest.NamespacedName none).record
      Verb.get Kind.service demoRequest.NamespacedName none)
    ((((demoConverged.Client.record Verb.get Kind.freshRSS demoRequest.NamespacedName none).record
      Verb.get Kind.deployment demoRequest.NamespacedName none).record
      Verb.get Kind.service demoRequest.NamespacedName none).record
      Verb.get Kind.route demoRequest.NamespacedName none)
    rfl rfl rfl rfl (fun _ _ => rfl)
  ⟨h.1, h.2.1, h.2.2.1⟩

/-- Witness for C5: over the store of `demoDriftedStore` the apply of the
Workload reports Updated and Reconcile returns success in the state that apply
left, having touched neither Service nor Route nor status; over the store of
`demoConverged` a status update occurs, and all three applies reported
Unchanged. -/
theorem C5_early_exit_witness :
    (demoDriftedStore.Reconcile demoRequest =
        (({}, none), (CreateOrUpdate
          (demoDriftedStore.Client.record Verb.get Kind.freshRSS demoRequest.NamespacedName none)
          (newDeployment.deployment demoA)
          (FreshRSSReconciler.newDeployment.mutateFn demoDriftedStore demoA)).2) ∧
      ∀ op ∈ opsSince demoDriftedStore.Client (CreateOrUpdate
          (demoDriftedStore.Client.record Verb.get Kind.freshRSS demoRequest.NamespacedName none)
          (newDeployment.deployment demoA)
          (FreshRSSReconciler.newDeployment.mutateFn demoDriftedStore demoA)).2,
        op.verb ≠ Verb.statusUpdate ∧ op.kind ≠ Kind.service ∧ op.kind ≠ Kind.route) ∧
    ∃ c2 c3 c4,
      CreateOrUpdate
        (demoConverged.Client.record Verb.get Kind.freshRSS demoRequest.NamespacedName none)
        (newDeployment.deployment demoA)
        (FreshRSSReconciler.newDeployment.mutateFn demoConverged demoA) =
        (Except.ok OperationResult.None, c2) ∧
      CreateOrUpdate c2 (newService.service demoA)
        (FreshRSSReconciler.newService.mutateFn demoConverged demoA) =
        (Except.ok OperationResult.None, c3) ∧
      CreateOrUpdate c3 (newRoute.route demoA)
        (FreshRSSReconciler.newRoute.mutateFn demoConverged demoA) =
        (Except.ok OperationResult.None, c4) :=
  ⟨((C5_early_exit demoDriftedStore demoRequest).2 demoA
      (demoDriftedStore.Client.record Verb.get Kind.freshRSS demoRequest.NamespacedName none)
      rfl).1 OperationResult.Updated _ rfl (Or.inr rfl),
    ((C5_early_exit demoConverged demoRequest).2 demoA
      (demoConverged.Client.record Verb.get Kind.freshRSS demoRequest.NamespacedName none)
      rfl).2.2.2 (Or.inl ⟨Op.mk Verb.statusUpdate Kind.freshRSS demoRequest.NamespacedName none,
        by decide, rfl⟩)⟩

/-! ## The ExternalRoute and NetworkEndpoint merges -/

/-- C12: a successful ExternalRoute merge for a desired resource named `n`
sets the target reference to the Service named `n` with weight 100, the target
port to 8080 and the wildcard policy to None, whatever they were, and leaves
host, path and TLS configuration of the route spec, and the route status,
equal to their previous values. -/
theorem C12_route_merge (r : FreshRSSReconciler) (inst : FreshRSS) (rt rt' : Route)
    (h : FreshRSSReconciler.newRoute.mutateFn r inst rt = Except.ok rt') :
    rt'.Spec.To = { Kind := "Service", Name := inst.ObjectMeta.Name, Weight := some 100 } ∧
    rt'.Spec.Port = some { TargetPort := IntOrString.int 8080 } ∧
    rt'.Spec.WildcardPolicy = "None" ∧
    rt'.Spec.Host = rt.Spec.Host ∧ rt'.Spec.Path = rt.Spec.Path ∧ rt'.Spec.TLS = rt.Spec.TLS ∧
    rt'.Status = rt.Status := by
  obtain ⟨m, _, hrt⟩ := newRoute_mutateFn_ok h
  rw [hrt]
  exact ⟨rfl, rfl, rfl, rfl, rfl, rfl, rfl⟩

/-- Witness for C12: the merge for `demoA` redirects `demoRouteCustom` to the
Service `rss` and keeps its host, path and TLS configuration. -/
theorem C12_route_merge_witness :
    FreshRSSReconciler.newRoute.mutateFn demoReconciler demoA demoRouteCustom =
      Except.ok demoRouteCustomMerged ∧
    demoRouteCustom.Spec.To = { Kind := "Service", Name := "old", Weight := some 50 } ∧
    demoRouteCustomMerged.Spec.To = { Kind := "Service", Name := "rss", Weight := some 100 } ∧
    demoRouteCustomMerged.Spec.Port = some { TargetPort := IntOrString.int 8080 } ∧
    demoRouteCustomMerged.Spec.WildcardPolicy = "None" ∧
    demoRouteCustomMerged.Spec.Host = "rss.example.com" ∧
    demoRouteCustomMerged.Spec.Path = "/reader" ∧
    demoRouteCustomMerged.Spec.TLS =
      some { Termination := "edge", InsecureEdgeTerminationPolicy := "Redirect" } ∧
    demoRouteCustomMerged.Status = demoRouteCustom.Status :=
  ⟨rfl, rfl,
    C12_route_merge demoReconciler demoA demoRouteCustom demoRouteCustomMerged rfl⟩

/-- C13: a successful NetworkEndpoint merge for a desired resource named `n`
leaves the Service, whatever ports and selector it had, with a port list of
exactly one entry (port 80, target port 8080, protocol TCP, nothing else set)
and a selector equal to exactly `app: n`. -/
theorem C13_service_merge (r : FreshRSSReconciler) (inst : FreshRSS) (s s' : Service)
    (h : FreshRSSReconciler.newService.mutateFn r inst s = Except.ok s') :
    s'.Spec.Ports = [{ Port := 80, TargetPort := IntOrString.int 8080, Protocol := "TCP" }] ∧
    s'.Spec.Selector = [("app", inst.ObjectMeta.Name)] := by
  obtain ⟨m, _, hs⟩ := newService_mutateFn_ok h
  rw [hs]
  exact ⟨rfl, rfl⟩

/-- Witness for C13: the merge for `demoA` replaces the two ports and the
two-entry selector of `demoServiceCustom`. -/
theorem C13_service_merge_witness :
    FreshRSSReconciler.newService.mutateFn demoReconciler demoA demoServiceCustom =
      Except.ok demoServiceCustomMerged ∧
    demoServiceCustom.Spec.Ports.length = 2 ∧
    demoServiceCustom.Spec.Selector = [("app", "old"), ("tier", "web")] ∧
    demoServiceCustomMerged.Spec.Ports =
      [{ Port := 80, TargetPort := IntOrString.int 8080, Protocol := "TCP" }] ∧
    demoServiceCustomMerged.Spec.Selector = [("app", "rss")] :=
  ⟨rfl, rfl, rfl,
    C13_service_merge demoReconciler demoA demoServiceCustom demoServiceCustomMerged rfl⟩

/-! ## The one-container branch of the Workload merge -/

/-- C18: for a live Workload whose container list has exactly one element, a
successful Workload merge returns a Workload whose container list is the
input's container list, equal in every field, for any title and default user;
the spec differs from the input's at most in the replica count, which is 1,
and the metadata at most in the owner references. -/
theorem C18_single_container_untouched (r : FreshRSSReconciler) (inst : FreshRSS)
    (d d' : Deployment)
    (hl : d.Spec.Template.Spec.Containers.length = 1)
    (h : FreshRSSReconciler.newDeployment.mutateFn r inst d = Except.ok d') :
    d'.Spec.Template.Spec.Containers = d.Spec.Template.Spec.Containers ∧
    d'.Spec = { d.Spec with Replicas := some 1 } ∧
    d'.ObjectMeta = { d.ObjectMeta with OwnerReferences := d'.ObjectMeta.OwnerReferences } := by
  obtain ⟨m, hm, hd⟩ := newDeployment_mutateFn_ok h
  obtain ⟨gvk, _, _, _, hmeta⟩ := SetControllerReference_ok hm
  rw [hd, hmeta]
  simp [hl]

/-- Witness for C18: `demoDrifted` has one container and three replicas; the
merge built from title `B` returns it with one replica and the same container,
whose environment still says `TITLE = A`. -/
theorem C18_single_container_untouched_witness :
    demoDrifted.Spec.Template.Spec.Containers.length = 1 ∧
    FreshRSSReconciler.newDeployment.mutateFn demoReconciler demoB demoDrifted =
      Except.ok demoDriftedMerged ∧
    demoDriftedMerged.Spec.Template.Spec.Containers = demoDrifted.Spec.Template.Spec.Containers ∧
    demoDriftedMerged.Spec = { demoDrifted.Spec with Replicas := some 1 } ∧
    demoDriftedMerged.ObjectMeta =
      { demoDrifted.ObjectMeta with OwnerReferences := demoDriftedMerged.ObjectMeta.OwnerReferences } :=
  ⟨rfl, rfl,
    C18_single_container_untouched demoReconciler demoB demoDrifted demoDriftedMerged rfl rfl⟩

/-! ## Index expressions -/

/-- The owner attachment never reports an index panic. -/
theorem SetControllerReference_no_panic (owner controlled : ObjectMeta) (scheme : Scheme) :
    SetControllerReference owner controlled scheme ≠ Except.error Err.indexOutOfRange := by
  unfold SetControllerReference validateOwner
  intro h
  split at h
  · rename_i e he
    split at he
    · split at he
      · cases he; cases h
      · split at he
        · cases he; cases h
        · cases he
    · cases he
  · split at h
    · cases h
    · simp only at h
      split at h
      · split at h
        · cases h
        · cases h
      · cases h

/-- An error of the Workload merge is the error of the owner attachment. -/
theorem newDeployment_mutateFn_error {r : FreshRSSReconciler} {inst : FreshRSS}
    {d : Deployment} {err : Err}
    (h : FreshRSSReconciler.newDeployment.mutateFn r inst d = Except.error err) :
    SetControllerReference inst.ObjectMeta d.ObjectMeta r.Scheme = Except.error err := by
  cases hs : SetControllerReference inst.ObjectMeta d.ObjectMeta r.Scheme with
  | error e =>
    unfold FreshRSSReconciler.newDeployment.mutateFn at h
    simp only [hs] at h
    cases h
    rfl
  | ok m =>
    obtain ⟨d', hd'⟩ := newDeployment_mutateFn_of_owner hs
    rw [hd'] at h
    cases h

/-- C19: the element-0 accesses are guarded by a length of exactly one, so
the missing-element branch of the total embedding is never taken: for every
live Workload (an empty container list included) an error of the Workload
merge is the error of the owner attachment and never the index panic, and for
every route status (an empty ingress list and the zero-valued route of a
not-found fetch included) the status projection returns a resource. -/
theorem C19_no_index_panic (r : FreshRSSReconciler) (inst : FreshRSS) :
    (∀ (d : Deployment) (err : Err),
      FreshRSSReconciler.newDeployment.mutateFn r inst d = Except.error err →
      SetControllerReference inst.ObjectMeta d.ObjectMeta r.Scheme = Except.error err) ∧
    (∀ d : Deployment, FreshRSSReconciler.newDeployment.mutateFn r inst d ≠
      Except.error Err.indexOutOfRange) ∧
    (∀ d : Deployment, d.Spec.Template.Spec.Containers.length = 1 →
      ∃ c, d.Spec.Template.Spec.Containers[0]? = some c) ∧
    (∀ route : Route, ∃ i, Reconcile.projectStatus inst route = Except.ok i) ∧
    (∀ route : Route, route.Status.Ingress.length = 1 →
      ∃ ingress, route.Status.Ingress[0]? = some ingress) ∧
    Reconcile.projectStatus inst {} = Except.ok inst := by
  refine ⟨fun d err h => newDeployment_mutateFn_error h, ?_, ?_, ?_, ?_, rfl⟩
  · intro d h
    exact SetControllerReference_no_panic _ _ _ (newDeployment_mutateFn_error h)
  · intro d hl
    obtain ⟨c, hc⟩ := List.length_eq_one.mp hl
    exact ⟨c, by simp [hc]⟩
  · intro route
    obtain ⟨i, hi, _, _⟩ := projectStatus_total inst route
    exact ⟨i, hi⟩
  · intro route hl
    obtain ⟨c, hc⟩ := List.length_eq_one.mp hl
    exact ⟨c, by simp [hc]⟩

/-- Witness for C19: the merge succeeds on `demoEmpty`, which has no
container, and the projection succeeds on the zero-valued route. -/
theorem C19_no_index_panic_witness :
    demoEmpty.Spec.Template.Spec.Containers = [] ∧
    FreshRSSReconciler.newDeployment.mutateFn demoReconciler demoA demoEmpty ≠
      Except.error Err.indexOutOfRange ∧
    Reconcile.projectStatus demoStale {} = Except.ok demoStale :=
  ⟨rfl, (C19_no_index_panic demoReconciler demoA).2.1 demoEmpty,
    (C19_no_index_panic demoReconciler demoStale).2.2.2.2.2⟩

/-! ## The fetch of the desired resource -/

/-- A failed fetch records one `get` with the error it returns and leaves the
store alone. -/
theorem get_error_inv {α : Type} [ClientObject α] {c c' : Client} {key : ObjectKey} {err : Err}
    (h : (c.Get key : Except Err α × Client) = (Except.error err, c')) :
    c' = c.record Verb.get (ClientObject.kind α) key (some err) := by
  unfold Client.Get at h
  cases hf : c.fault c.log.length with
  | some e =>
    simp only [hf, Prod.mk.injEq, Except.error.injEq] at h
    rw [← h.2, ← h.1]
  | none =>
    cases hl : (c.store.lookup key : Option α) with
    | none =>
      simp only [hf, hl, Prod.mk.injEq, Except.error.injEq] at h
      rw [← h.2, ← h.1]
    | some o => simp [hf, hl] at h

/-- C14: when the fetch of the desired resource fails, that fetch is the only
store operation of the invocation and the store is as it was; Reconcile
returns success when the error is not-found and returns the error itself
otherwise. -/
theorem C14_desired_resource_fetch_fails (r : FreshRSSReconciler) (req : Request) (err : Err)
    (c1 : Client)
    (hget : (r.Client.Get req.NamespacedName : Except Err FreshRSS × Client) =
      (Except.error err, c1)) :
    (err = Err.notFound → r.Reconcile req = (({}, none), c1)) ∧
    (err ≠ Err.notFound → r.Reconcile req = (({}, some err), c1)) ∧
    c1.store = r.Client.store ∧
    opsSince r.Client (r.Reconcile req).2 =
      [{ verb := Verb.get, kind := Kind.freshRSS, key := req.NamespacedName,
         err := some err }] := by
  have hrec : r.Reconcile req = (({}, IgnoreNotFound err), c1) := by
    unfold FreshRSSReconciler.Reconcile
    simp only [hget]
  have hc1 := get_error_inv hget
  refine ⟨?_, ?_, ?_, ?_⟩
  · intro he
    rw [hrec, he]
    rfl
  · intro he
    rw [hrec]
    simp [IgnoreNotFound, IsNotFound, he]
  · rw [hc1]
    rfl
  · rw [hrec]
    apply opsSince_of_log
    rw [hc1]
    rfl

/-- Witness for C14: over the empty store of `demoReconciler` the fetch
reports not-found and Reconcile returns success after that one operation; over
`demoUnavailable` the fetch fails with the store error and Reconcile returns
it. -/
theorem C14_desired_resource_fetch_fails_witness :
    (demoReconciler.Reconcile demoRequest).1 = ({}, none) ∧
    opsSince demoReconciler.Client (demoReconciler.Reconcile demoRequest).2 =
      [{ verb := Verb.get, kind := Kind.freshRSS, key := demoRequest.NamespacedName,
         err := some Err.notFound }] ∧
    (demoUnavailable.Reconcile demoRequest).1 = ({}, some Err.unavailable) ∧
    opsSince demoUnavailable.Client (demoUnavailable.Reconcile demoRequest).2 =
      [{ verb := Verb.get, kind := Kind.freshRSS, key := demoRequest.NamespacedName,
         err := some Err.unavailable }] :=
  ⟨congrArg Prod.fst ((C14_desired_resource_fetch_fails demoReconciler demoRequest Err.notFound
      (demoReconciler.Client.record Verb.get Kind.freshRSS demoRequest.NamespacedName
        (some Err.notFound)) rfl).1 rfl),
    (C14_desired_resource_fetch_fails demoReconciler demoRequest Err.notFound
      (demoReconciler.Client.record Verb.get Kind.freshRSS demoRequest.NamespacedName
        (some Err.notFound)) rfl).2.2.2,
    congrArg Prod.fst ((C14_desired_resource_fetch_fails demoUnavailable demoRequest
      Err.unavailable
      (demoUnavailable.Client.record Verb.get Kind.freshRSS demoRequest.NamespacedName
        (some Err.unavailable)) rfl).2.1 (by decide)),
    (C14_desired_resource_fetch_fails demoUnavailable demoRequest Err.unavailable
      (demoUnavailable.Client.record Verb.get Kind.freshRSS demoRequest.NamespacedName
        (some Err.unavailable)) rfl).2.2.2⟩

/-! ## Failing applies -/

/-- The store operations of one apply, whatever its outcome: all of the kind
applied, none a status update, exactly one fetch and at most one write. -/
theorem apply_ops {α : Type} [ClientObject α] [DecidableEq α] {c c' : Client} {obj : α}
    {f : MutateFn α} {res : Except Err OperationResult}
    (h : CreateOrUpdate c obj f = (res, c')) :
    c'.log = c.log ++ opsSince c c' ∧
      (∀ op ∈ opsSince c c', op.kind = ClientObject.kind α ∧ op.verb ≠ Verb.statusUpdate) ∧
      (opsSince c c').countP (fun op => decide (op.verb = Verb.get)) = 1 ∧
      (opsSince c c').countP Op.isWrite ≤ 1 := by
  obtain ⟨e, he⟩ := @get_frame α _ c (keyOf obj)
  have one : ∀ c1 : Client, c1 = c.record Verb.get (ClientObject.kind α) (keyOf obj) e →
      c1.log = c.log ++ opsSince c c1 ∧
      (∀ op ∈ opsSince c c1, op.kind = ClientObject.kind α ∧ op.verb ≠ Verb.statusUpdate) ∧
      (opsSince c c1).countP (fun op => decide (op.verb = Verb.get)) = 1 ∧
      (opsSince c c1).countP Op.isWrite ≤ 1 := by
    intro c1 h1
    have ho : opsSince c c1 =
        [{ verb := Verb.get, kind := ClientObject.kind α, key := keyOf obj, err := e }] :=
      opsSince_of_log (by rw [h1]; rfl)
    rw [ho]
    exact ⟨by rw [h1]; rfl, by simp, by simp, by simp [Op.isWrite]⟩
  have two : ∀ (c1 c2 : Client) (w : Op),
      c1 = c.record Verb.get (ClientObject.kind α) (keyOf obj) e →
      c2.log = c1.log ++ [w] → w.kind = ClientObject.kind α →
      (w.verb = Verb.create ∨ w.verb = Verb.update) →
      c2.log = c.log ++ opsSince c c2 ∧
      (∀ op ∈ opsSince c c2, op.kind = ClientObject.kind α ∧ op.verb ≠ Verb.statusUpdate) ∧
      (opsSince c c2).countP (fun op => decide (op.verb = Verb.get)) = 1 ∧
      (opsSince c c2).countP Op.isWrite ≤ 1 := by
    intro c1 c2 w h1 h2 hk hv
    have hlog : c2.log = c.log ++
        [{ verb := Verb.get, kind := ClientObject.kind α, key := keyOf obj, err := e }, w] := by
      rw [h2, h1]; simp [Client.record]
    have ho := opsSince_of_log hlog
    rw [ho]
    refine ⟨hlog, ?_, ?_, ?_⟩
    · intro op hop
      simp at hop
      rcases hop with rfl | rfl
      · simp
      · rcases hv with hv | hv <;> simp [hk, hv]
    · rcases hv with hv | hv <;> simp [List.countP_cons, hv]
    · rcases hv with hv | hv <;> simp [List.countP_cons, Op.isWrite, hv]
  unfold CreateOrUpdate at h
  simp only at h
  cases hg : (c.Get (keyOf obj) : Except Err α × Client) with
  | mk gres c1 =>
    rw [hg] at he h
    simp only at he
    cases gres with
    | error err =>
      simp only at h
      split at h
      · rw [← (Prod.mk.inj h).2]; exact one c1 he
      · split at h
        · rw [← (Prod.mk.inj h).2]; exact one c1 he
        · rename_i o hm
          obtain ⟨e2, he2⟩ := create_frame c1 o
          split at h
          · rename_i err2 c2 hcr
            rw [hcr] at he2
            rw [← (Prod.mk.inj h).2]
            exact two c1 c2 _ he he2 rfl (Or.inl rfl)
          · rename_i c2 hcr
            rw [hcr] at he2
            rw [← (Prod.mk.inj h).2]
            exact two c1 c2 _ he he2 rfl (Or.inl rfl)
    | ok existing =>
      simp only at h
      split at h
      · rw [← (Prod.mk.inj h).2]; exact one c1 he
      · rename_i o hm
        split at h
        · rw [← (Prod.mk.inj h).2]; exact one c1 he
        · obtain ⟨e2, he2⟩ := update_frame c1 o
          split at h
          · rename_i err2 c2 hcr
            rw [hcr] at he2
            rw [← (Prod.mk.inj h).2]
            exact two c1 c2 _ he he2 rfl (Or.inr rfl)
          · rename_i c2 hcr
            rw [hcr] at he2
            rw [← (Prod.mk.inj h).2]
            exact two c1 c2 _ he he2 rfl (Or.inr rfl)

/-- The operations since the start of an invocation are those up to a later
state followed by those since that state. -/
theorem opsSince_append {a b c : Client} (hab : b.log = a.log ++ opsSince a b)
    (hbc : c.log = b.log ++ opsSince b c) :
    opsSince a c = opsSince a b ++ opsSince b c := by
  apply opsSince_of_log
  rw [hbc, hab, List.append_assoc]

/-- The operations of the fetch of the FreshRSS. -/
theorem ops_of_fetch {r : FreshRSSReconciler} {req : Request} {inst : FreshRSS} {c1 : Client}
    (hget : (r.Client.Get req.NamespacedName : Except Err FreshRSS × Client) =
      (Except.ok inst, c1)) :
    c1.log = r.Client.log ++ opsSince r.Client c1 ∧
    opsSince r.Client c1 =
      [{ verb := Verb.get, kind := Kind.freshRSS, key := req.NamespacedName, err := none }] := by
  have h := ops_after_get hget
  have ho := opsSince_of_log h
  exact ⟨by rw [ho]; exact h, ho⟩

/-- The operations of an apply that reports Unchanged. -/
theorem ops_of_unchanged {α : Type} [ClientObject α] [DecidableEq α] {c c' : Client} {obj : α}
    {f : MutateFn α} (h : CreateOrUpdate c obj f = (Except.ok OperationResult.None, c')) :
    opsSince c c' =
      [{ verb := Verb.get, kind := ClientObject.kind α, key := keyOf obj, err := none }] :=
  opsSince_of_log (log_of_unchanged h)

/-- C16: once the FreshRSS is fetched, if the apply of a kind fails with an
error (a failed fetch, create or update, a conflict included, or a failed
merge), Reconcile returns exactly that error in the very state the failed
apply left: no later kind is applied, the ExternalRoute is not fetched for the
status, no status update is made, and the failed apply itself did one fetch
and at most one write, so nothing was attempted twice. -/
theorem C16_apply_failure_aborts (r : FreshRSSReconciler) (req : Request) (inst : FreshRSS)
    (c1 : Client)
    (hget : (r.Client.Get req.NamespacedName : Except Err FreshRSS × Client) =
      (Except.ok inst, c1)) :
    (∀ err c2,
      CreateOrUpdate c1 (newDeployment.deployment inst)
        (FreshRSSReconciler.newDeployment.mutateFn r inst) = (Except.error err, c2) →
      r.Reconcile req = (({}, some err), c2) ∧
      (∀ op ∈ opsSince r.Client c2, op.verb ≠ Verb.statusUpdate ∧
        op.kind ≠ Kind.service ∧ op.kind ≠ Kind.route) ∧
      (opsSince c1 c2).countP (fun op => decide (op.verb = Verb.get)) = 1 ∧
      (opsSince c1 c2).countP Op.isWrite ≤ 1) ∧
    (∀ c2 err c3,
      CreateOrUpdate c1 (newDeployment.deployment inst)
        (FreshRSSReconciler.newDeployment.mutateFn r inst) =
        (Except.ok OperationResult.None, c2) →
      CreateOrUpdate c2 (newService.service inst)
        (FreshRSSReconciler.newService.mutateFn r inst) = (Except.error err, c3) →
      r.Reconcile req = (({}, some err), c3) ∧
      (∀ op ∈ opsSince r.Client c3, op.verb ≠ Verb.statusUpdate ∧ op.kind ≠ Kind.route) ∧
      (opsSince c2 c3).countP (fun op => decide (op.verb = Verb.get)) = 1 ∧
      (opsSince c2 c3).countP Op.isWrite ≤ 1) ∧
    (∀ c2 c3 err c4,
      CreateOrUpdate c1 (newDeployment.deployment inst)
        (FreshRSSReconciler.newDeployment.mutateFn r inst) =
        (Except.ok OperationResult.None, c2) →
      CreateOrUpdate c2 (newService.service inst)
        (FreshRSSReconciler.newService.mutateFn r inst) =
        (Except.ok OperationResult.None, c3) →
      CreateOrUpdate c3 (newRoute.route inst)
        (FreshRSSReconciler.newRoute.mutateFn r inst) = (Except.error err, c4) →
      r.Reconcile req = (({}, some err), c4) ∧
      (∀ op ∈ opsSince r.Client c4, op.verb ≠ Verb.statusUpdate) ∧
      (opsSince r.Client c4).countP Op.isRouteGet = 1 ∧
      (opsSince c3 c4).countP (fun op => decide (op.verb = Verb.get)) = 1 ∧
      (opsSince c3 c4).countP Op.isWrite ≤ 1) := by
  obtain ⟨hl1, ho1⟩ := ops_of_fetch hget
  refine ⟨?_, ?_, ?_⟩
  · intro err c2 hD
    obtain ⟨hl2, hk2, hg2, hw2⟩ := apply_ops hD
    refine ⟨reconcile_of_loop_exit hget (loop_exit_deployment hD (by simp)), ?_, hg2, hw2⟩
    rw [opsSince_append hl1 hl2, ho1]
    intro op hop
    simp at hop
    rcases hop with rfl | hop
    · simp
    · have := hk2 op hop
      rw [this.1]
      exact ⟨this.2, by decide, by decide⟩
  · intro c2 err c3 hD hS
    obtain ⟨hl2, _, _, _⟩ := apply_ops hD
    have ho2 := ops_of_unchanged hD
    obtain ⟨hl3, hk3, hg3, hw3⟩ := apply_ops hS
    refine ⟨reconcile_of_loop_exit hget (loop_exit_service hD hS (by simp)), ?_, hg3, hw3⟩
    have hl12 : c2.log = r.Client.log ++ opsSince r.Client c2 := by
      rw [opsSince_append hl1 hl2, ← List.append_assoc, ← hl1, ← hl2]
    rw [opsSince_append hl12 hl3, opsSince_append hl1 hl2, ho1, ho2]
    intro op hop
    simp at hop
    rcases hop with rfl | rfl | hop
    · simp
    · exact ⟨by simp, by simp [ClientObject.kind]⟩
    · have := hk3 op hop
      rw [this.1]
      exact ⟨this.2, by decide⟩
  · intro c2 c3 err c4 hD hS hR
    obtain ⟨hl2, _, _, _⟩ := apply_ops hD
    have ho2 := ops_of_unchanged hD
    obtain ⟨hl3, _, _, _⟩ := apply_ops hS
    have ho3 := ops_of_unchanged hS
    obtain ⟨hl4, hk4, hg4, hw4⟩ := apply_ops hR
    have hl12 : c2.log = r.Client.log ++ opsSince r.Client c2 := by
      rw [opsSince_append hl1 hl2, ← List.append_assoc, ← hl1, ← hl2]
    have hl13 : c3.log = r.Client.log ++ opsSince r.Client c3 := by
      rw [opsSince_append hl12 hl3, ← List.append_assoc, ← hl12, ← hl3]
    have hrg : (opsSince c3 c4).countP Op.isRouteGet =
        (opsSince c3 c4).countP (fun op => decide (op.verb = Verb.get)) := by
      apply List.countP_congr
      intro op hop
      simp [Op.isRouteGet, (hk4 op hop).1, ClientObject.kind]
    refine ⟨reconcile_of_loop_exit hget (loop_exit_route hD hS hR (by simp)), ?_, ?_, hg4, hw4⟩
    · rw [opsSince_append hl13 hl4, opsSince_append hl12 hl3, opsSince_append hl1 hl2, ho1, ho2,
        ho3]
      intro op hop
      simp at hop
      rcases hop with rfl | rfl | rfl | hop
      · simp
      · simp
      · simp
      · exact (hk4 op hop).2
    · rw [opsSince_append hl13 hl4, opsSince_append hl12 hl3, opsSince_append hl1 hl2, ho1, ho2,
        ho3, List.countP_append, hrg, hg4]
      simp [Op.isRouteGet, ClientObject.kind]

/-- Witness for C16: over `demoConflict` the update of the Workload fails with
a conflict; Reconcile returns the conflict after fetch, fetch and the one
failed update. -/
theorem C16_apply_failure_aborts_witness :
    (demoConflict.Reconcile demoRequest).1 = ({}, some Err.conflict) ∧
    (opsSince demoConflict.Client (demoConflict.Reconcile demoRequest).2).map
        (fun op => (op.verb, op.kind, op.err)) =
      [(Verb.get, Kind.freshRSS, none), (Verb.get, Kind.deployment, none),
       (Verb.update, Kind.deployment, some Err.conflict)] ∧
    ∀ op ∈ opsSince demoConflict.Client (CreateOrUpdate
        (demoConflict.Client.record Verb.get Kind.freshRSS demoRequest.NamespacedName none)
        (newDeployment.deployment demoA)
        (FreshRSSReconciler.newDeployment.mutateFn demoConflict demoA)).2,
      op.verb ≠ Verb.statusUpdate ∧ op.kind ≠ Kind.service ∧ op.kind ≠ Kind.route :=
  ⟨congrArg Prod.fst ((C16_apply_failure_aborts demoConflict demoRequest demoA
      (demoConflict.Client.record Verb.get Kind.freshRSS demoRequest.NamespacedName none)
      rfl).1 Err.conflict _ rfl).1,
    rfl,
    ((C16_apply_failure_aborts demoConflict demoRequest demoA
      (demoConflict.Client.record Verb.get Kind.freshRSS demoRequest.NamespacedName none)
      rfl).1 Err.conflict _ rfl).2.1⟩

/-! ## The fetch of the route for the status -/

/-- Overwriting the object found under a key by itself changes nothing. -/
theorem replaceAt_self {α : Type} [ClientObject α] (key : ObjectKey) (o : α) (l : List α)
    (h : l.find? (fun x => decide (keyOf x = key)) = some o) : replaceAt key o l = l := by
  induction l with
  | nil => rfl
  | cons x xs ih =>
    by_cases hx : keyOf x = key
    · simp only [List.find?, hx, decide_True, Option.some.injEq] at h
      subst h
      simp [replaceAt, hx]
    · simp only [List.find?, hx, decide_False] at h
      simp [replaceAt, hx, ih h]

/-- A status update with the FreshRSS exactly as stored, meeting no fault,
succeeds and leaves the store as it was. -/
theorem statusUpdate_same {c : Client} {inst : FreshRSS}
    (hl : (c.store.lookup (keyOf inst) : Option FreshRSS) = some inst)
    (hf : c.fault c.log.length = none) :
    (c.StatusUpdate inst).1 = none ∧ (c.StatusUpdate inst).2.store = c.store := by
  unfold Client.StatusUpdate
  simp only [hf, hl, Client.record, true_and]
  have h := replaceAt_self (keyOf inst) inst c.store.FreshRSSes hl
  rw [h]

/-- C15: when the FreshRSS is fetched and all three applies reported
Unchanged, a not-found fetch of the ExternalRoute is not returned: Reconcile
goes on to the status update with the FreshRSS exactly as it was fetched
(`status.url` included) and returns what that update returns, and when the
update meets no fault Reconcile returns success and the store, the stored
`status.url` included, is as it was before the invocation. When the fetch
fails with any other error, Reconcile returns exactly that error, the store is
as it was, and no status update is among the operations. -/
theorem C15_route_fetch_for_status (r : FreshRSSReconciler) (req : Request) (inst : FreshRSS)
    (c1 c2 c3 c4 : Client)
    (hget : (r.Client.Get req.NamespacedName : Except Err FreshRSS × Client) =
      (Except.ok inst, c1))
    (hD : CreateOrUpdate c1 (newDeployment.deployment inst)
      (FreshRSSReconciler.newDeployment.mutateFn r inst) = (Except.ok OperationResult.None, c2))
    (hS : CreateOrUpdate c2 (newService.service inst)
      (FreshRSSReconciler.newService.mutateFn r inst) = (Except.ok OperationResult.None, c3))
    (hR : CreateOrUpdate c3 (newRoute.route inst)
      (FreshRSSReconciler.newRoute.mutateFn r inst) = (Except.ok OperationResult.None, c4)) :
    (∀ c5, (c4.Get req.NamespacedName : Except Err Route × Client) =
        (Except.error Err.notFound, c5) →
      r.Reconcile req = (({}, (c5.StatusUpdate inst).1), (c5.StatusUpdate inst).2) ∧
      (c5.fault c5.log.length = none →
        (r.Reconcile req).1 = ({}, none) ∧ (r.Reconcile req).2.store = r.Client.store)) ∧
    (∀ err c5, (c4.Get req.NamespacedName : Except Err Route × Client) =
        (Except.error err, c5) → err ≠ Err.notFound →
      r.Reconcile req = (({}, some err), c5) ∧
      c5.store = r.Client.store ∧
      ∀ op ∈ opsSince r.Client c5, op.verb ≠ Verb.statusUpdate) := by
  obtain ⟨_, hF, h1⟩ := get_ok_inv hget
  have hkey : keyOf inst = req.NamespacedName := keyOf_of_lookup hF
  obtain ⟨_, _, _, _, h2⟩ := (createOrUpdate_none_iff _ _ _ _).mp hD
  obtain ⟨_, _, _, _, h3⟩ := (createOrUpdate_none_iff _ _ _ _).mp hS
  obtain ⟨_, _, _, _, h4⟩ := (createOrUpdate_none_iff _ _ _ _).mp hR
  have hs4 : c4.store = r.Client.store := by rw [h4, h3, h2, h1]; rfl
  have hloop := loop_through hD hS hR
  obtain ⟨hl1, ho1⟩ := ops_of_fetch hget
  obtain ⟨hl2, _, _, _⟩ := apply_ops hD
  obtain ⟨hl3, _, _, _⟩ := apply_ops hS
  obtain ⟨hl4, _, _, _⟩ := apply_ops hR
  have hl12 : c2.log = r.Client.log ++ opsSince r.Client c2 := by
    rw [opsSince_append hl1 hl2, ← List.append_assoc, ← hl1, ← hl2]
  have hl13 : c3.log = r.Client.log ++ opsSince r.Client c3 := by
    rw [opsSince_append hl12 hl3, ← List.append_assoc, ← hl12, ← hl3]
  have hl14 : c4.log = r.Client.log ++ opsSince r.Client c4 := by
    rw [opsSince_append hl13 hl4, ← List.append_assoc, ← hl13, ← hl4]
  have ho4 : opsSince r.Client c4 =
      [{ verb := Verb.get, kind := Kind.freshRSS, key := req.NamespacedName, err := none },
       { verb := Verb.get, kind := Kind.deployment,
         key := keyOf (newDeployment.deployment inst), err := none },
       { verb := Verb.get, kind := Kind.service,
         key := keyOf (newService.service inst), err := none },
       { verb := Verb.get, kind := Kind.route,
         key := keyOf (newRoute.route inst), err := none }] := by
    rw [opsSince_append hl13 hl4, opsSince_append hl12 hl3, opsSince_append hl1 hl2, ho1,
      ops_of_unchanged hD, ops_of_unchanged hS, ops_of_unchanged hR]
    rfl
  refine ⟨?_, ?_⟩
  · intro c5 hg
    have h5 := get_error_inv hg
    have hs5 : c5.store = r.Client.store := by rw [h5]; exact hs4
    have hrec : r.Reconcile req =
        (({}, (c5.StatusUpdate inst).1), (c5.StatusUpdate inst).2) := by
      unfold FreshRSSReconciler.Reconcile
      simp only [hget, hloop, hg]
      rfl
    refine ⟨hrec, ?_⟩
    intro hf
    obtain ⟨a, b⟩ := @statusUpdate_same c5 inst (by rw [hs5, hkey]; exact hF) hf
    rw [hrec]
    exact ⟨by simp only [a], by rw [b, hs5]⟩
  · intro err c5 hg hne
    have h5 := get_error_inv hg
    have hs5 : c5.store = r.Client.store := by rw [h5]; exact hs4
    refine ⟨?_, hs5, ?_⟩
    · unfold FreshRSSReconciler.Reconcile
      simp only [hget, hloop, hg]
      simp [IsNotFound, hne]
    · have hl5 : c5.log = c4.log ++
          [{ verb := Verb.get, kind := Kind.route, key := req.NamespacedName,
             err := some err }] := by
        rw [h5]; rfl
      have ho5 : opsSince r.Client c5 = opsSince r.Client c4 ++
          [{ verb := Verb.get, kind := Kind.route, key := req.NamespacedName,
             err := some err }] :=
        opsSince_of_log (by rw [hl5, hl14, List.append_assoc])
      rw [ho5, ho4]
      intro op hop
      simp at hop
      rcases hop with rfl | rfl | rfl | rfl | rfl <;> simp

/-- Witness for C15: over `demoRouteGone` the route fetch for the status
reports not-found; Reconcile returns success and the stored URL is still the
one `demoStale` held. Over `demoRouteForbidden` that fetch is forbidden;
Reconcile returns the error and makes no status update. -/
theorem C15_route_fetch_for_status_witness :
    ((demoRouteGone.Reconcile demoRequest).1 = ({}, none) ∧
      (demoRouteGone.Reconcile demoRequest).2.store = demoRouteGone.Client.store) ∧
    (demoRouteGone.Reconcile demoRequest).2.store.FreshRSSes.map (fun i => i.Status.URL) =
      ["http://old.example.com"] ∧
    (demoRouteForbidden.Reconcile demoRequest).1 = ({}, some Err.forbidden) ∧
    (opsSince demoRouteForbidden.Client (demoRouteForbidden.Reconcile demoRequest).2).map
        (fun op => (op.verb, op.kind, op.err)) =
      [(Verb.get, Kind.freshRSS, none), (Verb.get, Kind.deployment, none),
       (Verb.get, Kind.service, none), (Verb.get, Kind.route, none),
       (Verb.get, Kind.route, some Err.forbidden)] :=
  ⟨((C15_route_fetch_for_status demoRouteGone demoRequest demoStale
      (demoRouteGone.Client.record Verb.get Kind.freshRSS demoRequest.NamespacedName none)
      ((demoRouteGone.Client.record Verb.get Kind.freshRSS demoRequest.NamespacedName none).record
        Verb.get Kind.deployment demoRequest.NamespacedName none)
      (((demoRouteGone.Client.record Verb.get Kind.freshRSS demoRequest.NamespacedName none).record
        Verb.get Kind.deployment demoRequest.NamespacedName none).record
        Verb.get Kind.service demoRequest.NamespacedName none)
      ((((demoRouteGone.Client.record Verb.get Kind.freshRSS demoRequest.NamespacedName
        none).record Verb.get Kind.deployment demoRequest.NamespacedName none).record
        Verb.get Kind.service demoRequest.NamespacedName none).record
        Verb.get Kind.route demoRequest.NamespacedName none)
      rfl rfl rfl rfl).1 _ rfl).2 rfl,
    rfl,
    congrArg Prod.fst ((C15_route_fetch_for_status demoRouteForbidden demoRequest demoStale
      (demoRouteForbidden.Client.record Verb.get Kind.freshRSS demoRequest.NamespacedName none)
      ((demoRouteForbidden.Client.record Verb.get Kind.freshRSS demoRequest.NamespacedName
        none).record Verb.get Kind.deployment demoRequest.NamespacedName none)
      (((demoRouteForbidden.Client.record Verb.get Kind.freshRSS demoRequest.NamespacedName
        none).record Verb.get Kind.deployment demoRequest.NamespacedName none).record
        Verb.get Kind.service demoRequest.NamespacedName none)
      ((((demoRouteForbidden.Client.record Verb.get Kind.freshRSS demoRequest.NamespacedName
        none).record Verb.get Kind.deployment demoRequest.NamespacedName none).record
        Verb.get Kind.service demoRequest.NamespacedName none).record
        Verb.get Kind.route demoRequest.NamespacedName none)
      rfl rfl rfl rfl).2 Err.forbidden _ rfl (by decide)).1,
    rfl⟩

/-! ## The merge on the object in memory -/

/-- The owner attachment of the apply engine is the attachment in memory with
the metadata dropped on error, and a failed attachment leaves the metadata as
it was. -/
theorem SetControllerReference_inPlace (owner controlled : ObjectMeta) (scheme : Scheme) :
    SetControllerReference owner controlled scheme =
      (match SetControllerReference.inPlace owner controlled scheme with
       | (m, none) => Except.ok m
       | (_, some err) => Except.error err) ∧
    (∀ err, (SetControllerReference.inPlace owner controlled scheme).2 = some err →
      (SetControllerReference.inPlace owner controlled scheme).1 = controlled) := by
  unfold SetControllerReference SetControllerReference.inPlace
  cases hv : validateOwner owner controlled with
  | some e => exact ⟨rfl, fun _ _ => rfl⟩
  | none =>
    cases hg : scheme.FreshRSS with
    | none => exact ⟨rfl, fun _ _ => rfl⟩
    | some gvk =>
      cases hc : GetControllerOf controlled with
      | none => exact ⟨rfl, fun err h => by simp at h⟩
      | some e =>
        cases hs : referSameObject e (controllerRef owner gvk) with
        | false => exact ⟨by simp [hs], fun err h => by simp [hs]⟩
        | true => exact ⟨by simp [hs], fun err h => by simp [hs] at h⟩

/-- A failed owner attachment, seen in memory: the error, and the metadata as
it was. -/
theorem SetControllerReference_inPlace_error {owner controlled : ObjectMeta} {scheme : Scheme}
    {err : Err} (h : SetControllerReference owner controlled scheme = Except.error err) :
    SetControllerReference.inPlace owner controlled scheme = (controlled, some err) := by
  obtain ⟨h1, h2⟩ := SetControllerReference_inPlace owner controlled scheme
  rw [h1] at h
  cases hp : SetControllerReference.inPlace owner controlled scheme with
  | mk m e =>
    rw [hp] at h h2
    cases e with
    | none => cases h
    | some e' =>
      simp only [Except.error.injEq] at h
      have := h2 e' rfl
      simp only at this
      rw [this, h]

/-- The merge functions the apply engine runs are the merges in memory with
the object dropped on error. -/
theorem mutateFn_ofInPlace (r : FreshRSSReconciler) (inst : FreshRSS) :
    FreshRSSReconciler.newDeployment.mutateFn r inst =
      MutateFn.ofInPlace (FreshRSSReconciler.newDeployment.mutateFn.inPlace r inst) ∧
    FreshRSSReconciler.newService.mutateFn r inst =
      MutateFn.ofInPlace (FreshRSSReconciler.newService.mutateFn.inPlace r inst) ∧
    FreshRSSReconciler.newRoute.mutateFn r inst =
      MutateFn.ofInPlace (FreshRSSReconciler.newRoute.mutateFn.inPlace r inst) := by
  refine ⟨?_, ?_, ?_⟩
  · funext d
    unfold FreshRSSReconciler.newDeployment.mutateFn MutateFn.ofInPlace
      FreshRSSReconciler.newDeployment.mutateFn.inPlace
    rw [(SetControllerReference_inPlace inst.ObjectMeta d.ObjectMeta r.Scheme).1]
    cases hp : SetControllerReference.inPlace inst.ObjectMeta d.ObjectMeta r.Scheme with
    | mk m e =>
      cases e with
      | some e' => rfl
      | none =>
        simp only
        by_cases hl : d.Spec.Template.Spec.Containers.length = 1
        · obtain ⟨c, hc⟩ := List.length_eq_one.mp hl
          simp [hc]
        · simp [hl]
  · funext s
    unfold FreshRSSReconciler.newService.mutateFn MutateFn.ofInPlace
      FreshRSSReconciler.newService.mutateFn.inPlace
    rw [(SetControllerReference_inPlace inst.ObjectMeta s.ObjectMeta r.Scheme).1]
    cases hp : SetControllerReference.inPlace inst.ObjectMeta s.ObjectMeta r.Scheme with
    | mk m e =>
      cases e with
      | some e' => rfl
      | none => rfl
  · funext rt
    unfold FreshRSSReconciler.newRoute.mutateFn MutateFn.ofInPlace
      FreshRSSReconciler.newRoute.mutateFn.inPlace
    rw [(SetControllerReference_inPlace inst.ObjectMeta rt.ObjectMeta r.Scheme).1]
    cases hp : SetControllerReference.inPlace inst.ObjectMeta rt.ObjectMeta r.Scheme with
    | mk m e =>
      cases e with
      | some e' => rfl
      | none => rfl

/-- When the owner attachment fails, each merge in memory returns the object
exactly as it was, with that error. -/
theorem inPlace_owner_failure (r : FreshRSSReconciler) (inst : FreshRSS) :
    (∀ (d : Deployment) (err : Err),
      SetControllerReference inst.ObjectMeta d.ObjectMeta r.Scheme = Except.error err →
      FreshRSSReconciler.newDeployment.mutateFn.inPlace r inst d = (d, some err)) ∧
    (∀ (s : Service) (err : Err),
      SetControllerReference inst.ObjectMeta s.ObjectMeta r.Scheme = Except.error err →
      FreshRSSReconciler.newService.mutateFn.inPlace r inst s = (s, some err)) ∧
    (∀ (rt : Route) (err : Err),
      SetControllerReference inst.ObjectMeta rt.ObjectMeta r.Scheme = Except.error err →
      FreshRSSReconciler.newRoute.mutateFn.inPlace r inst rt = (rt, some err)) := by
  refine ⟨?_, ?_, ?_⟩
  · intro d err h
    unfold FreshRSSReconciler.newDeployment.mutateFn.inPlace
    rw [SetControllerReference_inPlace_error h]
  · intro s err h
    unfold FreshRSSReconciler.newService.mutateFn.inPlace
    rw [SetControllerReference_inPlace_error h]
  · intro rt err h
    unfold FreshRSSReconciler.newRoute.mutateFn.inPlace
    rw [SetControllerReference_inPlace_error h]

/-! ## A failing owner attachment -/

/-- An apply whose merge fails on the object it runs on (the fetched object,
or the skeleton after a not-found fetch) returns that error right after the
fetch. -/
theorem createOrUpdate_merge_fails {α : Type} [ClientObject α] [DecidableEq α] {c c1 : Client}
    {obj target : α} {f : MutateFn α} {got : Except Err α} {err : Err}
    (hg : (c.Get (keyOf obj) : Except Err α × Client) = (got, c1))
    (ht : got = Except.ok target ∨ (got = Except.error Err.notFound ∧ target = obj))
    (hf : f target = Except.error err) :
    CreateOrUpdate c obj f = (Except.error err, c1) ∧ c1.store = c.store ∧
      (opsSince c c1).countP Op.isWrite = 0 := by
  obtain ⟨e, he⟩ := @get_frame α _ c (keyOf obj)
  rw [hg] at he
  simp only at he
  have hs : c1.store = c.store := by rw [he]; rfl
  have ho : opsSince c c1 =
      [{ verb := Verb.get, kind := ClientObject.kind α, key := keyOf obj, err := e }] :=
    opsSince_of_log (by rw [he]; rfl)
  refine ⟨?_, hs, by rw [ho]; simp [Op.isWrite]⟩
  unfold CreateOrUpdate
  rcases ht with rfl | ⟨rfl, rfl⟩
  · simp only [hg, mutate, hf]
  · simp only [hg, mutate, hf, IsNotFound]
    rfl

/-- C11: for each of the three kinds, when attaching the owner reference to
the object the merge runs on fails, the merge function returns that error; the
apply returns the error right after its fetch, with no create and no update,
and leaves the store as it was; and Reconcile, having reached that kind,
returns the error with the store as it was before the invocation. On the
object in memory, the merge function then returns the object exactly as it
was, every field included, together with that error; and the merge function
the apply engine runs is that in-memory merge with the object dropped on
error. -/
theorem C11_owner_failure_atomic (r : FreshRSSReconciler) (inst : FreshRSS) :
    ((∀ (d : Deployment) (err : Err),
        SetControllerReference inst.ObjectMeta d.ObjectMeta r.Scheme = Except.error err →
        FreshRSSReconciler.newDeployment.mutateFn r inst d = Except.error err) ∧
      (∀ (s : Service) (err : Err),
        SetControllerReference inst.ObjectMeta s.ObjectMeta r.Scheme = Except.error err →
        FreshRSSReconciler.newService.mutateFn r inst s = Except.error err) ∧
      (∀ (rt : Route) (err : Err),
        SetControllerReference inst.ObjectMeta rt.ObjectMeta r.Scheme = Except.error err →
        FreshRSSReconciler.newRoute.mutateFn r inst rt = Except.error err)) ∧
    (∀ (req : Request) (c1 c2 : Client) (got : Except Err Deployment) (target : Deployment)
        (err : Err),
      (r.Client.Get req.NamespacedName : Except Err FreshRSS × Client) = (Except.ok inst, c1) →
      (c1.Get (keyOf (newDeployment.deployment inst)) : Except Err Deployment × Client) =
        (got, c2) →
      (got = Except.ok target ∨
        (got = Except.error Err.notFound ∧ target = newDeployment.deployment inst)) →
      SetControllerReference inst.ObjectMeta target.ObjectMeta r.Scheme = Except.error err →
      CreateOrUpdate c1 (newDeployment.deployment inst)
        (FreshRSSReconciler.newDeployment.mutateFn r inst) = (Except.error err, c2) ∧
      (opsSince c1 c2).countP Op.isWrite = 0 ∧
      r.Reconcile req = (({}, some err), c2) ∧ c2.store = r.Client.store) ∧
    (∀ (req : Request) (c1 c2 c3 : Client) (got : Except Err Service) (target : Service)
        (err : Err),
      (r.Client.Get req.NamespacedName : Except Err FreshRSS × Client) = (Except.ok inst, c1) →
      CreateOrUpdate c1 (newDeployment.deployment inst)
        (FreshRSSReconciler.newDeployment.mutateFn r inst) =
        (Except.ok OperationResult.None, c2) →
      (c2.Get (keyOf (newService.service inst)) : Except Err Service × Client) = (got, c3) →
      (got = Except.ok target ∨
        (got = Except.error Err.notFound ∧ target = newService.service inst)) →
      SetControllerReference inst.ObjectMeta target.ObjectMeta r.Scheme = Except.error err →
      CreateOrUpdate c2 (newService.service inst)
        (FreshRSSReconciler.newService.mutateFn r inst) = (Except.error err, c3) ∧
      (opsSince c2 c3).countP Op.isWrite = 0 ∧
      r.Reconcile req = (({}, some err), c3) ∧ c3.store = r.Client.store) ∧
    (∀ (req : Request) (c1 c2 c3 c4 : Client) (got : Except Err Route) (target : Route)
        (err : Err),
      (r.Client.Get req.NamespacedName : Except Err FreshRSS × Client) = (Except.ok inst, c1) →
      CreateOrUpdate c1 (newDeployment.deployment inst)
        (FreshRSSReconciler.newDeployment.mutateFn r inst) =
        (Except.ok OperationResult.None, c2) →
      CreateOrUpdate c2 (newService.service inst)
        (FreshRSSReconciler.newService.mutateFn r inst) =
        (Except.ok OperationResult.None, c3) →
      (c3.Get (keyOf (newRoute.route inst)) : Except Err Route × Client) = (got, c4) →
      (got = Except.ok target ∨
        (got = Except.error Err.notFound ∧ target = newRoute.route inst)) →
      SetControllerReference inst.ObjectMeta target.ObjectMeta r.Scheme = Except.error err →
      CreateOrUpdate c3 (newRoute.route inst)
        (FreshRSSReconciler.newRoute.mutateFn r inst) = (Except.error err, c4) ∧
      (opsSince c3 c4).countP Op.isWrite = 0 ∧
      r.Reconcile req = (({}, some err), c4) ∧ c4.store = r.Client.store) ∧
    ((∀ (d : Deployment) (err : Err),
        SetControllerReference inst.ObjectMeta d.ObjectMeta r.Scheme = Except.error err →
        FreshRSSReconciler.newDeployment.mutateFn.inPlace r inst d = (d, some err)) ∧
      (∀ (s : Service) (err : Err),
        SetControllerReference inst.ObjectMeta s.ObjectMeta r.Scheme = Except.error err →
        FreshRSSReconciler.newService.mutateFn.inPlace r inst s = (s, some err)) ∧
      (∀ (rt : Route) (err : Err),
        SetControllerReference inst.ObjectMeta rt.ObjectMeta r.Scheme = Except.error err →
        FreshRSSReconciler.newRoute.mutateFn.inPlace r inst rt = (rt, some err))) ∧
    (FreshRSSReconciler.newDeployment.mutateFn r inst =
        MutateFn.ofInPlace (FreshRSSReconciler.newDeployment.mutateFn.inPlace r inst) ∧
      FreshRSSReconciler.newService.mutateFn r inst =
        MutateFn.ofInPlace (FreshRSSReconciler.newService.mutateFn.inPlace r inst) ∧
      FreshRSSReconciler.newRoute.mutateFn r inst =
        MutateFn.ofInPlace (FreshRSSReconciler.newRoute.mutateFn.inPlace r inst)) := by
  have mD : ∀ (d : Deployment) (err : Err),
      SetControllerReference inst.ObjectMeta d.ObjectMeta r.Scheme = Except.error err →
      FreshRSSReconciler.newDeployment.mutateFn r inst d = Except.error err := by
    intro d err h
    unfold FreshRSSReconciler.newDeployment.mutateFn
    simp only [h]
  have mS : ∀ (s : Service) (err : Err),
      SetControllerReference inst.ObjectMeta s.ObjectMeta r.Scheme = Except.error err →
      FreshRSSReconciler.newService.mutateFn r inst s = Except.error err := by
    intro s err h
    unfold FreshRSSReconciler.newService.mutateFn
    simp only [h]
  have mR : ∀ (rt : Route) (err : Err),
      SetControllerReference inst.ObjectMeta rt.ObjectMeta r.Scheme = Except.error err →
      FreshRSSReconciler.newRoute.mutateFn r inst rt = Except.error err := by
    intro rt err h
    unfold FreshRSSReconciler.newRoute.mutateFn
    simp only [h]
  refine ⟨⟨mD, mS, mR⟩, ?_, ?_, ?_, inPlace_owner_failure r inst, mutateFn_ofInPlace r inst⟩
  · intro req c1 c2 got target err hget hg ht hown
    obtain ⟨_, _, h1⟩ := get_ok_inv hget
    obtain ⟨ha, hs, hw⟩ := createOrUpdate_merge_fails hg ht (mD target err hown)
    exact ⟨ha, hw, reconcile_of_loop_exit hget (loop_exit_deployment ha (by simp)),
      by rw [hs, h1]; rfl⟩
  · intro req c1 c2 c3 got target err hget hD hg ht hown
    obtain ⟨_, _, h1⟩ := get_ok_inv hget
    obtain ⟨_, _, _, _, h2⟩ := (createOrUpdate_none_iff _ _ _ _).mp hD
    obtain ⟨ha, hs, hw⟩ := createOrUpdate_merge_fails hg ht (mS target err hown)
    exact ⟨ha, hw, reconcile_of_loop_exit hget (loop_exit_service hD ha (by simp)),
      by rw [hs, h2, h1]; rfl⟩
  · intro req c1 c2 c3 c4 got target err hget hD hS hg ht hown
    obtain ⟨_, _, h1⟩ := get_ok_inv hget
    obtain ⟨_, _, _, _, h2⟩ := (createOrUpdate_none_iff _ _ _ _).mp hD
    obtain ⟨_, _, _, _, h3⟩ := (createOrUpdate_none_iff _ _ _ _).mp hS
    obtain ⟨ha, hs, hw⟩ := createOrUpdate_merge_fails hg ht (mR target err hown)
    exact ⟨ha, hw, reconcile_of_loop_exit hget (loop_exit_route hD hS ha (by simp)),
      by rw [hs, h3, h2, h1]; rfl⟩

/-- Witness for C11: the store of `demoForeignStore` holds a Deployment that
another controller owns; attaching the owner fails with already-owned, the
merge returns that error and, in memory, the Deployment as it was with its
five replicas and no container; Reconcile returns the error after its two
fetches with the store as it was. -/
theorem C11_owner_failure_atomic_witness :
    SetControllerReference demoA.ObjectMeta demoForeign.ObjectMeta demoForeignStore.Scheme =
      Except.error Err.alreadyOwned ∧
    FreshRSSReconciler.newDeployment.mutateFn demoForeignStore demoA demoForeign =
      Except.error Err.alreadyOwned ∧
    FreshRSSReconciler.newDeployment.mutateFn.inPlace demoForeignStore demoA demoForeign =
      (demoForeign, some Err.alreadyOwned) ∧
    demoForeign.Spec.Replicas = some 5 ∧
    (demoForeignStore.Reconcile demoRequest).1 = ({}, some Err.alreadyOwned) ∧
    (demoForeignStore.Reconcile demoRequest).2.store = demoForeignStore.Client.store ∧
    (opsSince demoForeignStore.Client (demoForeignStore.Reconcile demoRequest).2).map
        (fun op => (op.verb, op.kind, op.err)) =
      [(Verb.get, Kind.freshRSS, none), (Verb.get, Kind.deployment, none)] :=
  ⟨rfl,
    (C11_owner_failure_atomic demoForeignStore demoA).1.1 demoForeign Err.alreadyOwned rfl,
    (C11_owner_failure_atomic demoForeignStore demoA).2.2.2.2.1.1 demoForeign Err.alreadyOwned
      rfl,
    rfl,
    congrArg Prod.fst ((C11_owner_failure_atomic demoForeignStore demoA).2.1 demoRequest
      (demoForeignStore.Client.record Verb.get Kind.freshRSS demoRequest.NamespacedName none)
      ((demoForeignStore.Client.record Verb.get Kind.freshRSS demoRequest.NamespacedName
        none).record Verb.get Kind.deployment demoRequest.NamespacedName none)
      (Except.ok demoForeign) demoForeign Err.alreadyOwned rfl rfl (Or.inl rfl) rfl).2.2.1,
    rfl, rfl⟩

/-! ## Convergence over successive passes -/

/-- After an object is appended under a key that was absent, the key leads to
it. -/
theorem lookup_append_new {α : Type} [ClientObject α] [LawfulClientObject α] (s : Store)
    (o : α) (key : ObjectKey) (hnone : (s.lookup key : Option α) = none)
    (hk : keyOf o = key) :
    ((ClientObject.setList s (ClientObject.list s ++ [o])).lookup key : Option α) = some o := by
  unfold Store.lookup at hnone ⊢
  simp only [LawfulClientObject.list_setList, List.find?_append, hnone]
  simp [hk]

/-- The merged skeleton of each kind has the key of the desired resource. -/
theorem merged_skeleton_keys {r : FreshRSSReconciler} {inst : FreshRSS} :
    (∀ d, FreshRSSReconciler.newDeployment.mutateFn r inst (newDeployment.deployment inst) =
        Except.ok d → keyOf d = keyOf inst) ∧
    (∀ s, FreshRSSReconciler.newService.mutateFn r inst (newService.service inst) =
        Except.ok s → keyOf s = keyOf inst) ∧
    (∀ rt, FreshRSSReconciler.newRoute.mutateFn r inst (newRoute.route inst) =
        Except.ok rt → keyOf rt = keyOf inst) := by
  refine ⟨?_, ?_, ?_⟩
  · intro d h
    obtain ⟨m, hm, hd⟩ := newDeployment_mutateFn_ok h
    have := SetControllerReference_key hm
    rw [hd]
    exact this
  · intro s h
    obtain ⟨m, hm, hd⟩ := newService_mutateFn_ok h
    have := SetControllerReference_key hm
    rw [hd]
    exact this
  · intro rt h
    obtain ⟨m, hm, hd⟩ := newRoute_mutateFn_ok h
    have := SetControllerReference_key hm
    rw [hd]
    exact this

/-- Owner attachment on a skeleton makes all three merges succeed on their
skeletons. -/
theorem merges_of_owner {r : FreshRSSReconciler} {inst : FreshRSS} {m : ObjectMeta}
    (hown : SetControllerReference inst.ObjectMeta (newDeployment.deployment inst).ObjectMeta
      r.Scheme = Except.ok m) :
    ∃ d s rt,
      FreshRSSReconciler.newDeployment.mutateFn r inst (newDeployment.deployment inst) =
        Except.ok d ∧
      FreshRSSReconciler.newService.mutateFn r inst (newService.service inst) = Except.ok s ∧
      FreshRSSReconciler.newRoute.mutateFn r inst (newRoute.route inst) = Except.ok rt := by
  obtain ⟨d, hd⟩ := newDeployment_mutateFn_of_owner hown
  have hownS : SetControllerReference inst.ObjectMeta (newService.service inst).ObjectMeta
      r.Scheme = Except.ok m := hown
  have hownR : SetControllerReference inst.ObjectMeta (newRoute.route inst).ObjectMeta
      r.Scheme = Except.ok m := hown
  have hs : ∃ s, FreshRSSReconciler.newService.mutateFn r inst (newService.service inst) =
      Except.ok s := by
    cases h : FreshRSSReconciler.newService.mutateFn r inst (newService.service inst) with
    | ok s => exact ⟨s, rfl⟩
    | error e =>
      unfold FreshRSSReconciler.newService.mutateFn at h
      simp only [hownS] at h
      cases h
  have hr : ∃ rt, FreshRSSReconciler.newRoute.mutateFn r inst (newRoute.route inst) =
      Except.ok rt := by
    cases h : FreshRSSReconciler.newRoute.mutateFn r inst (newRoute.route inst) with
    | ok rt => exact ⟨rt, rfl⟩
    | error e =>
      unfold FreshRSSReconciler.newRoute.mutateFn at h
      simp only [hownR] at h
      cases h
  obtain ⟨s, hs⟩ := hs
  obtain ⟨rt, hr⟩ := hr
  exact ⟨d, s, rt, hd, hs, hr⟩

/-- A pass over a store without the Workload creates it and stops. -/
theorem pass_creates_deployment {r : FreshRSSReconciler} {req : Request} {inst : FreshRSS}
    {d : Deployment}
    (hF : (r.Client.store.lookup req.NamespacedName : Option FreshRSS) = some inst)
    (hD : (r.Client.store.lookup req.NamespacedName : Option Deployment) = none)
    (hd : FreshRSSReconciler.newDeployment.mutateFn r inst (newDeployment.deployment inst) =
      Except.ok d)
    (hq : ∀ n, r.Client.fault n = none) :
    r.Reconcile req = (({}, none),
      { store := { r.Client.store with Deployments := r.Client.store.Deployments ++ [d] }
        fault := r.Client.fault
        log := r.Client.log ++
          [{ verb := Verb.get, kind := Kind.freshRSS, key := req.NamespacedName, err := none },
           { verb := Verb.get, kind := Kind.deployment, key := req.NamespacedName,
             err := some Err.notFound },
           { verb := Verb.create, kind := Kind.deployment, key := req.NamespacedName,
             err := none }] }) := by
  have hkey : keyOf inst = req.NamespacedName := keyOf_of_lookup hF
  have hskel : keyOf (newDeployment.deployment inst) = req.NamespacedName := by
    rw [← hkey]; rfl
  have hmut : mutate (FreshRSSReconciler.newDeployment.mutateFn r inst)
      (keyOf (newDeployment.deployment inst)) (newDeployment.deployment inst) = Except.ok d :=
    (mutate_ok_iff _ _ _ _).mpr ⟨hd, merged_skeleton_keys.1 d hd⟩
  have hget : (r.Client.Get req.NamespacedName : Except Err FreshRSS × Client) =
      (Except.ok inst, r.Client.record Verb.get Kind.freshRSS req.NamespacedName none) :=
    get_of_lookup_some (hq _) hF
  have hcou := @createOrUpdate_created Deployment _ _
    (r.Client.record Verb.get Kind.freshRSS req.NamespacedName none)
    (newDeployment.deployment inst) d
    (FreshRSSReconciler.newDeployment.mutateFn r inst)
    (hq _) (by rw [hskel]; exact hD) hmut (hq _)
  rw [reconcile_of_loop_exit hget (loop_exit_deployment hcou (by simp))]
  simp only [Client.record, hskel, List.append_assoc, List.singleton_append]
  rfl

/-- A pass over a store with a merged Workload and without the
NetworkEndpoint creates the NetworkEndpoint and stops. -/
theorem pass_creates_service {r : FreshRSSReconciler} {req : Request} {inst : FreshRSS}
    {d : Deployment} {s : Service}
    (hF : (r.Client.store.lookup req.NamespacedName : Option FreshRSS) = some inst)
    (hD : (r.Client.store.lookup req.NamespacedName : Option Deployment) = some d)
    (hDfix : FreshRSSReconciler.newDeployment.mutateFn r inst d = Except.ok d)
    (hS : (r.Client.store.lookup req.NamespacedName : Option Service) = none)
    (hs : FreshRSSReconciler.newService.mutateFn r inst (newService.service inst) =
      Except.ok s)
    (hq : ∀ n, r.Client.fault n = none) :
    r.Reconcile req = (({}, none),
      { store := { r.Client.store with Services := r.Client.store.Services ++ [s] }
        fault := r.Client.fault
        log := r.Client.log ++
          [{ verb := Verb.get, kind := Kind.freshRSS, key := req.NamespacedName, err := none },
           { verb := Verb.get, kind := Kind.deployment, key := req.NamespacedName, err := none },
           { verb := Verb.get, kind := Kind.service, key := req.NamespacedName,
             err := some Err.notFound },
           { verb := Verb.create, kind := Kind.service, key := req.NamespacedName,
             err := none }] }) := by
  have hkey : keyOf inst = req.NamespacedName := keyOf_of_lookup hF
  have hkD : keyOf (newDeployment.deployment inst) = req.NamespacedName := by rw [← hkey]; rfl
  have hkS : keyOf (newService.service inst) = req.NamespacedName := by rw [← hkey]; rfl
  have hget : (r.Client.Get req.NamespacedName : Except Err FreshRSS × Client) =
      (Except.ok inst, r.Client.record Verb.get Kind.freshRSS req.NamespacedName none) :=
    get_of_lookup_some (hq _) hF
  have hcD : CreateOrUpdate (r.Client.record Verb.get Kind.freshRSS req.NamespacedName none)
      (newDeployment.deployment inst) (FreshRSSReconciler.newDeployment.mutateFn r inst) =
      (Except.ok OperationResult.None,
        (r.Client.record Verb.get Kind.freshRSS req.NamespacedName none).record Verb.get
          Kind.deployment req.NamespacedName none) :=
    (createOrUpdate_none_iff _ _ _ _).mpr
      ⟨d, hq _, by rw [hkD]; exact hD,
        (mutate_ok_iff _ _ _ _).mpr ⟨hDfix, by rw [hkD]; exact keyOf_of_lookup hD⟩,
        by rw [hkD]; rfl⟩
  have hmut : mutate (FreshRSSReconciler.newService.mutateFn r inst)
      (keyOf (newService.service inst)) (newService.service inst) = Except.ok s :=
    (mutate_ok_iff _ _ _ _).mpr ⟨hs, merged_skeleton_keys.2.1 s hs⟩
  have hcS := @createOrUpdate_created Service _ _
    ((r.Client.record Verb.get Kind.freshRSS req.NamespacedName none).record Verb.get
      Kind.deployment req.NamespacedName none)
    (newService.service inst) s
    (FreshRSSReconciler.newService.mutateFn r inst)
    (hq _) (by rw [hkS]; exact hS) hmut (hq _)
  rw [reconcile_of_loop_exit hget (loop_exit_service hcD hcS (by simp))]
  simp only [Client.record, hkS, List.append_assoc, List.singleton_append]
  rfl

/-- A pass over a store with a merged Workload and NetworkEndpoint and without
the ExternalRoute creates the ExternalRoute and stops. -/
theorem pass_creates_route {r : FreshRSSReconciler} {req : Request} {inst : FreshRSS}
    {d : Deployment} {s : Service} {rt : Route}
    (hF : (r.Client.store.lookup req.NamespacedName : Option FreshRSS) = some inst)
    (hD : (r.Client.store.lookup req.NamespacedName : Option Deployment) = some d)
    (hDfix : FreshRSSReconciler.newDeployment.mutateFn r inst d = Except.ok d)
    (hS : (r.Client.store.lookup req.NamespacedName : Option Service) = some s)
    (hSfix : FreshRSSReconciler.newService.mutateFn r inst s = Except.ok s)
    (hR : (r.Client.store.lookup req.NamespacedName : Option Route) = none)
    (hrt : FreshRSSReconciler.newRoute.mutateFn r inst (newRoute.route inst) = Except.ok rt)
    (hq : ∀ n, r.Client.fault n = none) :
    r.Reconcile req = (({}, none),
      { store := { r.Client.store with Routes := r.Client.store.Routes ++ [rt] }
        fault := r.Client.fault
        log := r.Client.log ++
          [{ verb := Verb.get, kind := Kind.freshRSS, key := req.NamespacedName, err := none },
           { verb := Verb.get, kind := Kind.deployment, key := req.NamespacedName, err := none },
           { verb := Verb.get, kind := Kind.service, key := req.NamespacedName, err := none },
           { verb := Verb.get, kind := Kind.route, key := req.NamespacedName,
             err := some Err.notFound },
           { verb := Verb.create, kind := Kind.route, key := req.NamespacedName,
             err := none }] }) := by
  have hkey : keyOf inst = req.NamespacedName := keyOf_of_lookup hF
  have hkD : keyOf (newDeployment.deployment inst) = req.NamespacedName := by rw [← hkey]; rfl
  have hkS : keyOf (newService.service inst) = req.NamespacedName := by rw [← hkey]; rfl
  have hkR : keyOf (newRoute.route inst) = req.NamespacedName := by rw [← hkey]; rfl
  have hget : (r.Client.Get req.NamespacedName : Except Err FreshRSS × Client) =
      (Except.ok inst, r.Client.record Verb.get Kind.freshRSS req.NamespacedName none) :=
    get_of_lookup_some (hq _) hF
  have hcD : CreateOrUpdate (r.Client.record Verb.get Kind.freshRSS req.NamespacedName none)
      (newDeployment.deployment inst) (FreshRSSReconciler.newDeployment.mutateFn r inst) =
      (Except.ok OperationResult.None,
        (r.Client.record Verb.get Kind.freshRSS req.NamespacedName none).record Verb.get
          Kind.deployment req.NamespacedName none) :=
    (createOrUpdate_none_iff _ _ _ _).mpr
      ⟨d, hq _, by rw [hkD]; exact hD,
        (mutate_ok_iff _ _ _ _).mpr ⟨hDfix, by rw [hkD]; exact keyOf_of_lookup hD⟩,
        by rw [hkD]; rfl⟩
  have hcS : CreateOrUpdate ((r.Client.record Verb.get Kind.freshRSS req.NamespacedName
        none).record Verb.get Kind.deployment req.NamespacedName none)
      (newService.service inst) (FreshRSSReconciler.newService.mutateFn r inst) =
      (Except.ok OperationResult.None,
        ((r.Client.record Verb.get Kind.freshRSS req.NamespacedName none).record Verb.get
          Kind.deployment req.NamespacedName none).record Verb.get Kind.service
          req.NamespacedName none) :=
    (createOrUpdate_none_iff _ _ _ _).mpr
      ⟨s, hq _, by rw [hkS]; exact hS,
        (mutate_ok_iff _ _ _ _).mpr ⟨hSfix, by rw [hkS]; exact keyOf_of_lookup hS⟩,
        by rw [hkS]; rfl⟩
  have hmut : mutate (FreshRSSReconciler.newRoute.mutateFn r inst)
      (keyOf (newRoute.route inst)) (newRoute.route inst) = Except.ok rt :=
    (mutate_ok_iff _ _ _ _).mpr ⟨hrt, merged_skeleton_keys.2.2 rt hrt⟩
  have hcR := @createOrUpdate_created Route _ _
    (((r.Client.record Verb.get Kind.freshRSS req.NamespacedName none).record Verb.get
      Kind.deployment req.NamespacedName none).record Verb.get Kind.service
      req.NamespacedName none)
    (newRoute.route inst) rt
    (FreshRSSReconciler.newRoute.mutateFn r inst)
    (hq _) (by rw [hkR]; exact hR) hmut (hq _)
  rw [reconcile_of_loop_exit hget (loop_exit_route hcD hcS hcR (by simp))]
  simp only [Client.record, hkR, List.append_assoc, List.singleton_append]
  rfl

/-- Successive passes keep the scheme. -/
theorem afterPasses_scheme (r : FreshRSSReconciler) (req : Request) (n : Nat) :
    (r.afterPasses req n).Scheme = r.Scheme := by
  induction n with
  | zero => rfl
  | succ k ih => exact ih

/-- One pass over a converged store without faults: its outcome, and the
store it leaves is converged again with the same managed resources. -/
theorem converged_step {r : FreshRSSReconciler} {req : Request} {inst : FreshRSS}
    {d : Deployment} {s : Service} {rt : Route}
    (hF : (r.Client.store.lookup req.NamespacedName : Option FreshRSS) = some inst)
    (hD : (r.Client.store.lookup req.NamespacedName : Option Deployment) = some d)
    (hDfix : FreshRSSReconciler.newDeployment.mutateFn r inst d = Except.ok d)
    (hS : (r.Client.store.lookup req.NamespacedName : Option Service) = some s)
    (hSfix : FreshRSSReconciler.newService.mutateFn r inst s = Except.ok s)
    (hR : (r.Client.store.lookup req.NamespacedName : Option Route) = some rt)
    (hRfix : FreshRSSReconciler.newRoute.mutateFn r inst rt = Except.ok rt)
    (hq : ∀ n, r.Client.fault n = none) :
    (∀ n, (r.afterReconcile req).Client.fault n = none) ∧
    (∃ inst2, ((r.afterReconcile req).Client.store.lookup req.NamespacedName :
        Option FreshRSS) = some inst2 ∧
      inst2.ObjectMeta = inst.ObjectMeta ∧ inst2.Spec = inst.Spec) ∧
    ((r.afterReconcile req).Client.store.lookup req.NamespacedName : Option Deployment) =
      some d ∧
    ((r.afterReconcile req).Client.store.lookup req.NamespacedName : Option Service) =
      some s ∧
    ((r.afterReconcile req).Client.store.lookup req.NamespacedName : Option Route) =
      some rt ∧
    (r.afterReconcile req).Client.store.Deployments = r.Client.store.Deployments ∧
    (r.afterReconcile req).Client.store.Services = r.Client.store.Services ∧
    (r.afterReconcile req).Client.store.Routes = r.Client.store.Routes := by
  obtain ⟨_, _, _, _, _, c1, c2, c3, c4, hget, hcD, hcS, hcR⟩ :=
    reconcile_converged hF hD hDfix hS hSfix hR hRfix (fun n _ => hq n)
  obtain ⟨hf, hsD, hsS, hsR, hi2, _⟩ := reconcile_through_frame hget hcD hcS hcR
  refine ⟨?_, hi2, ?_, ?_, ?_, hsD, hsS, hsR⟩
  · intro n
    show (r.Reconcile req).2.fault n = none
    rw [hf]
    exact hq n
  · unfold Store.lookup at hD ⊢
    show ((r.Reconcile req).2.store.Deployments.find? _) = _
    rw [hsD]
    exact hD
  · unfold Store.lookup at hS ⊢
    show ((r.Reconcile req).2.store.Services.find? _) = _
    rw [hsS]
    exact hS
  · unfold Store.lookup at hR ⊢
    show ((r.Reconcile req).2.store.Routes.find? _) = _
    rw [hsR]
    exact hR

/-- From a converged store on, every state reached by further passes is
converged with the same managed resources. -/
theorem converged_forever {r : FreshRSSReconciler} {req : Request} {inst : FreshRSS}
    {d : Deployment} {s : Service} {rt : Route}
    (hF : (r.Client.store.lookup req.NamespacedName : Option FreshRSS) = some inst)
    (hD : (r.Client.store.lookup req.NamespacedName : Option Deployment) = some d)
    (hDfix : FreshRSSReconciler.newDeployment.mutateFn r inst d = Except.ok d)
    (hS : (r.Client.store.lookup req.NamespacedName : Option Service) = some s)
    (hSfix : FreshRSSReconciler.newService.mutateFn r inst s = Except.ok s)
    (hR : (r.Client.store.lookup req.NamespacedName : Option Route) = some rt)
    (hRfix : FreshRSSReconciler.newRoute.mutateFn r inst rt = Except.ok rt)
    (hq : ∀ n, r.Client.fault n = none) (k : Nat) :
    (∀ n, (r.afterPasses req k).Client.fault n = none) ∧
    (∃ inst2, ((r.afterPasses req k).Client.store.lookup req.NamespacedName :
        Option FreshRSS) = some inst2 ∧
      inst2.ObjectMeta = inst.ObjectMeta ∧ inst2.Spec = inst.Spec) ∧
    ((r.afterPasses req k).Client.store.lookup req.NamespacedName : Option Deployment) =
      some d ∧
    ((r.afterPasses req k).Client.store.lookup req.NamespacedName : Option Service) =
      some s ∧
    ((r.afterPasses req k).Client.store.lookup req.NamespacedName : Option Route) =
      some rt ∧
    (r.afterPasses req k).Client.store.Deployments = r.Client.store.Deployments ∧
    (r.afterPasses req k).Client.store.Services = r.Client.store.Services ∧
    (r.afterPasses req k).Client.store.Routes = r.Client.store.Routes := by
  induction k with
  | zero => exact ⟨hq, ⟨inst, hF, rfl, rfl⟩, hD, hS, hR, rfl, rfl, rfl⟩
  | succ k ih =>
    obtain ⟨iq, ⟨i, iF, im, ip⟩, iD, iS, iR, lD, lS, lR⟩ := ih
    obtain ⟨gD, gS, gR, _, _, _⟩ := @merge_congr r (r.afterPasses req k) inst i
      (afterPasses_scheme r req k) im ip
    obtain ⟨a1, ⟨i2, a2, a3, a4⟩, a5, a6, a7, a8, a9, a10⟩ :=
      @converged_step (r.afterPasses req k) req i d s rt iF iD (by rw [gD]; exact hDfix)
        iS (by rw [gS]; exact hSfix) iR (by rw [gR]; exact hRfix) iq
    exact ⟨a1, ⟨i2, a2, by rw [a3, im], by rw [a4, ip]⟩, a5, a6, a7, by rw [← lD]; exact a8,
      by rw [← lS]; exact a9, by rw [← lR]; exact a10⟩

/-- Passes after passes add up. -/
theorem afterPasses_add (r : FreshRSSReconciler) (req : Request) (n k : Nat) :
    (r.afterPasses req n).afterPasses req k = r.afterPasses req (n + k) := by
  induction k with
  | zero => rfl
  | succ j ih =>
    show ((r.afterPasses req n).afterPasses req j).afterReconcile req =
      (r.afterPasses req (n + j)).afterReconcile req
    rw [ih]

/-- C17: from a store that holds the desired resource and none of its managed
resources, with no fault ever and owner attachment succeeding on a skeleton,
successive invocations of Reconcile do the following. The first fetches the
FreshRSS, finds no Workload and creates it, and nothing else; the second finds
the Workload unchanged and creates only the NetworkEndpoint; the third finds
both unchanged and creates only the ExternalRoute; each stores the merged
skeleton verbatim. The fourth and every later invocation reports Unchanged for
all three kinds, fetches the route and updates the status, and leaves the
three managed resources as the third invocation left them. -/
theorem C17_multi_pass_convergence (r : FreshRSSReconciler) (req : Request) (inst : FreshRSS)
    (m : ObjectMeta)
    (hF : (r.Client.store.lookup req.NamespacedName : Option FreshRSS) = some inst)
    (hD : (r.Client.store.lookup req.NamespacedName : Option Deployment) = none)
    (hS : (r.Client.store.lookup req.NamespacedName : Option Service) = none)
    (hR : (r.Client.store.lookup req.NamespacedName : Option Route) = none)
    (hq : ∀ n, r.Client.fault n = none)
    (hown : SetControllerReference inst.ObjectMeta (newDeployment.deployment inst).ObjectMeta
      r.Scheme = Except.ok m) :
    ∃ d s rt,
      FreshRSSReconciler.newDeployment.mutateFn r inst (newDeployment.deployment inst) =
        Except.ok d ∧
      FreshRSSReconciler.newService.mutateFn r inst (newService.service inst) = Except.ok s ∧
      FreshRSSReconciler.newRoute.mutateFn r inst (newRoute.route inst) = Except.ok rt ∧
      ((r.Reconcile req).1 = ({}, none) ∧
        opsSince r.Client (r.afterPasses req 1).Client =
          [{ verb := Verb.get, kind := Kind.freshRSS, key := req.NamespacedName, err := none },
           { verb := Verb.get, kind := Kind.deployment, key := req.NamespacedName,
             err := some Err.notFound },
           { verb := Verb.create, kind := Kind.deployment, key := req.NamespacedName,
             err := none }] ∧
        (r.afterPasses req 1).Client.store =
          { r.Client.store with Deployments := r.Client.store.Deployments ++ [d] }) ∧
      (((r.afterPasses req 1).Reconcile req).1 = ({}, none) ∧
        opsSince (r.afterPasses req 1).Client (r.afterPasses req 2).Client =
          [{ verb := Verb.get, kind := Kind.freshRSS, key := req.NamespacedName, err := none },
           { verb := Verb.get, kind := Kind.deployment, key := req.NamespacedName, err := none },
           { verb := Verb.get, kind := Kind.service, key := req.NamespacedName,
             err := some Err.notFound },
           { verb := Verb.create, kind := Kind.service, key := req.NamespacedName,
             err := none }] ∧
        (r.afterPasses req 2).Client.store =
          { r.Client.store with
            Deployments := r.Client.store.Deployments ++ [d]
            Services := r.Client.store.Services ++ [s] }) ∧
      (((r.afterPasses req 2).Reconcile req).1 = ({}, none) ∧
        opsSince (r.afterPasses req 2).Client (r.afterPasses req 3).Client =
          [{ verb := Verb.get, kind := Kind.freshRSS, key := req.NamespacedName, err := none },
           { verb := Verb.get, kind := Kind.deployment, key := req.NamespacedName, err := none },
           { verb := Verb.get, kind := Kind.service, key := req.NamespacedName, err := none },
           { verb := Verb.get, kind := Kind.route, key := req.NamespacedName,
             err := some Err.notFound },
           { verb := Verb.create, kind := Kind.route, key := req.NamespacedName,
             err := none }] ∧
        (r.afterPasses req 3).Client.store =
          { r.Client.store with
            Deployments := r.Client.store.Deployments ++ [d]
            Services := r.Client.store.Services ++ [s]
            Routes := r.Client.store.Routes ++ [rt] }) ∧
      ∀ k : Nat,
        ((r.afterPasses req (3 + k)).Reconcile req).1 = ({}, none) ∧
        opsSince (r.afterPasses req (3 + k)).Client (r.afterPasses req (3 + k + 1)).Client =
          [{ verb := Verb.get, kind := Kind.freshRSS, key := req.NamespacedName, err := none },
           { verb := Verb.get, kind := Kind.deployment, key := req.NamespacedName, err := none },
           { verb := Verb.get, kind := Kind.service, key := req.NamespacedName, err := none },
           { verb := Verb.get, kind := Kind.route, key := req.NamespacedName, err := none },
           { verb := Verb.get, kind := Kind.route, key := req.NamespacedName, err := none },
           { verb := Verb.statusUpdate, kind := Kind.freshRSS, key := req.NamespacedName,
             err := none }] ∧
        (r.afterPasses req (3 + k + 1)).Client.store.Deployments =
          r.Client.store.Deployments ++ [d] ∧
        (r.afterPasses req (3 + k + 1)).Client.store.Services =
          r.Client.store.Services ++ [s] ∧
        (r.afterPasses req (3 + k + 1)).Client.store.Routes = r.Client.store.Routes ++ [rt] ∧
        ∃ inst2 b1 b2 b3 b4,
          ((r.afterPasses req (3 + k)).Client.Get req.NamespacedName :
            Except Err FreshRSS × Client) = (Except.ok inst2, b1) ∧
          CreateOrUpdate b1 (newDeployment.deployment inst2)
            (FreshRSSReconciler.newDeployment.mutateFn (r.afterPasses req (3 + k)) inst2) =
            (Except.ok OperationResult.None, b2) ∧
          CreateOrUpdate b2 (newService.service inst2)
            (FreshRSSReconciler.newService.mutateFn (r.afterPasses req (3 + k)) inst2) =
            (Except.ok OperationResult.None, b3) ∧
          CreateOrUpdate b3 (newRoute.route inst2)
            (FreshRSSReconciler.newRoute.mutateFn (r.afterPasses req (3 + k)) inst2) =
            (Except.ok OperationResult.None, b4) := by
  obtain ⟨d, s, rt, hd, hs, hrt⟩ := merges_of_owner hown
  have hkey : keyOf inst = req.NamespacedName := keyOf_of_lookup hF
  have hDfix := newDeployment_mutateFn_idem hd
  have hSfix := newService_mutateFn_idem hs
  have hRfix := newRoute_mutateFn_idem hrt
  have hkd : keyOf d = req.NamespacedName := by rw [← hkey]; exact merged_skeleton_keys.1 d hd
  have hks : keyOf s = req.NamespacedName := by rw [← hkey]; exact merged_skeleton_keys.2.1 s hs
  have hkrt : keyOf rt = req.NamespacedName := by
    rw [← hkey]; exact merged_skeleton_keys.2.2 rt hrt
  -- first pass
  have p1 := pass_creates_deployment hF hD hd hq
  have e1 : (r.afterPasses req 1).Client =
      { store := { r.Client.store with Deployments := r.Client.store.Deployments ++ [d] }
        fault := r.Client.fault
        log := r.Client.log ++
          [{ verb := Verb.get, kind := Kind.freshRSS, key := req.NamespacedName, err := none },
           { verb := Verb.get, kind := Kind.deployment, key := req.NamespacedName,
             err := some Err.notFound },
           { verb := Verb.create, kind := Kind.deployment, key := req.NamespacedName,
             err := none }] } := by
    show (r.Reconcile req).2 = _
    rw [p1]
  have hF1 : ((r.afterPasses req 1).Client.store.lookup req.NamespacedName :
      Option FreshRSS) = some inst := by rw [e1]; exact hF
  have hD1 : ((r.afterPasses req 1).Client.store.lookup req.NamespacedName :
      Option Deployment) = some d := by
    rw [e1]; exact lookup_append_new r.Client.store d req.NamespacedName hD hkd
  have hS1 : ((r.afterPasses req 1).Client.store.lookup req.NamespacedName :
      Option Service) = none := by rw [e1]; exact hS
  have hR1 : ((r.afterPasses req 1).Client.store.lookup req.NamespacedName :
      Option Route) = none := by rw [e1]; exact hR
  have hq1 : ∀ n, (r.afterPasses req 1).Client.fault n = none := by rw [e1]; exact hq
  obtain ⟨gD1, gS1, gR1, _, _, _⟩ := @merge_congr r (r.afterPasses req 1) inst inst
    (afterPasses_scheme r req 1) rfl rfl
  -- second pass
  have p2 := @pass_creates_service (r.afterPasses req 1) req inst d s hF1 hD1
    (by rw [gD1]; exact hDfix) hS1 (by rw [gS1]; exact hs) hq1
  have e2 : (r.afterPasses req 2).Client =
      { store := { (r.afterPasses req 1).Client.store with
          Services := (r.afterPasses req 1).Client.store.Services ++ [s] }
        fault := (r.afterPasses req 1).Client.fault
        log := (r.afterPasses req 1).Client.log ++
          [{ verb := Verb.get, kind := Kind.freshRSS, key := req.NamespacedName, err := none },
           { verb := Verb.get, kind := Kind.deployment, key := req.NamespacedName, err := none },
           { verb := Verb.get, kind := Kind.service, key := req.NamespacedName,
             err := some Err.notFound },
           { verb := Verb.create, kind := Kind.service, key := req.NamespacedName,
             err := none }] } := by
    show ((r.afterPasses req 1).Reconcile req).2 = _
    rw [p2]
  have hF2 : ((r.afterPasses req 2).Client.store.lookup req.NamespacedName :
      Option FreshRSS) = some inst := by rw [e2]; exact hF1
  have hD2 : ((r.afterPasses req 2).Client.store.lookup req.NamespacedName :
      Option Deployment) = some d := by rw [e2]; exact hD1
  have hS2 : ((r.afterPasses req 2).Client.store.lookup req.NamespacedName :
      Option Service) = some s := by
    rw [e2]; exact lookup_append_new (r.afterPasses req 1).Client.store s req.NamespacedName hS1 hks
  have hR2 : ((r.afterPasses req 2).Client.store.lookup req.NamespacedName :
      Option Route) = none := by rw [e2]; exact hR1
  have hq2 : ∀ n, (r.afterPasses req 2).Client.fault n = none := by rw [e2]; exact hq1
  obtain ⟨gD2, gS2, gR2, _, _, _⟩ := @merge_congr r (r.afterPasses req 2) inst inst
    (afterPasses_scheme r req 2) rfl rfl
  -- third pass
  have p3 := @pass_creates_route (r.afterPasses req 2) req inst d s rt hF2 hD2
    (by rw [gD2]; exact hDfix) hS2 (by rw [gS2]; exact hSfix) hR2 (by rw [gR2]; exact hrt) hq2
  have e3 : (r.afterPasses req 3).Client =
      { store := { (r.afterPasses req 2).Client.store with
          Routes := (r.afterPasses req 2).Client.store.Routes ++ [rt] }
        fault := (r.afterPasses req 2).Client.fault
        log := (r.afterPasses req 2).Client.log ++
          [{ verb := Verb.get, kind := Kind.freshRSS, key := req.NamespacedName, err := none },
           { verb := Verb.get, kind := Kind.deployment, key := req.NamespacedName, err := none },
           { verb := Verb.get, kind := Kind.service, key := req.NamespacedName, err := none },
           { verb := Verb.get, kind := Kind.route, key := req.NamespacedName,
             err := some Err.notFound },
           { verb := Verb.create, kind := Kind.route, key := req.NamespacedName,
             err := none }] } := by
    show ((r.afterPasses req 2).Reconcile req).2 = _
    rw [p3]
  have hF3 : ((r.afterPasses req 3).Client.store.lookup req.NamespacedName :
      Option FreshRSS) = some inst := by rw [e3]; exact hF2
  have hD3 : ((r.afterPasses req 3).Client.store.lookup req.NamespacedName :
      Option Deployment) = some d := by rw [e3]; exact hD2
  have hS3 : ((r.afterPasses req 3).Client.store.lookup req.NamespacedName :
      Option Service) = some s := by rw [e3]; exact hS2
  have hR3 : ((r.afterPasses req 3).Client.store.lookup req.NamespacedName :
      Option Route) = some rt := by
    rw [e3]
    exact lookup_append_new (r.afterPasses req 2).Client.store rt req.NamespacedName hR2 hkrt
  have hq3 : ∀ n, (r.afterPasses req 3).Client.fault n = none := by rw [e3]; exact hq2
  obtain ⟨gD3, gS3, gR3, _, _, _⟩ := @merge_congr r (r.afterPasses req 3) inst inst
    (afterPasses_scheme r req 3) rfl rfl
  have st2 : (r.afterPasses req 2).Client.store =
      { r.Client.store with
        Deployments := r.Client.store.Deployments ++ [d]
        Services := r.Client.store.Services ++ [s] } := by
    rw [e2, e1]
  have st3 : (r.afterPasses req 3).Client.store =
      { r.Client.store with
        Deployments := r.Client.store.Deployments ++ [d]
        Services := r.Client.store.Services ++ [s]
        Routes := r.Client.store.Routes ++ [rt] } := by
    rw [e3, st2]
  refine ⟨d, s, rt, hd, hs, hrt, ⟨?_, ?_, ?_⟩, ⟨?_, ?_, st2⟩, ⟨?_, ?_, st3⟩, ?_⟩
  · rw [p1]
  · exact opsSince_of_log (by rw [e1])
  · rw [e1]
  · rw [p2]
  · exact opsSince_of_log (by rw [e2])
  · rw [p3]
  · exact opsSince_of_log (by rw [e3])
  · intro k
    obtain ⟨iq, ⟨i, iF, im, ip⟩, iD, iS, iR, lD, lS, lR⟩ :=
      @converged_forever (r.afterPasses req 3) req inst d s rt hF3 hD3
        (by rw [gD3]; exact hDfix) hS3 (by rw [gS3]; exact hSfix) hR3
        (by rw [gR3]; exact hRfix) hq3 k
    rw [afterPasses_add] at iq iF iD iS iR lD lS lR
    obtain ⟨gDk, gSk, gRk, _, _, _⟩ := @merge_congr r (r.afterPasses req (3 + k)) inst i
      (afterPasses_scheme r req (3 + k)) im ip
    obtain ⟨a1, a2, a3, a4, a5, b1, b2, b3, b4, a6⟩ :=
      @reconcile_converged (r.afterPasses req (3 + k)) req i d s rt iF iD
        (by rw [gDk]; exact hDfix) iS (by rw [gSk]; exact hSfix) iR
        (by rw [gRk]; exact hRfix) (fun n _ => iq n)
    refine ⟨a1, a2, ?_, ?_, ?_, i, b1, b2, b3, b4, a6⟩
    · show ((r.afterPasses req (3 + k)).Reconcile req).2.store.Deployments = _
      rw [a3, lD, st3]
    · show ((r.afterPasses req (3 + k)).Reconcile req).2.store.Services = _
      rw [a4, lS, st3]
    · show ((r.afterPasses req (3 + k)).Reconcile req).2.store.Routes = _
      rw [a5, lR, st3]

/-- Witness for C17: from the store of `demoFresh`, which holds only `demoA`,
three passes create the Deployment, the Service and the Route in turn, the
fourth pass writes nothing but the status, and so does the sixth. -/
theorem C17_multi_pass_convergence_witness :
    (opsSince demoFresh.Client (demoFresh.afterPasses demoRequest 1).Client).map
        (fun op => (op.verb, op.kind, op.err)) =
      [(Verb.get, Kind.freshRSS, none), (Verb.get, Kind.deployment, some Err.notFound),
       (Verb.create, Kind.deployment, none)] ∧
    (opsSince (demoFresh.afterPasses demoRequest 1).Client
        (demoFresh.afterPasses demoRequest 2).Client).map
        (fun op => (op.verb, op.kind, op.err)) =
      [(Verb.get, Kind.freshRSS, none), (Verb.get, Kind.deployment, none),
       (Verb.get, Kind.service, some Err.notFound), (Verb.create, Kind.service, none)] ∧
    (opsSince (demoFresh.afterPasses demoRequest 2).Client
        (demoFresh.afterPasses demoRequest 3).Client).map
        (fun op => (op.verb, op.kind, op.err)) =
      [(Verb.get, Kind.freshRSS, none), (Verb.get, Kind.deployment, none),
       (Verb.get, Kind.service, none), (Verb.get, Kind.route, some Err.notFound),
       (Verb.create, Kind.route, none)] ∧
    (demoFresh.afterPasses demoRequest 3).Client.store =
      { FreshRSSes := [demoA], Deployments := [demoLiveA], Services := [demoService],
        Routes := [demoRouteNoHost] } ∧
    ((demoFresh.afterPasses demoRequest 5).Reconcile demoRequest).1 = ({}, none) ∧
    opsSince (demoFresh.afterPasses demoRequest 5).Client
        (demoFresh.afterPasses demoRequest 6).Client =
      [{ verb := Verb.get, kind := Kind.freshRSS, key := demoRequest.NamespacedName, err := none },
       { verb := Verb.get, kind := Kind.deployment, key := demoRequest.NamespacedName, err := none },
       { verb := Verb.get, kind := Kind.service, key := demoRequest.NamespacedName, err := none },
       { verb := Verb.get, kind := Kind.route, key := demoRequest.NamespacedName, err := none },
       { verb := Verb.get, kind := Kind.route, key := demoRequest.NamespacedName, err := none },
       { verb := Verb.statusUpdate, kind := Kind.freshRSS, key := demoRequest.NamespacedName,
         err := none }] :=
  have h := C17_multi_pass_convergence demoFresh demoRequest demoA demoLiveA.ObjectMeta
    rfl rfl rfl rfl (fun _ => rfl) rfl
  ⟨rfl, rfl, rfl, rfl,
    h.elim (fun _ h => h.elim (fun _ h => h.elim (fun _ h => (h.2.2.2.2.2.2 2).1))),
    h.elim (fun _ h => h.elim (fun _ h => h.elim (fun _ h => (h.2.2.2.2.2.2 2).2.1)))⟩

end FreshRSSOperator
